import Mathlib

/-!
# Image ingestion and validation pipeline (aragon-image-upload)

A shallow embedding of the upload validators and of the ingestion orchestrator
of the `aragon-image-upload` service, followed by theorems about them.

Conventions of the embedding
* A JavaScript string is a Lean `String`; indexing `s[i]` reads `s.data`.
* A finite JavaScript number is a rational (`ℚ`); pixel dimensions, counts and
  the numeric literals of `config/index.js` are integers (`Int`, `Nat`).
* Where the service multiplies measured values (the size of a face), the
  product of two doubles is a parameter of the model, as is `Math.sqrt`.
* `null`/`undefined` is `none`.
* A thrown exception is `Except.error`.
-/

set_option autoImplicit false

namespace AragonImageUpload

/-! ## JavaScript library functions used by the service -/

/-- ASCII part of `String.prototype.toLowerCase`. Every use in the service
compares the result with an all-ASCII lower-case literal, and no non-ASCII
character lower-cases to one of the letters of these literals, so the
comparison is decided by this part alone. -/
def toLowerCase (s : String) : String :=
  String.mk (s.data.map Char.toLower)

/-- Scanner state of Node's POSIX `path.extname`. -/
structure ExtScan where
  startDot : Option Nat
  startPart : Nat
  endIdx : Option Nat
  matchedSlash : Bool
  preDotState : Int
  stopped : Bool
  deriving DecidableEq, Repr

/-- One iteration of the backwards loop of `path.extname` at index `i` holding
character `c`. -/
def extScanStep (st : ExtScan) (i : Nat) (c : Char) : ExtScan :=
  if st.stopped then st
  else if c = '/' then
    if !st.matchedSlash then { st with startPart := i + 1, stopped := true }
    else st
  else
    let st1 : ExtScan :=
      match st.endIdx with
      | none => { st with matchedSlash := false, endIdx := some (i + 1) }
      | some _ => st
    if c = '.' then
      match st1.startDot with
      | none => { st1 with startDot := some i }
      | some _ => if st1.preDotState ≠ 1 then { st1 with preDotState := 1 } else st1
    else
      match st1.startDot with
      | none => st1
      | some _ => { st1 with preDotState := -1 }

/-- Runs the loop of `path.extname` over the characters of the path, last
character first; `cs` is the reversed path and `n` its length. -/
def extScanLoop : List Char → Nat → ExtScan → ExtScan
  | [], _, st => st
  | c :: cs, n, st => extScanLoop cs (n - 1) (extScanStep st (n - 1) c)

/-- Node's POSIX `path.extname`: the extension of the last path component, from
its last dot on; empty when that component has no dot, starts with its only
dot, or is `..`. -/
def extname (path : String) : String :=
  let st := extScanLoop path.data.reverse path.data.length
    { startDot := none, startPart := 0, endIdx := none, matchedSlash := true,
      preDotState := 0, stopped := false }
  match st.startDot, st.endIdx with
  | some sd, some e =>
    if st.preDotState = 0 ∨ (st.preDotState = 1 ∧ sd = e - 1 ∧ sd = st.startPart + 1) then ""
    else String.mk ((path.data.drop sd).take (e - sd))
  | _, _ => ""

/-- Left-pads a digit string with zeros up to length `n`. -/
def padZeros (n : Nat) (ds : List Char) : List Char :=
  List.replicate (n - ds.length) '0' ++ ds

/-- The integer nearest to `|x| * 10^fd`, the larger one on a tie. -/
def roundedScaled (x : ℚ) (fd : Nat) : Nat :=
  (Rat.floor (|x| * (10 : ℚ) ^ fd + 1 / 2)).toNat

/-- The decimal digits of `n`, at least `fd + 1` of them, with a point before
the last `fd`. -/
def fixedDigits (n fd : Nat) : String :=
  let ds := padZeros (fd + 1) (Nat.repr n).data
  let k := ds.length - fd
  if fd = 0 then String.mk ds
  else String.mk (ds.take k) ++ "." ++ String.mk (ds.drop k)

/-- `Number.prototype.toFixed(fd)` on a finite number of magnitude below
`10^21`: the sign, then the integer nearest to `|x| * 10^fd` (the larger one on
a tie) written with at least `fd + 1` digits and a point before the last `fd`
of them. -/
def toFixed (x : ℚ) (fd : Nat) : String :=
  (if x < 0 then "-" else "") ++ fixedDigits (roundedScaled x fd) fd

/-- Node's POSIX `path.basename` with one argument: the last path component,
trailing separators ignored. -/
def basename (path : String) : String :=
  let trimmed := path.data.reverse.dropWhile (fun c => c = '/')
  String.mk (trimmed.takeWhile (fun c => c ≠ '/')).reverse

/-! ## Configuration (`config/index.js`) -/

/-- The `imageValidation` block of the configuration. The optional maxima are
`none` when left out. -/
structure ImageValidation where
  maxFileSize : Nat
  minWidth : Int
  minHeight : Int
  maxWidth : Option Int
  maxHeight : Option Int
  allowedTypes : List String
  similarityThreshold : Int
  blurThreshold : Int
  minFaceSize : Int
  maxFaceCount : Nat

/-- The literal values of `config/index.js`. -/
def defaultConfig : ImageValidation :=
  { maxFileSize := 120 * 1024 * 1024
    minWidth := 300
    minHeight := 300
    maxWidth := some 5000
    maxHeight := some 5000
    allowedTypes := ["image/jpeg", "image/jpg", "image/png", "image/heic", "image/heif"]
    similarityThreshold := 85
    blurThreshold := 5
    minFaceSize := 5
    maxFaceCount := 1 }

/-- JavaScript truthiness of an optional numeric setting: present and not
zero. -/
def truthy (v : Option Int) : Bool :=
  match v with
  | some n => n != 0
  | none => false

/-! ## Validators (`src/utils/validators.js`) -/

/-- The object every validator returns. -/
structure ValidationResult where
  valid : Bool
  reason : Option String
  deriving DecidableEq, Repr

/-- The result `valid: true, reason: null`. -/
def passed : ValidationResult := { valid := true, reason := none }

/-- The result `valid: false` with the given reason. -/
def rejected (reason : String) : ValidationResult := { valid := false, reason := some reason }

/-- `validators.validateFormat`. -/
def validateFormat (cfg : ImageValidation) (mimeType originalName : String) : ValidationResult :=
  let isValidMime := cfg.allowedTypes.contains mimeType
  if !isValidMime then
    let ext := toLowerCase (extname originalName)
    if ext = ".heic" ∨ ext = ".heif" then passed
    else rejected "Unsupported file format. Allowed types: JPG, PNG, HEIC"
  else passed

/-- The reason of a too-small image. -/
def tooSmallReason (cfg : ImageValidation) (width height : Int) : String :=
  "Image dimensions too small. Minimum: " ++ toString cfg.minWidth ++ "x" ++
    toString cfg.minHeight ++ "px, Actual: " ++ toString width ++ "x" ++ toString height ++ "px"

/-- The reason of a too-large image, for maxima `mw` and `mh`. -/
def tooLargeReason (mw mh width height : Int) : String :=
  "Image dimensions too large. Maximum: " ++ toString mw ++ "x" ++
    toString mh ++ "px, Actual: " ++ toString width ++ "x" ++ toString height ++ "px"

/-- `validators.validateDimensions`. The maxima are read only after both were
found truthy. -/
def validateDimensions (cfg : ImageValidation) (width height : Int) : ValidationResult :=
  if width < cfg.minWidth ∨ height < cfg.minHeight then
    rejected (tooSmallReason cfg width height)
  else if truthy cfg.maxWidth && truthy cfg.maxHeight then
    if width > cfg.maxWidth.getD 0 ∨ height > cfg.maxHeight.getD 0 then
      rejected (tooLargeReason (cfg.maxWidth.getD 0) (cfg.maxHeight.getD 0) width height)
    else passed
  else passed

/-- The loop of `calculateHashSimilarity`: the number of positions at which the
two character sequences agree. -/
def matchingChars : List Char → List Char → Nat
  | a :: as, b :: bs => (if a = b then 1 else 0) + matchingChars as bs
  | _, _ => 0

/-- `calculateHashSimilarity`. A missing (`null`/`undefined`) hash is `none`. -/
def calculateHashSimilarity (hash1 hash2 : Option String) : ℚ :=
  match hash1, hash2 with
  | some h1, some h2 =>
    if h1 = "" ∨ h2 = "" ∨ h1.length ≠ h2.length then 0
    else ((matchingChars h1.data h2.data : ℚ) / (h1.length : ℚ)) * 100
  | _, _ => 0

/-- `validators.validateSharpness`. -/
def validateSharpness (cfg : ImageValidation) (blurValue : ℚ) : ValidationResult :=
  let threshold := cfg.blurThreshold
  let isValid : Bool := decide (blurValue ≥ (threshold : ℚ))
  { valid := isValid
    reason := if isValid then none
      else some ("Image is too blurry (score: " ++ toFixed blurValue 2 ++ ", minimum: " ++
        toString threshold ++ ")") }

/-! ## Face detection (`src/services/faceDetectionService.js`) -/

/-- The `BoundingBox` of a detected face: fractions of the frame. -/
structure BoundingBox where
  Width : ℚ
  Height : ℚ
  Left : ℚ
  Top : ℚ
  deriving DecidableEq

/-- One entry of `FaceDetails` in the reply of the detection service. -/
structure FaceDetail where
  Confidence : ℚ
  BoundingBox : BoundingBox
  deriving DecidableEq

/-- One entry of `faces` as built by `detectFaces`. -/
structure Face where
  confidence : ℚ
  boundingBox : BoundingBox
  sizePercentage : ℚ
  deriving DecidableEq

/-- The object `detectFaces` returns. -/
structure FaceResults where
  faceCount : Nat
  faces : List Face
  deriving DecidableEq

/-- The mapping `detectFaces` applies to the reply of the detection service.
`mul` is the multiplication of two numbers as JavaScript carries it out on
doubles: the product rounded to the nearest double. `Width * Height * 100` is
two such multiplications, from left to right. -/
def toFaceResults (mul : ℚ → ℚ → ℚ) (details : List FaceDetail) : FaceResults :=
  { faceCount := details.length
    faces := details.map fun face =>
      { confidence := face.Confidence
        boundingBox := face.BoundingBox
        sizePercentage := mul (mul face.BoundingBox.Width face.BoundingBox.Height) 100 } }

/-- The reason of a face below the minimum size. -/
def faceTooSmallReason (cfg : ImageValidation) (sizePercentage : ℚ) : String :=
  "Face is too small (" ++ toFixed sizePercentage 2 ++ "% of image). Minimum required: " ++
    toString cfg.minFaceSize ++ "%"

/-- `faceDetectionService.validateFaces`. Reading `faces[0].sizePercentage`
throws when `faces` is empty. -/
def validateFaces (cfg : ImageValidation) (faceResults : FaceResults) :
    Except String ValidationResult :=
  if faceResults.faceCount = 0 then
    .ok (rejected "No faces detected in the image")
  else if faceResults.faceCount > 1 then
    .ok (rejected ("Multiple faces detected (" ++ toString faceResults.faceCount ++
      "). Only one face allowed"))
  else
    match faceResults.faces.head? with
    | none => .error "TypeError: Cannot read properties of undefined (reading 'sizePercentage')"
    | some face =>
      if face.sizePercentage < (cfg.minFaceSize : ℚ) then
        .ok (rejected (faceTooSmallReason cfg face.sizePercentage))
      else .ok passed

/-! ## Record store, object store and external capabilities -/

/-- The lifecycle states of an image record. -/
inductive Status where
  | PROCESSING
  | ACCEPTED
  | REJECTED
  deriving DecidableEq, Repr

/-- Raw bytes. -/
abbrev Buffer := List Nat

/-- A row of the `image` table, with the fields the service reads and writes. -/
structure ImageRecord where
  id : Nat
  userId : String
  originalName : String
  fileName : String
  fileSize : Nat
  fileType : String
  s3Key : String
  s3Url : String
  width : Option Int
  height : Option Int
  status : Status
  rejectionReason : Option String
  similarityHash : Option String
  createdAt : Nat
  deriving DecidableEq

/-- An object of the storage bucket. -/
structure S3Object where
  Key : String
  Body : Buffer
  ContentType : String
  deriving DecidableEq

/-- The calls the orchestrator makes to its collaborators, in the order made. -/
inductive Effect where
  | imageCreate
  | processImage
  | detectFaces
  | uploadFile
  | generateSimilarityHash
  | detectBlurriness
  | imageFindMany
  | imageUpdate
  | getSignedUrl
  deriving DecidableEq, Repr

/-- The state outside the orchestrator: the `image` table, the bucket, and the
trace of collaborator calls. -/
structure World where
  images : List ImageRecord
  nextId : Nat
  bucket : List S3Object
  log : List Effect

/-- Appends a call to the trace. -/
def World.emit (w : World) (e : Effect) : World :=
  { w with log := w.log ++ [e] }

/-- What the decoder reports about an image. -/
structure Metadata where
  width : Int
  height : Int
  format : String
  deriving DecidableEq

/-- The outcomes of everything the service does not compute itself: the image
codec, the face-detection service, the bucket, and the random and clock
values. `generateSimilarityHash` and `detectBlurriness` are the values the
image processor returns for the given bytes; both catch their own errors and
always return. `mulDouble` is the multiplication of doubles: the product of two
numbers rounded to the nearest double. -/
structure Env where
  sharpJpeg : Buffer → Except String Buffer
  sharpMetadata : Buffer → Except String Metadata
  rekognitionSend : Buffer → Except String (List FaceDetail)
  s3Upload : S3Object → Except String Unit
  s3GetSignedUrl : String → String
  uuidv4 : String
  tempId : String
  now : Nat
  generateSimilarityHash : Buffer → String
  detectBlurriness : Buffer → ℚ
  mulDouble : ℚ → ℚ → ℚ

/-- The fields `processUpload` passes to `prisma.image.create`. -/
structure CreateData where
  userId : String
  originalName : String
  fileName : String
  fileSize : Nat
  fileType : String
  s3Key : String
  s3Url : String
  status : Status

/-- `prisma.image.create`: inserts a row with a fresh id and returns it. -/
def World.imageCreate (w : World) (env : Env) (data : CreateData) : World × ImageRecord :=
  let record : ImageRecord :=
    { id := w.nextId
      userId := data.userId
      originalName := data.originalName
      fileName := data.fileName
      fileSize := data.fileSize
      fileType := data.fileType
      s3Key := data.s3Key
      s3Url := data.s3Url
      width := none
      height := none
      status := data.status
      rejectionReason := none
      similarityHash := none
      createdAt := env.now }
  ({ w with images := w.images ++ [record], nextId := w.nextId + 1 }.emit .imageCreate, record)

/-- `prisma.image.findUnique` by id. -/
def World.imageFindUnique (w : World) (id : Nat) : Option ImageRecord :=
  w.images.find? fun r => r.id = id

/-- `prisma.image.update` by id: rewrites the matching row and returns it;
throws when there is none. -/
def World.imageUpdate (w : World) (id : Nat) (f : ImageRecord → ImageRecord) :
    World × Except String ImageRecord :=
  let w1 := w.emit .imageUpdate
  match w.imageFindUnique id with
  | none => (w1, .error "Record to update not found.")
  | some r =>
    ({ w1 with images := w.images.map fun x => if x.id = id then f x else x }, .ok (f r))

/-- `prisma.image.findMany` filtered by user and, when given, by status. -/
def World.imageFindMany (w : World) (userId : String) (status : Option Status) :
    List ImageRecord :=
  w.images.filter fun r =>
    decide (r.userId = userId) &&
      (match status with | some s => decide (r.status = s) | none => true)

/-! ## Storage service (`src/services/s3Service.js`) -/

/-- `s3Service.getSignedUrl`. -/
def getSignedUrl (env : Env) (key : String) : String :=
  env.s3GetSignedUrl key

/-- The object `uploadFile` sends to the bucket: the key is `uploads/`, a fresh
UUID, a dash and the file name. -/
def uploadParams (env : Env) (buffer : Buffer) (fileName mimeType : String) : S3Object :=
  { Key := "uploads/" ++ env.uuidv4 ++ "-" ++ fileName, Body := buffer, ContentType := mimeType }

/-- `s3Service.uploadFile`. -/
def uploadFile (env : Env) (w : World) (buffer : Buffer) (fileName mimeType : String) :
    World × Except String (String × String) :=
  let params := uploadParams env buffer fileName mimeType
  let key := params.Key
  let w1 := w.emit .uploadFile
  match env.s3Upload params with
  | .error e => (w1, .error e)
  | .ok _ => ({ w1 with bucket := w1.bucket ++ [params] }, .ok (key, env.s3GetSignedUrl key))

/-! ## Image processor (`src/utils/imageProcessor.js`) -/

/-- The object `processImage` returns. -/
structure ProcessedImage where
  processedBuffer : Buffer
  metadata : Metadata
  width : Int
  height : Int
  format : String
  deriving DecidableEq

/-- `imageProcessor.processImage`. -/
def processImage (env : Env) (buffer : Buffer) (originalName : String) :
    Except String ProcessedImage :=
  let ext := toLowerCase (extname originalName)
  let wrap (e : String) : Except String ProcessedImage :=
    .error ("Failed to process image: " ++ e)
  if ext = ".heic" ∨ ext = ".heif" then
    match env.sharpJpeg buffer with
    | .error e => wrap e
    | .ok processedBuffer =>
      match env.sharpMetadata processedBuffer with
      | .error e => wrap e
      | .ok md =>
        let metadata := { md with format := "jpeg" }
        .ok { processedBuffer := processedBuffer, metadata := metadata, width := metadata.width,
              height := metadata.height, format := metadata.format }
  else
    match env.sharpMetadata buffer with
    | .error e => wrap e
    | .ok metadata =>
      .ok { processedBuffer := buffer, metadata := metadata, width := metadata.width,
            height := metadata.height, format := metadata.format }

/-- `faceDetectionService.detectFaces`. -/
def detectFaces (env : Env) (imageBuffer : Buffer) : Except String FaceResults :=
  match env.rekognitionSend imageBuffer with
  | .ok faceDetails => .ok (toFaceResults env.mulDouble faceDetails)
  | .error e => .error ("Face detection failed: " ++ e)

/-! ## Similarity validator (`validators.validateSimilarity`) -/

/-- JavaScript falsiness of an optional string: missing or empty. -/
def falsyString (s : Option String) : Bool :=
  match s with
  | none => true
  | some t => t = ""

/-- The reason of a near-duplicate. -/
def tooSimilarReason (similarity : ℚ) : String :=
  "Image too similar to an existing one (" ++ toFixed similarity 1 ++ "% match)"

/-- The `for` loop of `validateSimilarity` over the fetched rows. -/
def similarityLoop (cfg : ImageValidation) (similarityHash : String) :
    List ImageRecord → ValidationResult
  | [] => passed
  | image :: rest =>
    if falsyString image.similarityHash then similarityLoop cfg similarityHash rest
    else
      let similarity := calculateHashSimilarity (some similarityHash) image.similarityHash
      if similarity ≥ (cfg.similarityThreshold : ℚ) then rejected (tooSimilarReason similarity)
      else similarityLoop cfg similarityHash rest

/-- `validators.validateSimilarity`: one query for the ACCEPTED rows of the
user, then the loop. The image bytes are passed but not read. -/
def validateSimilarity (cfg : ImageValidation) (w : World) (similarityHash : String)
    (_imageBuffer : Buffer) (userId : String) : World × ValidationResult :=
  let existingImages := w.imageFindMany userId (some .ACCEPTED)
  let w1 := w.emit .imageFindMany
  if existingImages.length = 0 then (w1, passed)
  else (w1, similarityLoop cfg similarityHash existingImages)

/-! ## Ingestion orchestrator (`imageService.processUpload`) -/

/-- The file object handed over by the upload middleware. -/
structure UploadedFile where
  originalname : String
  mimetype : String
  size : Nat
  buffer : Buffer

/-- The content type `processUpload` passes to `uploadFile`. -/
def storedContentType (format : String) (file : UploadedFile) : String :=
  if format = "heic" then "image/jpeg" else file.mimetype

/-- The `data` of the update in the face-gate branch. -/
def faceRejectionData (key url : String) (img : ProcessedImage)
    (faceValidation : ValidationResult) (r : ImageRecord) : ImageRecord :=
  { r with
    s3Key := key
    s3Url := url
    width := some img.width
    height := some img.height
    status := .REJECTED
    rejectionReason := faceValidation.reason }

/-- The `data` of the update behind the face gate. -/
def finalData (key url : String) (img : ProcessedImage) (status : Status)
    (rejectionReason : Option String) (similarityHash : String) (r : ImageRecord) :
    ImageRecord :=
  { r with
    s3Key := key
    s3Url := url
    width := some img.width
    height := some img.height
    status := status
    rejectionReason := rejectionReason
    similarityHash := some similarityHash }

/-- The face-gate branch of `processUpload`: store the bytes, finalize the
record as REJECTED with the face validator's reason, return it. -/
def rejectByFace (env : Env) (file : UploadedFile) (img : ProcessedImage)
    (faceValidation : ValidationResult) (id : Nat) (w : World) :
    World × Except String ImageRecord :=
  match uploadFile env w img.processedBuffer file.originalname
      (storedContentType img.format file) with
  | (w1, .error e) => (w1, .error e)
  | (w1, .ok (key, url)) => w1.imageUpdate id (faceRejectionData key url img faceValidation)

/-- The array `validations` of `processUpload`: the four validators in the
order Format, Dimension, Similarity, Sharpness, each of them evaluated. -/
def runValidations (cfg : ImageValidation) (file : UploadedFile) (userId : String)
    (img : ProcessedImage) (similarityHash : String) (blurValue : ℚ) (w : World) :
    World × List ValidationResult :=
  let formatResult := validateFormat cfg file.mimetype file.originalname
  let dimensionResult := validateDimensions cfg img.width img.height
  let (w1, similarityResult) :=
    validateSimilarity cfg w similarityHash img.processedBuffer userId
  let sharpnessResult := validateSharpness cfg blurValue
  (w1, [formatResult, dimensionResult, similarityResult, sharpnessResult])

/-- The status and rejection reason `processUpload` derives from
`validations.find(v => !v.valid)`. -/
def verdict (validations : List ValidationResult) : Status × Option String :=
  match validations.find? fun v => !v.valid with
  | some failedValidation => (.REJECTED, failedValidation.reason)
  | none => (.ACCEPTED, none)

/-- The branch of `processUpload` behind the face gate: store the bytes, compute
hash and blur score, run the four validators, finalize the record with the
first failed validation (if any), and return it with a fresh signed URL. -/
def validateAndFinalize (cfg : ImageValidation) (env : Env) (file : UploadedFile)
    (userId : String) (img : ProcessedImage) (id : Nat) (w : World) :
    World × Except String ImageRecord :=
  match uploadFile env w img.processedBuffer file.originalname
      (storedContentType img.format file) with
  | (w1, .error e) => (w1, .error e)
  | (w1, .ok (key, url)) =>
    let similarityHash := env.generateSimilarityHash img.processedBuffer
    let w2 := w1.emit .generateSimilarityHash
    let blurValue := env.detectBlurriness img.processedBuffer
    let w3 := w2.emit .detectBlurriness
    let (w4, validations) := runValidations cfg file userId img similarityHash blurValue w3
    let (status, rejectionReason) := verdict validations
    match w4.imageUpdate id (finalData key url img status rejectionReason similarityHash) with
    | (w5, .error e) => (w5, .error e)
    | (w5, .ok updatedImage) =>
      (w5.emit .getSignedUrl, .ok { updatedImage with s3Url := getSignedUrl env key })

/-- The `data` of the provisional record `processUpload` creates first. -/
def provisionalData (env : Env) (file : UploadedFile) (userId : String) : CreateData :=
  { userId := userId
    originalName := file.originalname
    fileName := basename file.originalname
    fileSize := file.size
    fileType := file.mimetype
    s3Key := env.tempId
    s3Url := env.tempId
    status := .PROCESSING }

/-- `imageService.processUpload`: the final world together with the returned
record, or the error thrown. -/
def processUpload (cfg : ImageValidation) (env : Env) (file : UploadedFile) (userId : String)
    (w : World) : World × Except String ImageRecord :=
  let (w1, initialRecord) := w.imageCreate env (provisionalData env file userId)
  let w2 := w1.emit .processImage
  match processImage env file.buffer file.originalname with
  | .error e => (w2, .error e)
  | .ok img =>
    let w3 := w2.emit .detectFaces
    match detectFaces env img.processedBuffer with
    | .error e => (w3, .error e)
    | .ok faceResults =>
      match validateFaces cfg faceResults with
      | .error e => (w3, .error e)
      | .ok faceValidation =>
        if !faceValidation.valid then
          rejectByFace env file img faceValidation initialRecord.id w3
        else
          validateAndFinalize cfg env file userId img initialRecord.id w3

/-! ## Pixel-level metrics (`imageProcessor.generateSimilarityHash`, `detectBlurriness`) -/

/-- The decoded single-channel image the codec hands to `detectBlurriness`:
the raw bytes and the `info` that comes with them. -/
structure RawImage where
  data : List Nat
  width : Nat
  height : Nat
  deriving DecidableEq

/-- The library calls of the two metrics: the 32x32 greyscale thumbnail and the
full-size greyscale decode of `sharp`, the hexadecimal MD5 digest and the
random bytes of `crypto`, and `Math.sqrt`. -/
structure PixelCodec where
  thumbnailRaw : Buffer → Except String (List Nat)
  greyscaleRaw : Buffer → Except String RawImage
  md5Hex : String → String
  randomHex : String
  sqrt : ℚ → ℚ

/-- The value `avgBrightness` of `generateSimilarityHash`: the sum of the
pixels, accumulated from 0, divided by their number. -/
def avgBrightness (pixelArray : List Nat) : ℚ :=
  ((pixelArray.foldl (fun sum value => sum + value) 0 : Nat) : ℚ) / (pixelArray.length : ℚ)

/-- The string `binaryString` of `generateSimilarityHash`: one character per
pixel, appended in order. -/
def binaryString (pixelArray : List Nat) : String :=
  String.mk (pixelArray.map fun (pixel : Nat) =>
    if (pixel : ℚ) ≥ avgBrightness pixelArray then '1' else '0')

/-- `imageProcessor.generateSimilarityHash`: the digest of the bitstring, or
random bytes when decoding throws. -/
def generateSimilarityHash (codec : PixelCodec) (buffer : Buffer) : String :=
  match codec.thumbnailRaw buffer with
  | .ok pixelArray => codec.md5Hex (binaryString pixelArray)
  | .error _ => codec.randomHex

/-- Reading `pixels[i]` of the `Uint8Array`. Outside the array the read is
`undefined` and every number computed from it is `NaN`, here `none`. -/
def pixelAt (pixels : List Nat) (i : Int) : Option ℚ :=
  if i < 0 then none else (pixels.get? i.toNat).map fun (p : Nat) => (p : ℚ)

/-- The value `laplacian` of one iteration of `detectBlurriness` at index
`idx`: `|4 * center - top - bottom - left - right|`. -/
def laplacianAt (pixels : List Nat) (width : Nat) (idx : Int) : Option ℚ :=
  match pixelAt pixels idx, pixelAt pixels (idx - width), pixelAt pixels (idx + width),
      pixelAt pixels (idx - 1), pixelAt pixels (idx + 1) with
  | some center, some top, some bottom, some left, some right =>
    some (abs (4 * center - top - bottom - left - right))
  | _, _, _, _, _ => none

/-- The running totals of the loops of `detectBlurriness`. -/
structure BlurAcc where
  laplacianSum : Option ℚ
  validPixels : Nat
  deriving DecidableEq

/-- The body of the inner loop of `detectBlurriness` for row `y`, column `x`. -/
def blurStep (pixels : List Nat) (width y x : Nat) (acc : BlurAcc) : BlurAcc :=
  let idx : Int := (y : Int) * (width : Int) + (x : Int)
  { laplacianSum :=
      match acc.laplacianSum, laplacianAt pixels width idx with
      | some s, some laplacian => some (s + laplacian)
      | _, _ => none
    validPixels := acc.validPixels + 1 }

/-- The values of the loop variable of `for (let v = 2; v < n - 2; v++)`:
2, 3, ..., n - 3. -/
def innerRange (n : Nat) : List Nat :=
  List.range' 2 (n - 4)

/-- The two nested loops of `detectBlurriness`: rows outside, columns inside,
starting from the sum 0 over 0 pixels. -/
def blurLoops (pixels : List Nat) (width height : Nat) : BlurAcc :=
  (innerRange height).foldl
    (fun acc y => (innerRange width).foldl (fun acc x => blurStep pixels width y x acc) acc)
    { laplacianSum := some 0, validPixels := 0 }

/-- `imageProcessor.detectBlurriness`: the mean of the Laplacian values times
the normalization factor, or 100 when decoding throws. -/
def detectBlurriness (codec : PixelCodec) (buffer : Buffer) : Option ℚ :=
  match codec.greyscaleRaw buffer with
  | .error _ => some 100
  | .ok raw =>
    let acc := blurLoops raw.data raw.width raw.height
    let blurScore : Option ℚ :=
      if acc.validPixels > 0 then acc.laplacianSum.map fun s => s / (acc.validPixels : ℚ)
      else some 0
    let normalizationFactor := codec.sqrt ((raw.width : ℚ) * (raw.height : ℚ)) / 500
    blurScore.map fun s =>
      s * (if normalizationFactor > 1 / 2 then normalizationFactor else 1 / 2)

/-! ### The blur score as the specification words it -/

/-- Specification: the intensity `p(x, y)` of a row-major single-channel
buffer of the given width. -/
def pixelValue (data : List Nat) (width x y : Nat) : ℚ :=
  ((data.getD (y * width + x) 0 : Nat) : ℚ)

/-- Specification: `|4*p(x,y) - p(x,y-1) - p(x,y+1) - p(x-1,y) - p(x+1,y)|`. -/
def laplacianSpec (data : List Nat) (width x y : Nat) : ℚ :=
  abs (4 * pixelValue data width x y - pixelValue data width x (y - 1) -
    pixelValue data width x (y + 1) - pixelValue data width (x - 1) y -
    pixelValue data width (x + 1) y)

/-- Specification: the pixels `(x, y)` with `2 ≤ x < w - 2` and
`2 ≤ y < h - 2`. -/
def interiorPixels (w h : Nat) : Finset (Nat × Nat) :=
  Finset.Ico 2 (w - 2) ×ˢ Finset.Ico 2 (h - 2)

/-- Specification: the arithmetic mean `M` of the Laplacian values over the
interior pixels, 0 when there are none. -/
def meanLaplacianSpec (data : List Nat) (w h : Nat) : ℚ :=
  if interiorPixels w h = ∅ then 0
  else (∑ q ∈ interiorPixels w h, laplacianSpec data w q.1 q.2) /
    ((interiorPixels w h).card : ℚ)

/-! ## Listing (`imageService.getUserImages`) -/

/-- The order of `orderBy: { createdAt: 'desc' }`. -/
def newerFirst (a b : ImageRecord) : Prop :=
  a.createdAt ≥ b.createdAt

instance : DecidableRel newerFirst :=
  fun a b => inferInstanceAs (Decidable (a.createdAt ≥ b.createdAt))

/-- `prisma.image.findMany` with `where`, `skip`, `take` and
`orderBy: { createdAt: 'desc' }`: the matching rows, newest first, rows of
equal time in stored order; then `skip` rows are dropped and at most `take`
kept. -/
def World.imageFindManyPage (w : World) (userId : String) (status : Option Status)
    (skip take : Nat) : List ImageRecord :=
  (((w.imageFindMany userId status).insertionSort newerFirst).drop skip).take take

/-- `prisma.image.count` with the same `where`. -/
def World.imageCount (w : World) (userId : String) (status : Option Status) : Nat :=
  (w.imageFindMany userId status).length

/-- `Math.ceil(total / limit)` for two counts, `limit` not zero. -/
def ceilDiv (total limit : Nat) : Nat :=
  (-(Rat.floor (-((total : ℚ) / (limit : ℚ))))).toNat

/-- The `pagination` object of a listing. -/
structure Pagination where
  total : Nat
  page : Nat
  limit : Nat
  totalPages : Nat
  deriving DecidableEq

/-- The object `getUserImages` returns. -/
structure UserImages where
  images : List ImageRecord
  pagination : Pagination
  deriving DecidableEq

/-- The function `getUserImages` maps over the fetched rows: a finalized row
with a non-empty storage key gets a fresh signed URL, any other row is returned
as stored. -/
def withFreshUrl (env : Env) (image : ImageRecord) : ImageRecord :=
  if (image.status = .ACCEPTED ∨ image.status = .REJECTED) ∧ image.s3Key ≠ "" then
    { image with s3Url := getSignedUrl env image.s3Key }
  else image

/-- `imageService.getUserImages`, for a page number of at least 1. A missing or
empty `status` is `none`. -/
def getUserImages (env : Env) (w : World) (userId : String) (status : Option Status)
    (page limit : Nat) : UserImages :=
  let skip := (page - 1) * limit
  let images := w.imageFindManyPage userId status skip limit
  let total := w.imageCount userId status
  let imagesWithFreshUrls := images.map (withFreshUrl env)
  { images := imagesWithFreshUrls
    pagination := { total := total, page := page, limit := limit,
                    totalPages := ceilDiv total limit } }

/-! ## Deletion (`imageService.deleteImage`, `imageController.deleteImage`) -/

/-- `prisma.image.delete` by id: the row with that id is removed. -/
def World.imageDelete (w : World) (id : Nat) : World :=
  { w with images := w.images.filter fun r => r.id ≠ id }

/-- `s3Service.deleteFile`: `s3Delete` is the outcome of the remote
`deleteObject` call; on success the bucket no longer holds the key. -/
def deleteFile (s3Delete : String → Except String Unit) (w : World) (key : String) :
    World × Except String Unit :=
  match s3Delete key with
  | .error e => (w, .error e)
  | .ok _ => ({ w with bucket := w.bucket.filter fun o => o.Key ≠ key }, .ok ())

/-- `imageService.deleteImage`: the final world and the returned flag, or the
error thrown. -/
def deleteImage (s3Delete : String → Except String Unit) (w : World) (imageId : Nat)
    (userId : String) : World × Except String Bool :=
  match w.imageFindUnique imageId with
  | none => (w, .ok false)
  | some image =>
    if image.userId ≠ userId then (w, .ok false)
    else
      match deleteFile s3Delete w image.s3Key with
      | (w1, .error e) => (w1, .error e)
      | (w1, .ok _) => (w1.imageDelete imageId, .ok true)

/-- The status code and JSON body of a response. -/
structure HttpResponse where
  status : Nat
  success : Bool
  message : String
  deriving DecidableEq, Repr

/-- `imageController.deleteImage`: the user is `req.body.userId || 'demo-user'`;
an error is handed to `next`. -/
def controllerDeleteImage (s3Delete : String → Except String Unit) (w : World) (imageId : Nat)
    (bodyUserId : Option String) : World × Except String HttpResponse :=
  let userId := if falsyString bodyUserId then "demo-user" else bodyUserId.getD "demo-user"
  match deleteImage s3Delete w imageId userId with
  | (w1, .error e) => (w1, .error e)
  | (w1, .ok success) =>
    if !success then
      (w1, .ok { status := 404, success := false, message := "Image not found or unauthorized" })
    else
      (w1, .ok { status := 200, success := true, message := "Image deleted successfully" })

/-! ## What the service does to a stored record over time -/

/-- The guarantee of the record store on ids: no two rows share one, and every
id in use is below the next one handed out. -/
def World.uniqueIds (w : World) : Prop :=
  (w.images.map fun r => r.id).Nodup ∧ ∀ r ∈ w.images, r.id < w.nextId

/-- One later operation of the service on the stores, other than the deletion
of image `protectedId` by `owner`: any upload, or a deletion for another id or
by another user. Listings and URL requests only read. -/
inductive LaterStep (protectedId : Nat) (owner : String) : World → World → Prop where
  | upload (cfg : ImageValidation) (env : Env) (file : UploadedFile) (userId : String)
      (w : World) : LaterStep protectedId owner w (processUpload cfg env file userId w).1
  | delete (s3Delete : String → Except String Unit) (w : World) (imageId : Nat)
      (userId : String) (h : imageId ≠ protectedId ∨ userId ≠ owner) :
      LaterStep protectedId owner w (deleteImage s3Delete w imageId userId).1

/-! ## Client (`ImageUpload/index.js`) -/

/-- An image as the client holds it. The client does not interpret ids: it tests
them for emptiness and for equality only. -/
structure ClientImage where
  id : String
  status : Status
  s3Url : String
  deriving DecidableEq

/-- The state of the `ImageUpload` component, with the entry of `localStorage`
it persists the tombstones in. `deletedImageIds` is a `Set`, kept in insertion
order. -/
structure ClientState where
  acceptedImages : List ClientImage
  rejectedImages : List ClientImage
  deletedImageIds : List String
  persisted : Option (List String)
  isLoading : Bool
  isUploading : Bool
  error : Option String
  success : Option String
  uploadProgress : Nat
  deriving DecidableEq

/-- What `await deleteImage(imageId, userId)` of `services/api.js` yields: the
body of the response, with its `success` flag and `message`; no body; or a
thrown error, with the status of its response when it has one. -/
inductive DeleteOutcome where
  | body (success : Bool) (message : Option String)
  | noBody
  | httpError (status : Nat)
  | otherError
  deriving DecidableEq

/-- What `await getUserImages(userId, status)` yields: a body with `data`, a
body without, or a thrown error. -/
inductive ListOutcome where
  | data (images : List ClientImage)
  | noData
  | failure
  deriving DecidableEq

/-- The update `prev => new Set([...prev, imageId])`. -/
def addDeletedId (prev : List String) (imageId : String) : List String :=
  if imageId ∈ prev then prev else prev ++ [imageId]

/-- The `catch` block of `handleDeleteImage`: tombstone the id anyway; a 404 is
reported as a success, anything else as an error. -/
def deleteFailed (imageId : String) (status : Option Nat) (st : ClientState) : ClientState :=
  let st1 := { st with deletedImageIds := addDeletedId st.deletedImageIds imageId }
  if status = some 404 then { st1 with success := some "Image removed successfully." }
  else
    { st1 with
      error := some "Server error while deleting image. The image will remain hidden." }

/-- `handleDeleteImage`, given the outcome of the remote call, run without
another state update in between. The timers that clear the messages later are
left out. -/
def handleDeleteImage (outcome : DeleteOutcome) (imageId : String) (st : ClientState) :
    ClientState :=
  if imageId = "" then { st with error := some "Cannot delete image: Missing image ID" }
  else
    let st1 :=
      { st with
        isLoading := true
        acceptedImages := st.acceptedImages.filter fun img => img.id ≠ imageId
        rejectedImages := st.rejectedImages.filter fun img => img.id ≠ imageId }
    let st2 :=
      match outcome with
      | .body true _ =>
        { st1 with
          deletedImageIds := addDeletedId st1.deletedImageIds imageId
          success := some "Image deleted successfully!" }
      | .body false _ => deleteFailed imageId none st1
      | .noBody => deleteFailed imageId none st1
      | .httpError status => deleteFailed imageId (some status) st1
      | .otherError => deleteFailed imageId none st1
    { st2 with isLoading := false }

/-- The effect that saves `deletedImageIds` to `localStorage` after it
changed. -/
def persistDeletedIds (st : ClientState) : ClientState :=
  { st with persisted := some st.deletedImageIds }

/-- The rows of a listing response, `response.data || []`. -/
def ListOutcome.rows : ListOutcome → List ClientImage
  | .data images => images
  | _ => []

/-- The effect `fetchImages`, given the outcomes of its two requests; it runs
on mount and after every change of `deletedImageIds`. -/
def fetchImages (accepted rejected : ListOutcome) (st : ClientState) : ClientState :=
  let st1 := { st with isLoading := true }
  let failed (s : ClientState) : ClientState :=
    { s with error := some "Failed to load your images. Please try again.", isLoading := false }
  if accepted = .failure then failed st1
  else
    let st2 :=
      { st1 with
        acceptedImages := accepted.rows.filter fun img => !(st.deletedImageIds.contains img.id) }
    if rejected = .failure then failed st2
    else
      { st2 with
        rejectedImages := rejected.rows.filter fun img => !(st.deletedImageIds.contains img.id)
        isLoading := false }

/-! ### Uploads, bulk deletion and reset in the client -/

/-- `MAX_IMAGES` of `ImageUpload/index.js`. -/
def MAX_IMAGES : Nat := 10

/-- A request of `services/api.js` that the model keeps track of: the URL
refresh `GET /images/url/:imageId?userId=` and the deletion
`DELETE /images/:imageId` with `userId` in the body. -/
inductive Request where
  | getImageUrl (imageId : String) (userId : String)
  | deleteImage (imageId : String) (userId : String)
  deriving DecidableEq

/-- What `await uploadImage(file, userId)` yields: the body of the response,
with its `success` flag and its `data` when it has one, or a thrown error. -/
inductive UploadOutcome where
  | body (success : Bool) (data : Option ClientImage)
  | failure
  deriving DecidableEq

/-- The lists and counters the loop of `handleFilesAccepted` updates. -/
structure UploadAcc where
  acceptedImages : List ClientImage
  rejectedImages : List ClientImage
  successCount : Nat
  errorCount : Nat
  deriving DecidableEq

/-- One iteration of the loop of `handleFilesAccepted`: an ACCEPTED result is
appended to the accepted list, any other successful result to the rejected
list; a body without `success`, a body without `data` (reading its `status`
throws) and a thrown error only count as errors. -/
def uploadStep (acc : UploadAcc) (outcome : UploadOutcome) : UploadAcc :=
  match outcome with
  | .body true (some data) =>
    if data.status = .ACCEPTED then
      { acc with
        acceptedImages := acc.acceptedImages ++ [data]
        successCount := acc.successCount + 1 }
    else
      { acc with
        rejectedImages := acc.rejectedImages ++ [data]
        errorCount := acc.errorCount + 1 }
  | _ => { acc with errorCount := acc.errorCount + 1 }

/-- The success message of `handleFilesAccepted`. -/
def uploadedMessage (successCount : Nat) : String :=
  "Successfully uploaded " ++ toString successCount ++ " image" ++
    (if successCount ≠ 1 then "s" else "") ++ "!"

/-- The error message of `handleFilesAccepted`. -/
def notUploadedMessage (errorCount : Nat) : String :=
  toString errorCount ++ " image" ++ (if errorCount ≠ 1 then "s" else "") ++
    " could not be uploaded or " ++ (if errorCount ≠ 1 then "were" else "was") ++ " rejected."

/-- The files `handleFilesAccepted` uploads: `files.slice(0, remainingSlots)`.
A file is given by the outcome of its upload. -/
def filesToUpload (files : List UploadOutcome) (st : ClientState) : List UploadOutcome :=
  files.take (MAX_IMAGES - st.acceptedImages.length)

/-- `handleFilesAccepted`, each file given by the outcome of its upload, run
without another state update in between. The timer that clears the success
message later is left out. -/
def handleFilesAccepted (files : List UploadOutcome) (st : ClientState) : ClientState :=
  if st.acceptedImages.length ≥ MAX_IMAGES then
    { st with
      error := some ("You can only upload a maximum of " ++ toString MAX_IMAGES ++ " images.") }
  else
    let acc := (filesToUpload files st).foldl uploadStep
      { acceptedImages := st.acceptedImages, rejectedImages := st.rejectedImages,
        successCount := 0, errorCount := 0 }
    { st with
      acceptedImages := acc.acceptedImages
      rejectedImages := acc.rejectedImages
      success := if acc.successCount > 0 then some (uploadedMessage acc.successCount) else none
      error := if acc.errorCount > 0 then some (notUploadedMessage acc.errorCount) else none
      isUploading := false
      uploadProgress := 0 }

/-- `handleStartFresh`, given the answer to `window.confirm`: the new state and
the requests sent to the server. The storage entry is removed, the tombstones
and both lists are emptied; no function of `services/api.js` is called. -/
def handleStartFresh (confirmed : Bool) (st : ClientState) : ClientState × List Request :=
  if confirmed then
    ({ st with
       persisted := none
       deletedImageIds := []
       acceptedImages := []
       rejectedImages := []
       success := some "All images have been cleared. You can now start fresh!"
       isLoading := true }, [])
  else (st, [])

/-- Whether `await deleteImage(imageId, userId)` threw. A response that
arrives is not a thrown error, whatever its body says. -/
def DeleteOutcome.threw : DeleteOutcome → Bool
  | .httpError _ => true
  | .otherError => true
  | .body _ _ => false
  | .noBody => false

/-- The tombstones, the counters and the requests sent so far in the loop of
`handleDeleteAllImages`. -/
structure DeleteAllAcc where
  deletedImageIds : List String
  successCount : Nat
  errorCount : Nat
  requests : List Request
  deriving DecidableEq

/-- One iteration of the loop of `handleDeleteAllImages`: the request is sent;
the id is tombstoned in the `try` and in the `catch` branch alike, and one of
the two counters goes up. -/
def deleteAllStep (userId : String) (acc : DeleteAllAcc) (image : ClientImage)
    (outcome : DeleteOutcome) : DeleteAllAcc :=
  let requests := acc.requests ++ [Request.deleteImage image.id userId]
  if outcome.threw then
    { deletedImageIds := addDeletedId acc.deletedImageIds image.id
      successCount := acc.successCount
      errorCount := acc.errorCount + 1
      requests := requests }
  else
    { deletedImageIds := addDeletedId acc.deletedImageIds image.id
      successCount := acc.successCount + 1
      errorCount := acc.errorCount
      requests := requests }

/-- The loop `for (const image of allImages)` of `handleDeleteAllImages`;
`outcome i` is the outcome of the request for the image at position `i`. -/
def deleteAllLoop (outcome : Nat → DeleteOutcome) (userId : String) :
    List ClientImage → Nat → DeleteAllAcc → DeleteAllAcc
  | [], _, acc => acc
  | image :: rest, i, acc =>
    deleteAllLoop outcome userId rest (i + 1) (deleteAllStep userId acc image (outcome i))

/-- The success message of `handleDeleteAllImages`. -/
def deletedAllMessage (successCount errorCount : Nat) : String :=
  "Deleted " ++ toString successCount ++ " images successfully" ++
    (if errorCount > 0 then " (" ++ toString errorCount ++ " failed but were removed locally)"
     else "") ++ "."

/-- `handleDeleteAllImages` for the user `userId`, given the answer to
`window.confirm` and the outcome of each remote deletion: the new state and the
requests sent to the server, in order. -/
def handleDeleteAllImages (confirmed : Bool) (outcome : Nat → DeleteOutcome) (userId : String)
    (st : ClientState) : ClientState × List Request :=
  if confirmed then
    let st1 := { st with isLoading := true }
    let allImages := st.acceptedImages ++ st.rejectedImages
    if allImages.length = 0 then
      ({ st1 with success := some "No images to delete.", isLoading := false }, [])
    else
      let acc := deleteAllLoop outcome userId allImages 0
        { deletedImageIds := st.deletedImageIds, successCount := 0, errorCount := 0,
          requests := [] }
      ({ st1 with
         deletedImageIds := acc.deletedImageIds
         acceptedImages := []
         rejectedImages := []
         success := some (deletedAllMessage acc.successCount acc.errorCount)
         isLoading := false }, acc.requests)
  else (st, [])

/-- The state `ImageUpload` mounts with: no images yet, and the tombstones
read from the storage entry, an empty set when there is none or it cannot be
read. -/
def initialState (saved : Option (List String)) : ClientState :=
  { acceptedImages := []
    rejectedImages := []
    deletedImageIds := (saved.getD []).foldl addDeletedId []
    persisted := saved
    isLoading := true
    isUploading := false
    error := none
    success := none
    uploadProgress := 0 }

/-- One step of the component: a listing refresh, the saving effect, an upload
of some files, a single deletion, a bulk deletion or a reset, with any answers
of the server. `uploadAllowed` says which upload answers are considered. -/
inductive ClientStep (uploadAllowed : ClientState → List UploadOutcome → Prop) :
    ClientState → ClientState → Prop where
  | refresh (accepted rejected : ListOutcome) (st : ClientState) :
      ClientStep uploadAllowed st (fetchImages accepted rejected st)
  | persist (st : ClientState) : ClientStep uploadAllowed st (persistDeletedIds st)
  | upload (files : List UploadOutcome) (st : ClientState) (h : uploadAllowed st files) :
      ClientStep uploadAllowed st (handleFilesAccepted files st)
  | delete (outcome : DeleteOutcome) (imageId : String) (st : ClientState) :
      ClientStep uploadAllowed st (handleDeleteImage outcome imageId st)
  | deleteAll (confirmed : Bool) (outcome : Nat → DeleteOutcome) (userId : String)
      (st : ClientState) :
      ClientStep uploadAllowed st (handleDeleteAllImages confirmed outcome userId st).1
  | reset (confirmed : Bool) (st : ClientState) :
      ClientStep uploadAllowed st (handleStartFresh confirmed st).1

/-- Any answer to an upload is considered. -/
def anyUploads (_st : ClientState) (_files : List UploadOutcome) : Prop :=
  True

/-- No image the server returns for an upload that is sent carries an id that
is tombstoned at that time. -/
def freshUploads (st : ClientState) (files : List UploadOutcome) : Prop :=
  ∀ data, UploadOutcome.body true (some data) ∈ filesToUpload files st →
    data.id ∉ st.deletedImageIds

/-- No image with a tombstoned id is in the accepted or the rejected list. -/
def ClientState.hidesTombstones (st : ClientState) : Prop :=
  ∀ img ∈ st.acceptedImages ++ st.rejectedImages, img.id ∉ st.deletedImageIds

/-! ## Upload middleware (`src/middleware/fileUpload.js`) -/

/-- `fileFilter`: the file object multer goes on with when the file is
admitted (its `mimetype` possibly rewritten), or the error handed to the
callback. -/
def fileFilter (cfg : ImageValidation) (file : UploadedFile) : Except String UploadedFile :=
  if cfg.allowedTypes.contains file.mimetype then .ok file
  else
    let ext := toLowerCase (extname file.originalname)
    if ext = ".heic" ∨ ext = ".heif" then .ok { file with mimetype := "image/heic" }
    else if ext = ".jpg" ∨ ext = ".jpeg" then .ok { file with mimetype := "image/jpeg" }
    else if ext = ".png" then .ok { file with mimetype := "image/png" }
    else .error "File type not allowed. Allowed types: JPG, PNG, HEIC"

/-! ## URL refresh (`imageController.getImageUrl`, `api.getImageUrl`, `ImageItem.js`) -/

/-- The status code and JSON body of a response of `imageController.getImageUrl`. -/
structure UrlResponse where
  status : Nat
  success : Bool
  message : Option String
  url : Option String
  expiresIn : Option String
  deriving DecidableEq, Repr

/-- `imageController.getImageUrl`: the user is `req.query.userId || 'demo-user'`;
an image that is missing or belongs to another user is answered with 404. -/
def controllerGetImageUrl (env : Env) (w : World) (imageId : Nat) (queryUserId : Option String) :
    UrlResponse :=
  let userId := if falsyString queryUserId then "demo-user" else queryUserId.getD "demo-user"
  let notFound : UrlResponse :=
    { status := 404, success := false, message := some "Image not found or unauthorized",
      url := none, expiresIn := none }
  match w.imageFindUnique imageId with
  | none => notFound
  | some image =>
    if image.userId ≠ userId then notFound
    else
      { status := 200, success := true, message := none,
        url := some (getSignedUrl env image.s3Key), expiresIn := some "24 hours" }

/-- The `userId` prop `App` mounts `ImageUpload` with; uploads, listings and
deletions of the component are made for this user. -/
def appUserId : String := "test-user"

/-- `getImageUrl(imageId, userId = 'demo-user')` of `services/api.js`: the
request it sends, and the URL of the response, or the error thrown for a
status outside 2xx. `server` answers a request for an image id and a user. -/
def apiGetImageUrl (server : String → String → UrlResponse) (imageId : String)
    (userId : Option String) : Request × Except String String :=
  let user := userId.getD "demo-user"
  let response := server imageId user
  if 200 ≤ response.status ∧ response.status < 300 then
    (Request.getImageUrl imageId user, .ok (response.url.getD ""))
  else
    (Request.getImageUrl imageId user,
      .error ("Request failed with status code " ++ toString response.status))

/-- The state of an `ImageItem`. -/
structure ImageItemState where
  imgSrc : String
  isLoading : Bool
  deriving DecidableEq, Repr

/-- `handleImageError` of `ImageItem`: the new state and the requests sent.
It calls `getImageUrl(image.id)`, without a user. -/
def handleImageError (server : String → String → UrlResponse) (image : ClientImage)
    (st : ImageItemState) : ImageItemState × List Request :=
  if st.isLoading ∨ image.id = "" then (st, [])
  else
    match apiGetImageUrl server image.id none with
    | (request, .ok freshUrl) => ({ imgSrc := freshUrl, isLoading := false }, [request])
    | (request, .error _) => ({ st with isLoading := false }, [request])

/-- The indices one iteration of the loops of `detectBlurriness` reads at
`idx`: `center`, `top`, `bottom`, `left` and `right`. -/
def readIndices (width : Nat) (idx : Int) : List Int :=
  [idx, idx - width, idx + width, idx - 1, idx + 1]

/-! ## The stores over time -/

/-- One operation of the service that writes to the stores: an upload or a
deletion, for any user, any file and any outcome of the collaborators. Listings
and URL requests only read. -/
inductive ServiceStep : World → World → Prop where
  | upload (cfg : ImageValidation) (env : Env) (file : UploadedFile) (userId : String)
      (w : World) : ServiceStep w (processUpload cfg env file userId w).1
  | delete (s3Delete : String → Except String Unit) (w : World) (imageId : Nat)
      (userId : String) : ServiceStep w (deleteImage s3Delete w imageId userId).1

/-- Every finalized row carries a storage key. -/
def World.finalizedHaveKeys (w : World) : Prop :=
  ∀ r ∈ w.images, (r.status = .ACCEPTED ∨ r.status = .REJECTED) → r.s3Key ≠ ""

/-! ## Concrete inputs used by the witnesses -/

/-- A detection reply with a single face covering a quarter of the width and a
fifth of the height of the frame: exactly 5% of its area. -/
def fivePercentFace : FaceDetail :=
  { Confidence := 99
    BoundingBox := { Width := 1 / 4, Height := 1 / 5, Left := 0, Top := 0 } }

/-- Two detected faces, the first one tiny. -/
def twoFaces : FaceResults :=
  { faceCount := 2
    faces :=
      [{ confidence := 99
         boundingBox := { Width := 1 / 100, Height := 1 / 100, Left := 0, Top := 0 }
         sizePercentage := 1 / 100 },
       { confidence := 99
         boundingBox := { Width := 1 / 2, Height := 1 / 2, Left := 0, Top := 0 }
         sizePercentage := 25 }] }

/-- Collaborators that all succeed: the decoder reports a JPEG of the given
size, the detection service the given faces, and the image processor the given
blur score. Products are formed without rounding error, as they are on the
sample faces. -/
def sampleEnv (faces : List FaceDetail) (width height : Int) (blur : ℚ) : Env :=
  { sharpJpeg := fun b => .ok b
    sharpMetadata := fun _ => .ok { width := width, height := height, format := "jpeg" }
    rekognitionSend := fun _ => .ok faces
    s3Upload := fun _ => .ok ()
    s3GetSignedUrl := fun key => "https://bucket.example/" ++ key
    uuidv4 := "8c2f"
    tempId := "temp-1"
    now := 0
    generateSimilarityHash := fun _ => "d41d8cd98f00b204e9800998ecf8427e"
    detectBlurriness := fun _ => blur
    mulDouble := fun a b => a * b }

/-- A three-byte upload named `me.jpg` and labelled `image/jpeg`. -/
def sampleFile : UploadedFile :=
  { originalname := "me.jpg", mimetype := "image/jpeg", size := 3, buffer := [1, 2, 3] }

/-- What `processImage` yields for `sampleFile` when the decoder reports the
given size. -/
def sampleImage (width height : Int) : ProcessedImage :=
  { processedBuffer := [1, 2, 3]
    metadata := { width := width, height := height, format := "jpeg" }
    width := width
    height := height
    format := "jpeg" }

/-- An empty record store and bucket. -/
def emptyWorld : World :=
  { images := [], nextId := 1, bucket := [], log := [] }

/-- The hash `sampleEnv` computes for every upload. -/
def storedHash : String := "d41d8cd98f00b204e9800998ecf8427e"

/-- An ACCEPTED record of the given user with the given hash. -/
def acceptedRecord (id : Nat) (userId hash : String) : ImageRecord :=
  { id := id
    userId := userId
    originalName := "old.jpg"
    fileName := "old.jpg"
    fileSize := 3
    fileType := "image/jpeg"
    s3Key := "uploads/0000-old.jpg"
    s3Url := "https://bucket.example/uploads/0000-old.jpg"
    width := some 800
    height := some 600
    status := .ACCEPTED
    rejectionReason := none
    similarityHash := some hash
    createdAt := 0 }

/-- A store in which `user-1` has one ACCEPTED record, with `storedHash`. -/
def duplicateWorld : World :=
  { images := [acceptedRecord 1 "user-1" storedHash], nextId := 2, bucket := [], log := [] }

/-- A store in which `user-1` has two ACCEPTED records: the first fetched one
differs from `storedHash` in its last character, the second has `storedHash`. -/
def nearDuplicateWorld : World :=
  { images := [acceptedRecord 1 "user-1" "d41d8cd98f00b204e9800998ecf8427f",
               acceptedRecord 2 "user-1" storedHash]
    nextId := 3, bucket := [], log := [] }

/-- A codec that decodes every buffer to the given thumbnail pixels and raw
image, with a tagged digest and the given square-root function. -/
def sampleCodec (pixelArray : List Nat) (raw : RawImage) (sqrt : ℚ → ℚ) : PixelCodec :=
  { thumbnailRaw := fun _ => .ok pixelArray
    greyscaleRaw := fun _ => .ok raw
    md5Hex := fun s => "md5(" ++ s ++ ")"
    randomHex := "00000000000000000000000000000000"
    sqrt := sqrt }

/-- A 5x5 image, black except for a centre of 200 with four neighbours
of 100. -/
def fiveByFive : RawImage :=
  { data := [0, 0, 0, 0, 0,
             0, 0, 100, 0, 0,
             0, 100, 200, 100, 0,
             0, 0, 100, 0, 0,
             0, 0, 0, 0, 0]
    width := 5
    height := 5 }

/-- An ACCEPTED record of `user-1` created at the given time, with that time as
its id. -/
def timedRecord (t : Nat) : ImageRecord :=
  { acceptedRecord t "user-1" storedHash with createdAt := t }

/-- A store with 25 ACCEPTED records of `user-1`, created at times 1 to 25. -/
def twentyFiveWorld : World :=
  { images := (List.range' 1 25).map timedRecord, nextId := 26, bucket := [], log := [] }

/-- A storage backend whose `deleteObject` always succeeds. -/
def s3DeleteOk : String → Except String Unit :=
  fun _ => .ok ()

/-- A store with the ACCEPTED record 1 of `user-1`, whose object is in the
bucket, and the ACCEPTED record 2 of `user-2`. -/
def twoUserWorld : World :=
  { images := [acceptedRecord 1 "user-1" storedHash, acceptedRecord 2 "user-2" storedHash]
    nextId := 3
    bucket := [{ Key := "uploads/0000-old.jpg", Body := [1, 2, 3], ContentType := "image/jpeg" }]
    log := [] }

/-- Collaborators that find no face in a 200x200 JPEG and whose bucket refuses
every object. -/
def storageDownEnv : Env :=
  { sampleEnv [] 200 200 1 with s3Upload := fun _ => .error "AccessDenied" }

/-- A storage backend whose `deleteObject` always throws. -/
def s3DeleteDown : String → Except String Unit :=
  fun _ => .error "AccessDenied"

/-- Collaborators whose decoder rejects every image. -/
def failingEnv : Env :=
  { sampleEnv [] 0 0 0 with sharpMetadata := fun _ => .error "unsupported image format" }

/-- A client showing image `a` as accepted and image `b` as rejected. -/
def sampleClient : ClientState :=
  { acceptedImages := [{ id := "a", status := .ACCEPTED, s3Url := "https://bucket.example/a" }]
    rejectedImages := [{ id := "b", status := .REJECTED, s3Url := "https://bucket.example/b" }]
    deletedImageIds := []
    persisted := some []
    isLoading := false
    isUploading := false
    error := none
    success := none
    uploadProgress := 0 }

/-- Image `a` as the server lists it. -/
def imageA : ClientImage :=
  { id := "a", status := .ACCEPTED, s3Url := "https://bucket.example/a" }

/-- The client after it listed image `a`, failed to delete it remotely (500),
and then received `a` again as the result of an upload. -/
def reuploadedClient : ClientState :=
  handleFilesAccepted [.body true (some imageA)]
    (fetchImages (.data [imageA]) .noData
      (persistDeletedIds
        (handleDeleteImage (.httpError 500) "a"
          (fetchImages (.data [imageA]) .noData (initialState none)))))

/-- Remote outcomes of a bulk deletion in which the first request fails with
500 and every later one succeeds. -/
def firstFails : Nat → DeleteOutcome :=
  fun i => if i = 0 then .httpError 500 else .body true none

/-- Collaborators like `sampleEnv` with one face, except that the transcoder
turns every input into the three bytes 255, 216, 255, which the decoder reports
as an 800x600 JPEG; any other bytes it reports as an 800x600 HEIF. -/
def transcodingEnv : Env :=
  { sampleEnv [fivePercentFace] 800 600 50 with
    sharpJpeg := fun _ => .ok [255, 216, 255]
    sharpMetadata := fun b =>
      if b = [255, 216, 255] then .ok { width := 800, height := 600, format := "jpeg" }
      else .ok { width := 800, height := 600, format := "heif" } }

/-- A HEIC upload named `IMG_0001.HEIC` and labelled `image/heic`. -/
def heicNamedFile : UploadedFile :=
  { originalname := "IMG_0001.HEIC", mimetype := "image/heic", size := 3, buffer := [1, 2, 3] }

/-- A HEIC upload labelled `image/heic` whose name has no extension. -/
def heicLabelledFile : UploadedFile :=
  { originalname := "IMG_0001", mimetype := "image/heic", size := 3, buffer := [1, 2, 3] }

/-- An upload named `scan.PNG` that the browser labelled
`application/octet-stream`. -/
def mislabelledPng : UploadedFile :=
  { originalname := "scan.PNG", mimetype := "application/octet-stream", size := 3,
    buffer := [1, 2, 3] }

/-- The number a decimal image id stands for. -/
def decimalId (id : String) : Nat :=
  id.data.foldl (fun n c => 10 * n + (c.toNat - '0'.toNat)) 0

/-- A store with one ACCEPTED record, id 1, of the user of `App`. -/
def appUserWorld : World :=
  { images := [acceptedRecord 1 "test-user" storedHash], nextId := 2, bucket := [], log := [] }

/-- A 6x6 image in which every pixel has intensity 128. -/
def uniformSixBySix : RawImage :=
  { data := List.replicate 36 128, width := 6, height := 6 }

/-- A 4x7 image with arbitrary content. -/
def fourBySeven : RawImage :=
  { data := (List.range 28).map fun i => 9 * i, width := 4, height := 7 }

/-- A codec whose decoder rejects every buffer. -/
def brokenCodec : PixelCodec :=
  { sampleCodec [] fiveByFive (fun _ => 0) with
    greyscaleRaw := fun _ => .error "Input buffer contains unsupported image format" }

/-- Collaborators of a later listing, which sign URLs under another path than
`sampleEnv` did at upload time. -/
def laterEnv : Env :=
  { sampleEnv [] 0 0 0 with s3GetSignedUrl := fun key => "https://bucket.example/fresh/" ++ key }

/-- A 5x5 image, black except for a centre of 50. -/
def centreFifty : RawImage :=
  { data := [0, 0, 0, 0, 0,
             0, 0, 0, 0, 0,
             0, 0, 50, 0, 0,
             0, 0, 0, 0, 0,
             0, 0, 0, 0, 0]
    width := 5
    height := 5 }

/-! # Theorems -/

/-! ## Lemmas on the face validator -/

theorem rejected_ne_passed (s : String) : rejected s ≠ passed := by
  simp [rejected, passed]

theorem validateFaces_ok_passed_iff (cfg : ImageValidation) (fr : FaceResults) :
    validateFaces cfg fr = .ok passed ↔
      fr.faceCount = 1 ∧ ∃ face, fr.faces.head? = some face ∧
        (cfg.minFaceSize : ℚ) ≤ face.sizePercentage := by
  unfold validateFaces
  by_cases h0 : fr.faceCount = 0
  · simp [h0, rejected, passed]
  by_cases h1 : fr.faceCount > 1
  · simp [h0, h1, rejected, passed]; omega
  have h : fr.faceCount = 1 := by omega
  cases hf : fr.faces.head? with
  | none => simp [h]
  | some face =>
    by_cases hs : face.sizePercentage < (cfg.minFaceSize : ℚ)
    · simp [h, hs, rejected, passed]
    · simp [h, hs, not_lt.mp hs]

theorem validateFaces_valid_reason (cfg : ImageValidation) (fr : FaceResults)
    (r : ValidationResult) (h : validateFaces cfg fr = .ok r) :
    (r.valid = true ↔ r.reason = none) ∧ (r.valid = true ↔ r = passed) := by
  unfold validateFaces at h
  split_ifs at h with h0 h1
  · cases h; simp [rejected, passed]
  · cases h; simp [rejected, passed]
  · split at h
    · cases h
    · split_ifs at h <;> cases h <;> simp [rejected, passed]

/-! ## Lemmas on the hash comparison -/

theorem matchingChars_le : ∀ (l1 l2 : List Char), matchingChars l1 l2 ≤ l1.length
  | [], _ => by simp [matchingChars]
  | _ :: _, [] => by simp [matchingChars]
  | a :: as, b :: bs => by
    have ih := matchingChars_le as bs
    simp only [matchingChars, List.length_cons]
    split_ifs <;> omega

theorem matchingChars_comm : ∀ (l1 l2 : List Char), matchingChars l1 l2 = matchingChars l2 l1
  | [], [] => rfl
  | [], _ :: _ => rfl
  | _ :: _, [] => rfl
  | a :: as, b :: bs => by
    simp only [matchingChars, matchingChars_comm as bs, eq_comm]

theorem matchingChars_eq_length_iff : ∀ (l1 l2 : List Char), l1.length = l2.length →
    (matchingChars l1 l2 = l1.length ↔ l1 = l2)
  | [], [], _ => by simp [matchingChars]
  | [], _ :: _, h => by simp at h
  | _ :: _, [], h => by simp at h
  | a :: as, b :: bs, h => by
    have hlen : as.length = bs.length := by simpa using h
    have ih := matchingChars_eq_length_iff as bs hlen
    have hle := matchingChars_le as bs
    simp only [matchingChars, List.length_cons, List.cons.injEq]
    by_cases hab : a = b
    · simp only [hab, if_true, true_and]
      rw [← ih]; omega
    · simp only [hab, if_false, false_and, iff_false]
      omega

theorem matchingChars_eq_count : ∀ (l1 l2 : List Char), l1.length = l2.length →
    matchingChars l1 l2 =
      ((List.range l1.length).filter (fun i => decide (l1.get? i = l2.get? i))).length
  | [], [], _ => by simp [matchingChars]
  | [], _ :: _, h => by simp at h
  | _ :: _, [], h => by simp at h
  | a :: as, b :: bs, h => by
    have hlen : as.length = bs.length := by simpa using h
    have ih := matchingChars_eq_count as bs hlen
    simp only [matchingChars, List.length_cons, List.range_succ_eq_map, List.filter_cons,
      List.get?_cons_zero, Option.some.injEq, List.filter_map, List.length_map]
    have hfun : ((fun i => decide ((a :: as).get? i = (b :: bs).get? i)) ∘ Nat.succ)
        = (fun i => decide (as.get? i = bs.get? i)) := by
      funext i; simp
    rw [hfun]
    by_cases hab : a = b
    · simp [hab, ih]; omega
    · simp [hab, ih]

/-- The value of `calculateHashSimilarity` on two non-empty strings of equal length. -/
theorem calculateHashSimilarity_some (a b : String) (ha : a ≠ "") (hb : b ≠ "")
    (hlen : a.length = b.length) :
    calculateHashSimilarity (some a) (some b)
      = ((matchingChars a.data b.data : ℚ) / (a.length : ℚ)) * 100 := by
  simp [calculateHashSimilarity, ha, hb, hlen]

theorem string_length_pos (a : String) (ha : a ≠ "") : 0 < a.length := by
  rcases a with ⟨l⟩
  cases l with
  | nil => exact absurd rfl ha
  | cons c cs => simp [String.length]

theorem calculateHashSimilarity_nonneg (h1 h2 : Option String) :
    0 ≤ calculateHashSimilarity h1 h2 := by
  unfold calculateHashSimilarity
  split
  · split_ifs
    · exact le_refl 0
    · positivity
  · exact le_refl 0

theorem calculateHashSimilarity_le (h1 h2 : Option String) :
    calculateHashSimilarity h1 h2 ≤ 100 := by
  unfold calculateHashSimilarity
  split
  · rename_i a b
    split_ifs with h
    · norm_num
    · push_neg at h
      have hpos : (0 : ℚ) < (a.length : ℚ) := by exact_mod_cast string_length_pos a h.1
      have hle : (matchingChars a.data b.data : ℚ) ≤ (a.length : ℚ) := by
        exact_mod_cast matchingChars_le a.data b.data
      have : (matchingChars a.data b.data : ℚ) / (a.length : ℚ) ≤ 1 := (div_le_one hpos).mpr hle
      linarith
  · norm_num

theorem calculateHashSimilarity_comm (h1 h2 : Option String) :
    calculateHashSimilarity h1 h2 = calculateHashSimilarity h2 h1 := by
  cases h1 with
  | none => cases h2 <;> simp [calculateHashSimilarity]
  | some a =>
    cases h2 with
    | none => simp [calculateHashSimilarity]
    | some b =>
      simp only [calculateHashSimilarity]
      by_cases h : a = "" ∨ b = "" ∨ a.length ≠ b.length
      · have h' : b = "" ∨ a = "" ∨ b.length ≠ a.length := by
          rcases h with h | h | h
          · exact Or.inr (Or.inl h)
          · exact Or.inl h
          · exact Or.inr (Or.inr (fun e => h e.symm))
        rw [if_pos h, if_pos h']
      · have h' : ¬ (b = "" ∨ a = "" ∨ b.length ≠ a.length) := by
          push_neg at h ⊢
          exact ⟨h.2.1, h.1, h.2.2.symm⟩
        rw [if_neg h, if_neg h']
        push_neg at h
        rw [matchingChars_comm a.data b.data, h.2.2]

theorem calculateHashSimilarity_eq_hundred_iff (h1 h2 : Option String) :
    calculateHashSimilarity h1 h2 = 100 ↔ ∃ s, s ≠ "" ∧ h1 = some s ∧ h2 = some s := by
  cases h1 with
  | none => simp [calculateHashSimilarity]
  | some a =>
    cases h2 with
    | none => simp [calculateHashSimilarity]
    | some b =>
      by_cases h : a = "" ∨ b = "" ∨ a.length ≠ b.length
      · simp only [calculateHashSimilarity, if_pos h]
        constructor
        · intro h0; norm_num at h0
        · rintro ⟨s, hs, e1, e2⟩
          cases e1; cases e2
          rcases h with h | h | h
          · exact absurd h hs
          · exact absurd h hs
          · exact absurd rfl h
      · push_neg at h
        obtain ⟨ha, hb, hlen⟩ := h
        rw [calculateHashSimilarity_some a b ha hb hlen]
        have hpos : (0 : ℚ) < (a.length : ℚ) := by exact_mod_cast string_length_pos a ha
        constructor
        · intro e
          have e1 : (matchingChars a.data b.data : ℚ) = (a.length : ℚ) := by
            field_simp at e
            linarith
          have e2 : matchingChars a.data b.data = a.data.length := by exact_mod_cast e1
          have e3 := (matchingChars_eq_length_iff a.data b.data hlen).mp e2
          refine ⟨a, ha, rfl, ?_⟩
          rw [String.ext_iff.mpr e3]
        · rintro ⟨s, hs, e1, e2⟩
          cases e1; cases e2
          have e2 : matchingChars a.data a.data = a.data.length :=
            (matchingChars_eq_length_iff a.data a.data rfl).mpr rfl
          have : (matchingChars a.data a.data : ℚ) = (a.length : ℚ) := by exact_mod_cast e2
          rw [this]
          field_simp

/-! ## Lemmas on the dimension and format validators -/

theorem truthy_some (n : Int) : truthy (some n) = true ↔ n ≠ 0 := by
  simp [truthy]

theorem validateDimensions_valid_iff_general (cfg : ImageValidation) (width height : Int) :
    (validateDimensions cfg width height).valid = true ↔
      cfg.minWidth ≤ width ∧ cfg.minHeight ≤ height ∧
        ∀ mw mh, cfg.maxWidth = some mw → cfg.maxHeight = some mh → mw ≠ 0 → mh ≠ 0 →
          width ≤ mw ∧ height ≤ mh := by
  unfold validateDimensions
  by_cases hmin : width < cfg.minWidth ∨ height < cfg.minHeight
  · rw [if_pos hmin]
    simp only [rejected, Bool.false_eq_true, false_iff]
    rintro ⟨h1, h2, -⟩
    rcases hmin with h | h <;> omega
  · rw [if_neg hmin]
    push_neg at hmin
    by_cases ht : (truthy cfg.maxWidth && truthy cfg.maxHeight) = true
    · rw [if_pos ht]
      rw [Bool.and_eq_true] at ht
      obtain ⟨ht1, ht2⟩ := ht
      cases hw : cfg.maxWidth with
      | none => rw [hw] at ht1; simp [truthy] at ht1
      | some mw =>
        cases hh : cfg.maxHeight with
        | none => rw [hh] at ht2; simp [truthy] at ht2
        | some mh =>
          rw [hw] at ht1; rw [hh] at ht2
          rw [truthy_some] at ht1 ht2
          simp only [Option.getD_some]
          by_cases hmax : width > mw ∨ height > mh
          · rw [if_pos hmax]
            simp only [rejected, Bool.false_eq_true, false_iff]
            rintro ⟨-, -, h⟩
            have := h mw mh rfl rfl ht1 ht2
            rcases hmax with h | h <;> omega
          · rw [if_neg hmax]
            push_neg at hmax
            simp only [passed, true_iff]
            refine ⟨hmin.1, hmin.2, ?_⟩
            intro a b ha hb _ _
            cases ha; cases hb
            exact hmax
    · rw [if_neg ht]
      simp only [passed, true_iff]
      refine ⟨hmin.1, hmin.2, ?_⟩
      intro a b ha hb ha0 hb0
      exfalso
      apply ht
      rw [ha, hb, Bool.and_eq_true, truthy_some, truthy_some]
      exact ⟨ha0, hb0⟩

theorem validateDimensions_default_iff (width height : Int) :
    (validateDimensions defaultConfig width height).valid = true ↔
      (300 ≤ width ∧ width ≤ 5000) ∧ (300 ≤ height ∧ height ≤ 5000) := by
  rw [validateDimensions_valid_iff_general]
  simp only [defaultConfig, Option.some.injEq]
  constructor
  · rintro ⟨h1, h2, h3⟩
    have := h3 5000 5000 rfl rfl (by decide) (by decide)
    omega
  · rintro ⟨⟨h1, h2⟩, h3, h4⟩
    refine ⟨h1, h3, ?_⟩
    intro mw mh e1 e2 _ _
    subst e1; subst e2
    exact ⟨h2, h4⟩

theorem validateDimensions_valid_iff_passed (cfg : ImageValidation) (width height : Int) :
    (validateDimensions cfg width height).valid = true ↔
      validateDimensions cfg width height = passed := by
  unfold validateDimensions
  split_ifs <;> simp [rejected, passed]

theorem string_append_data_ne (p q a b : String) (hlen : p.length = q.length) (hne : p ≠ q) :
    p ++ a ≠ q ++ b := by
  intro h
  have h1 : p.data ++ a.data = q.data ++ b.data := by
    have := congrArg String.data h
    simpa using this
  have h2 := List.append_inj_left h1 hlen
  exact hne (String.ext_iff.mpr h2)

theorem tooSmallReason_ne_tooLargeReason (cfg : ImageValidation) (w h mw mh w1 h1 : Int) :
    tooSmallReason cfg w h ≠ tooLargeReason mw mh w1 h1 := by
  unfold tooSmallReason tooLargeReason
  simp only [String.append_assoc]
  exact string_append_data_ne _ _ _ _ (by decide) (by decide)

theorem validateDimensions_tooLarge_only_if (cfg : ImageValidation) (width height : Int)
    (mw mh w1 h1 : Int)
    (h : (validateDimensions cfg width height).reason = some (tooLargeReason mw mh w1 h1)) :
    cfg.minWidth ≤ width ∧ cfg.minHeight ≤ height := by
  unfold validateDimensions at h
  by_cases hmin : width < cfg.minWidth ∨ height < cfg.minHeight
  · rw [if_pos hmin] at h
    exact absurd (Option.some.inj h) (tooSmallReason_ne_tooLargeReason _ _ _ _ _ _ _)
  · push_neg at hmin; exact hmin


theorem validateFormat_valid_iff_general (cfg : ImageValidation) (mimeType originalName : String) :
    (validateFormat cfg mimeType originalName).valid = true ↔
      mimeType ∈ cfg.allowedTypes ∨ toLowerCase (extname originalName) = ".heic" ∨
        toLowerCase (extname originalName) = ".heif" := by
  unfold validateFormat
  by_cases hm : mimeType ∈ cfg.allowedTypes
  · simp [hm, passed]
  · by_cases he : toLowerCase (extname originalName) = ".heic" ∨
        toLowerCase (extname originalName) = ".heif"
    · simp [hm, he, passed]
    · simp [hm, he, rejected]

theorem validateFormat_cases (cfg : ImageValidation) (mimeType originalName : String) :
    validateFormat cfg mimeType originalName = passed ∨
      validateFormat cfg mimeType originalName =
        rejected "Unsupported file format. Allowed types: JPG, PNG, HEIC" := by
  unfold validateFormat
  simp only []
  split_ifs <;> simp

/-! ## The face validator (claims C4, C5) -/

/-- C4: `validateFaces` returns the valid result (reason null) exactly when
`faceCount` is 1 and that face's `sizePercentage` is at least `minFaceSize`;
a valid result always is that result; on a reply of the detection service it
never throws and accepts exactly a single face whose width fraction times
height fraction times 100, the two products formed as JavaScript forms them
on doubles, reaches the minimum; a single face of exactly 5% is
accepted under the default configuration; zero faces are reported first, more
than one face next whatever the sizes, and a too-small face only for a single
face. -/
theorem validateFaces_valid_iff (cfg : ImageValidation) (fr : FaceResults) :
    (validateFaces cfg fr = .ok passed ↔
      fr.faceCount = 1 ∧ ∃ face, fr.faces.head? = some face ∧
        (cfg.minFaceSize : ℚ) ≤ face.sizePercentage) ∧
    (∀ r, validateFaces cfg fr = .ok r → (r.valid = true ↔ r = passed)) ∧
    (∀ (mul : ℚ → ℚ → ℚ) (details : List FaceDetail), fr = toFaceResults mul details →
      (∃ r, validateFaces cfg fr = .ok r) ∧
      (validateFaces cfg fr = .ok passed ↔
        ∃ d, details = [d] ∧
          (cfg.minFaceSize : ℚ) ≤ mul (mul d.BoundingBox.Width d.BoundingBox.Height) 100)) ∧
    (∀ face, fr.faceCount = 1 → fr.faces.head? = some face → face.sizePercentage = 5 →
      validateFaces defaultConfig fr = .ok passed) ∧
    (fr.faceCount = 0 → validateFaces cfg fr = .ok (rejected "No faces detected in the image")) ∧
    (1 < fr.faceCount → validateFaces cfg fr = .ok (rejected
      ("Multiple faces detected (" ++ toString fr.faceCount ++ "). Only one face allowed"))) ∧
    (∀ face, fr.faceCount = 1 → fr.faces.head? = some face →
      face.sizePercentage < (cfg.minFaceSize : ℚ) →
      validateFaces cfg fr = .ok (rejected (faceTooSmallReason cfg face.sizePercentage))) := by
  refine ⟨validateFaces_ok_passed_iff cfg fr,
    fun r h => (validateFaces_valid_reason cfg fr r h).2, ?_, ?_, ?_, ?_, ?_⟩
  · intro mul details hfr
    subst hfr
    constructor
    · cases details with
      | nil =>
        exact ⟨rejected "No faces detected in the image", by simp [validateFaces, toFaceResults]⟩
      | cons d ds =>
        cases ds with
        | nil =>
          by_cases hs : mul (mul d.BoundingBox.Width d.BoundingBox.Height) 100 <
              (cfg.minFaceSize : ℚ)
          · exact ⟨rejected (faceTooSmallReason cfg
              (mul (mul d.BoundingBox.Width d.BoundingBox.Height) 100)),
              by simp [validateFaces, toFaceResults, hs]⟩
          · exact ⟨passed, by simp [validateFaces, toFaceResults, hs]⟩
        | cons e es =>
          exact ⟨rejected ("Multiple faces detected (" ++ toString (es.length + 1 + 1) ++
            "). Only one face allowed"), by simp [validateFaces, toFaceResults]⟩
    · rw [validateFaces_ok_passed_iff]
      cases details with
      | nil => simp [toFaceResults]
      | cons d ds =>
        cases ds with
        | nil => simp [toFaceResults]
        | cons e es => simp [toFaceResults]
  · intro face h1 hf hs
    rw [validateFaces_ok_passed_iff]
    refine ⟨h1, face, hf, ?_⟩
    rw [hs]
    simp [defaultConfig]
  · intro h0
    simp [validateFaces, h0]
  · intro h1
    have h0 : fr.faceCount ≠ 0 := by omega
    simp [validateFaces, h0, h1]
  · intro face h1 hf hs
    simp [validateFaces, h1, hf, hs]

/-- Witness for C4: a reply with one face of exactly 5% is accepted. -/
theorem validateFaces_valid_iff_witness :
    validateFaces defaultConfig (toFaceResults (· * ·) [fivePercentFace]) = .ok passed :=
  ((validateFaces_valid_iff defaultConfig (toFaceResults (· * ·) [fivePercentFace])).2.2.1
    (· * ·) [fivePercentFace] rfl).2.mpr ⟨fivePercentFace, rfl, by norm_num [defaultConfig, fivePercentFace]⟩

/-- C5: with no face `validateFaces` rejects with the reason
`No faces detected in the image`; with `n > 1` faces it rejects with the reason
`Multiple faces detected (n). Only one face allowed`, `n` in decimal, whatever
the faces are; for two faces the count shown is 2. -/
theorem validateFaces_no_or_multiple_faces (cfg : ImageValidation) (fr : FaceResults) :
    (fr.faceCount = 0 →
      validateFaces cfg fr =
        .ok { valid := false, reason := some "No faces detected in the image" }) ∧
    (∀ n, 1 < n → fr.faceCount = n →
      validateFaces cfg fr =
        .ok { valid := false
              reason := some ("Multiple faces detected (" ++ Nat.repr n ++
                "). Only one face allowed") }) ∧
    (fr.faceCount = 2 →
      validateFaces cfg fr =
        .ok { valid := false
              reason := some "Multiple faces detected (2). Only one face allowed" }) := by
  refine ⟨?_, ?_, ?_⟩
  · intro h0
    simp [validateFaces, h0, rejected]
  · intro n hn h
    subst h
    have h0 : fr.faceCount ≠ 0 := by omega
    simp [validateFaces, h0, hn, rejected]
    rfl
  · intro h2
    simp [validateFaces, h2, rejected]
    decide

/-- Witness for C5: two faces, the first of them far too small, are rejected
for their number. -/
theorem validateFaces_no_or_multiple_faces_witness :
    validateFaces defaultConfig twoFaces =
      .ok { valid := false
            reason := some "Multiple faces detected (2). Only one face allowed" } :=
  (validateFaces_no_or_multiple_faces defaultConfig twoFaces).2.2 rfl

/-! ## The dimension, format and hash validators (claims C7 to C10) -/

/-- C7: under the default configuration `validateDimensions` is valid exactly
when `300 ≤ width ≤ 5000` and `300 ≤ height ≤ 5000`, all bounds inclusive; for
any configuration it is valid exactly when both minima are met and, when both
maxima are configured (present and non-zero), neither is exceeded; the valid
result carries no reason. -/
theorem validateDimensions_valid_iff (cfg : ImageValidation) (width height : Int) :
    ((validateDimensions defaultConfig width height).valid = true ↔
      (300 ≤ width ∧ width ≤ 5000) ∧ (300 ≤ height ∧ height ≤ 5000)) ∧
    ((validateDimensions cfg width height).valid = true ↔
      cfg.minWidth ≤ width ∧ cfg.minHeight ≤ height ∧
        ∀ mw mh, cfg.maxWidth = some mw → cfg.maxHeight = some mh → mw ≠ 0 → mh ≠ 0 →
          width ≤ mw ∧ height ≤ mh) ∧
    ((validateDimensions cfg width height).valid = true ↔
      validateDimensions cfg width height = { valid := true, reason := none }) :=
  ⟨validateDimensions_default_iff width height,
    validateDimensions_valid_iff_general cfg width height,
    validateDimensions_valid_iff_passed cfg width height⟩

/-- Witness for C7: the four corner sizes of the default range are valid, and
one pixel outside it is not. -/
theorem validateDimensions_valid_iff_witness :
    (validateDimensions defaultConfig 300 5000).valid = true ∧
    (validateDimensions defaultConfig 5000 300).valid = true ∧
    (validateDimensions defaultConfig 299 300).valid = false ∧
    (validateDimensions defaultConfig 300 5001).valid = false := by
  refine ⟨(validateDimensions_valid_iff defaultConfig 300 5000).1.mpr (by decide),
    (validateDimensions_valid_iff defaultConfig 5000 300).1.mpr (by decide), ?_, ?_⟩
  · have h := (validateDimensions_valid_iff defaultConfig 299 300).1
    cases hv : (validateDimensions defaultConfig 299 300).valid with
    | false => rfl
    | true => exact absurd (h.mp hv) (by decide)
  · have h := (validateDimensions_valid_iff defaultConfig 300 5001).1
    cases hv : (validateDimensions defaultConfig 300 5001).valid with
    | false => rfl
    | true => exact absurd (h.mp hv) (by decide)

/-- C8: whenever the width or the height is below its minimum,
`validateDimensions` is invalid with the reason
`Image dimensions too small. Minimum: WxHpx, Actual: wxhpx`; 200x200 under the
defaults cites 300x300 and 200x200; the reason stays the too-small one when the
other side exceeds the maximum; and a too-large reason is only produced when
both minima are met. -/
theorem validateDimensions_too_small_reason (cfg : ImageValidation) (width height : Int) :
    (width < cfg.minWidth ∨ height < cfg.minHeight →
      validateDimensions cfg width height =
        { valid := false
          reason := some ("Image dimensions too small. Minimum: " ++ toString cfg.minWidth ++
            "x" ++ toString cfg.minHeight ++ "px, Actual: " ++ toString width ++ "x" ++
            toString height ++ "px") }) ∧
    validateDimensions defaultConfig 200 200 =
      { valid := false
        reason := some "Image dimensions too small. Minimum: 300x300px, Actual: 200x200px" } ∧
    validateDimensions defaultConfig 200 6000 =
      { valid := false
        reason := some "Image dimensions too small. Minimum: 300x300px, Actual: 200x6000px" } ∧
    (∀ mw mh w h : Int, (validateDimensions cfg width height).reason =
        some ("Image dimensions too large. Maximum: " ++ toString mw ++ "x" ++ toString mh ++
          "px, Actual: " ++ toString w ++ "x" ++ toString h ++ "px") →
      cfg.minWidth ≤ width ∧ cfg.minHeight ≤ height) := by
  refine ⟨?_, by decide, by decide, ?_⟩
  · intro h
    simp only [validateDimensions, if_pos h, rejected, tooSmallReason]
  · intro mw mh w h hr
    exact validateDimensions_tooLarge_only_if cfg width height mw mh w h hr

/-- Witness for C8: a 200x6000 image is too narrow and too tall, and is
reported as too small. -/
theorem validateDimensions_too_small_reason_witness :
    validateDimensions defaultConfig 200 6000 =
      { valid := false
        reason := some ("Image dimensions too small. Minimum: " ++ toString (300 : Int) ++
          "x" ++ toString (300 : Int) ++ "px, Actual: " ++ toString (200 : Int) ++ "x" ++
          toString (6000 : Int) ++ "px") } :=
  (validateDimensions_too_small_reason defaultConfig 200 6000).1 (Or.inl (by decide))

/-- C9: under the default configuration `validateFormat` is valid exactly when
the MIME type is one of the five listed types or the lower-cased extension of
the file name is `.heic` or `.heif`; a `.jpg` or `.png` extension does not
rescue an unlisted MIME type; and every invalid result carries the reason
`Unsupported file format. Allowed types: JPG, PNG, HEIC`. -/
theorem validateFormat_valid_iff (mimeType originalName : String) :
    ((validateFormat defaultConfig mimeType originalName).valid = true ↔
      (mimeType = "image/jpeg" ∨ mimeType = "image/jpg" ∨ mimeType = "image/png" ∨
        mimeType = "image/heic" ∨ mimeType = "image/heif") ∨
      toLowerCase (extname originalName) = ".heic" ∨
      toLowerCase (extname originalName) = ".heif") ∧
    ((validateFormat defaultConfig mimeType originalName).valid = true ↔
      validateFormat defaultConfig mimeType originalName = { valid := true, reason := none }) ∧
    ((validateFormat defaultConfig mimeType originalName).valid = false →
      validateFormat defaultConfig mimeType originalName =
        { valid := false
          reason := some "Unsupported file format. Allowed types: JPG, PNG, HEIC" }) ∧
    (mimeType ∉ defaultConfig.allowedTypes →
      toLowerCase (extname originalName) = ".jpg" ∨
        toLowerCase (extname originalName) = ".png" →
      validateFormat defaultConfig mimeType originalName =
        { valid := false
          reason := some "Unsupported file format. Allowed types: JPG, PNG, HEIC" }) := by
  have hc := validateFormat_cases defaultConfig mimeType originalName
  refine ⟨?_, ?_, ?_, ?_⟩
  · rw [validateFormat_valid_iff_general]
    simp [defaultConfig]
  · rcases hc with h | h <;> rw [h] <;> simp [passed, rejected]
  · intro hv
    rcases hc with h | h
    · rw [h] at hv; simp [passed] at hv
    · rw [h]; rfl
  · intro hm he
    have hnot : ¬ (validateFormat defaultConfig mimeType originalName).valid = true := by
      rw [validateFormat_valid_iff_general]
      rintro (h | h | h)
      · exact hm h
      · rcases he with e | e <;> rw [e] at h <;> exact absurd h (by decide)
      · rcases he with e | e <;> rw [e] at h <;> exact absurd h (by decide)
    rcases hc with h | h
    · rw [h] at hnot; simp [passed] at hnot
    · rw [h]; rfl

/-- Witness for C9: a mislabelled file named `photo.jpg` is rejected, while the
same label on `IMG_0001.HEIC` is accepted. -/
theorem validateFormat_valid_iff_witness :
    validateFormat defaultConfig "application/octet-stream" "photo.jpg" =
      { valid := false
        reason := some "Unsupported file format. Allowed types: JPG, PNG, HEIC" } ∧
    (validateFormat defaultConfig "application/octet-stream" "IMG_0001.HEIC").valid = true :=
  ⟨(validateFormat_valid_iff "application/octet-stream" "photo.jpg").2.2.2
      (by decide) (Or.inl (by decide)),
    (validateFormat_valid_iff "application/octet-stream" "IMG_0001.HEIC").1.mpr
      (Or.inr (Or.inl (by decide)))⟩

/-- C10: `calculateHashSimilarity` is 0 when either hash is missing or empty or
the lengths differ; otherwise it is 100 times the number of positions at which
the two strings agree, divided by the length; it always lies in `[0, 100]`, is
symmetric, and is 100 exactly for two identical non-empty strings. -/
theorem calculateHashSimilarity_spec (hash1 hash2 : Option String) :
    ((hash1 = none ∨ hash1 = some "" ∨ hash2 = none ∨ hash2 = some "" ∨
        (∃ a b, hash1 = some a ∧ hash2 = some b ∧ a.length ≠ b.length)) →
      calculateHashSimilarity hash1 hash2 = 0) ∧
    (∀ a b, hash1 = some a → hash2 = some b → a ≠ "" → b ≠ "" → a.length = b.length →
      calculateHashSimilarity hash1 hash2 =
        100 * (((List.range a.length).filter
          (fun i => decide (a.data.get? i = b.data.get? i))).length : ℚ) / (a.length : ℚ)) ∧
    (0 ≤ calculateHashSimilarity hash1 hash2 ∧ calculateHashSimilarity hash1 hash2 ≤ 100) ∧
    calculateHashSimilarity hash1 hash2 = calculateHashSimilarity hash2 hash1 ∧
    (calculateHashSimilarity hash1 hash2 = 100 ↔
      ∃ s, s ≠ "" ∧ hash1 = some s ∧ hash2 = some s) := by
  refine ⟨?_, ?_, ⟨calculateHashSimilarity_nonneg hash1 hash2,
    calculateHashSimilarity_le hash1 hash2⟩, calculateHashSimilarity_comm hash1 hash2,
    calculateHashSimilarity_eq_hundred_iff hash1 hash2⟩
  · rintro (h | h | h | h | ⟨a, b, ha, hb, hne⟩)
    · subst h; cases hash2 <;> rfl
    · subst h; cases hash2 <;> simp [calculateHashSimilarity]
    · subst h; cases hash1 <;> rfl
    · subst h; cases hash1 <;> simp [calculateHashSimilarity]
    · subst ha; subst hb; simp [calculateHashSimilarity, hne]
  · intro a b ha hb hane hbne hlen
    subst ha; subst hb
    rw [calculateHashSimilarity_some a b hane hbne hlen,
      matchingChars_eq_count a.data b.data hlen]
    simp only [String.length]
    ring

/-- Witness for C10: two four-character strings agreeing at three positions
are 75% similar. -/
theorem calculateHashSimilarity_spec_witness :
    calculateHashSimilarity (some "abcd") (some "abce") = 75 := by
  have h := (calculateHashSimilarity_spec (some "abcd") (some "abce")).2.1 "abcd" "abce"
    rfl rfl (by decide) (by decide) (by decide)
  rw [h]
  have hc : ((List.range "abcd".length).filter
      (fun i => decide ("abcd".data.get? i = "abce".data.get? i))).length = 3 := by decide
  rw [hc]
  have hl : "abcd".length = 4 := by decide
  rw [hl]
  norm_num

/-! ## Lemmas on the record store -/

theorem find_map_update (l : List ImageRecord) (id : Nat) (f : ImageRecord → ImageRecord)
    (hf : ∀ x, (f x).id = x.id) :
    (l.map fun x => if x.id = id then f x else x).find? (fun r => decide (r.id = id)) =
      (l.find? fun r => decide (r.id = id)).map f := by
  induction l with
  | nil => rfl
  | cons x xs ih =>
    by_cases hx : x.id = id
    · simp [List.find?, hx, hf]
    · simp [List.find?, hx, ih]

theorem find_append_singleton (l : List ImageRecord) (rec : ImageRecord) :
    ∃ r0, (l ++ [rec]).find? (fun r => decide (r.id = rec.id)) = some r0 ∧ r0.id = rec.id := by
  cases h : (l ++ [rec]).find? (fun r => decide (r.id = rec.id)) with
  | none =>
    rw [List.find?_eq_none] at h
    have := h rec (by simp)
    simp at this
  | some r0 =>
    refine ⟨r0, rfl, ?_⟩
    have := List.find?_some h
    simpa using this

theorem imageFindMany_accepted_append (w w1 : World) (rec : ImageRecord) (userId : String)
    (himg : w1.images = w.images ++ [rec]) (hrec : rec.status = .PROCESSING) :
    w1.imageFindMany userId (some .ACCEPTED) = w.imageFindMany userId (some .ACCEPTED) := by
  simp [World.imageFindMany, himg, List.filter_append, hrec]

theorem validateSimilarity_snd_congr (cfg : ImageValidation) (w1 w2 : World) (hash : String)
    (buf : Buffer) (userId : String)
    (h : w1.imageFindMany userId (some .ACCEPTED) = w2.imageFindMany userId (some .ACCEPTED)) :
    (validateSimilarity cfg w1 hash buf userId).2 = (validateSimilarity cfg w2 hash buf userId).2 := by
  simp only [validateSimilarity, h]
  split_ifs <;> rfl

theorem validateSimilarity_fst (cfg : ImageValidation) (w : World) (hash : String)
    (buf : Buffer) (userId : String) :
    (validateSimilarity cfg w hash buf userId).1 = w.emit .imageFindMany := by
  simp only [validateSimilarity]
  split_ifs <;> rfl

theorem runValidations_fst (cfg : ImageValidation) (file : UploadedFile) (userId : String)
    (img : ProcessedImage) (hash : String) (blur : ℚ) (w : World) :
    (runValidations cfg file userId img hash blur w).1 = w.emit .imageFindMany := by
  simp only [runValidations]
  exact validateSimilarity_fst cfg w hash img.processedBuffer userId

theorem runValidations_snd (cfg : ImageValidation) (file : UploadedFile) (userId : String)
    (img : ProcessedImage) (hash : String) (blur : ℚ) (w : World) :
    (runValidations cfg file userId img hash blur w).2 =
      [validateFormat cfg file.mimetype file.originalname,
       validateDimensions cfg img.width img.height,
       (validateSimilarity cfg w hash img.processedBuffer userId).2,
       validateSharpness cfg blur] := by
  simp only [runValidations]

theorem runValidations_snd_congr (cfg : ImageValidation) (file : UploadedFile) (userId : String)
    (img : ProcessedImage) (hash : String) (blur : ℚ) (w1 w2 : World)
    (h : w1.imageFindMany userId (some .ACCEPTED) = w2.imageFindMany userId (some .ACCEPTED)) :
    (runValidations cfg file userId img hash blur w1).2 =
      (runValidations cfg file userId img hash blur w2).2 := by
  rw [runValidations_snd, runValidations_snd,
    validateSimilarity_snd_congr cfg w1 w2 hash img.processedBuffer userId h]

/-! ## Lemmas on the orchestrator -/

theorem uploadFile_ok (env : Env) (w : World) (buffer : Buffer) (fileName mimeType : String)
    (hu : env.s3Upload (uploadParams env buffer fileName mimeType) = .ok ()) :
    uploadFile env w buffer fileName mimeType =
      ({ images := w.images, nextId := w.nextId,
         bucket := w.bucket ++ [uploadParams env buffer fileName mimeType],
         log := w.log ++ [.uploadFile] },
       .ok ((uploadParams env buffer fileName mimeType).Key,
         env.s3GetSignedUrl (uploadParams env buffer fileName mimeType).Key)) := by
  simp only [uploadFile, hu, World.emit]

theorem imageUpdate_ok (w : World) (id : Nat) (f : ImageRecord → ImageRecord) (r0 : ImageRecord)
    (hfind : w.imageFindUnique id = some r0) :
    w.imageUpdate id f =
      ({ images := w.images.map fun x => if x.id = id then f x else x, nextId := w.nextId,
         bucket := w.bucket, log := w.log ++ [.imageUpdate] }, .ok (f r0)) := by
  simp only [World.imageUpdate, hfind, World.emit]

theorem rejectByFace_outcome (env : Env) (file : UploadedFile) (img : ProcessedImage)
    (fv : ValidationResult) (id : Nat) (w : World) (r0 : ImageRecord)
    (hu : env.s3Upload (uploadParams env img.processedBuffer file.originalname
      (storedContentType img.format file)) = .ok ())
    (hfind : w.imageFindUnique id = some r0) :
    rejectByFace env file img fv id w =
      ({ images := w.images.map fun x =>
           if x.id = id then
             faceRejectionData
               (uploadParams env img.processedBuffer file.originalname
                 (storedContentType img.format file)).Key
               (env.s3GetSignedUrl (uploadParams env img.processedBuffer file.originalname
                 (storedContentType img.format file)).Key) img fv x
           else x
         nextId := w.nextId
         bucket := w.bucket ++ [uploadParams env img.processedBuffer file.originalname
           (storedContentType img.format file)]
         log := w.log ++ [.uploadFile, .imageUpdate] },
       .ok (faceRejectionData
         (uploadParams env img.processedBuffer file.originalname
           (storedContentType img.format file)).Key
         (env.s3GetSignedUrl (uploadParams env img.processedBuffer file.originalname
           (storedContentType img.format file)).Key) img fv r0)) := by
  simp only [rejectByFace, uploadFile_ok env w _ _ _ hu]
  have hfind1 : World.imageFindUnique
      { images := w.images, nextId := w.nextId,
        bucket := w.bucket ++ [uploadParams env img.processedBuffer file.originalname
          (storedContentType img.format file)],
        log := w.log ++ [Effect.uploadFile] } id = some r0 := hfind
  rw [imageUpdate_ok _ id _ r0 hfind1]
  simp

theorem validateAndFinalize_outcome (cfg : ImageValidation) (env : Env) (file : UploadedFile)
    (userId : String) (img : ProcessedImage) (id : Nat) (w : World) (r0 : ImageRecord)
    (hu : env.s3Upload (uploadParams env img.processedBuffer file.originalname
      (storedContentType img.format file)) = .ok ())
    (hfind : w.imageFindUnique id = some r0) :
    validateAndFinalize cfg env file userId img id w =
      ({ images := w.images.map fun x =>
           if x.id = id then
             finalData
               (uploadParams env img.processedBuffer file.originalname
                 (storedContentType img.format file)).Key
               (env.s3GetSignedUrl (uploadParams env img.processedBuffer file.originalname
                 (storedContentType img.format file)).Key) img
               (verdict (runValidations cfg file userId img
                 (env.generateSimilarityHash img.processedBuffer)
                 (env.detectBlurriness img.processedBuffer) w).2).1
               (verdict (runValidations cfg file userId img
                 (env.generateSimilarityHash img.processedBuffer)
                 (env.detectBlurriness img.processedBuffer) w).2).2
               (env.generateSimilarityHash img.processedBuffer) x
           else x
         nextId := w.nextId
         bucket := w.bucket ++ [uploadParams env img.processedBuffer file.originalname
           (storedContentType img.format file)]
         log := w.log ++ [.uploadFile, .generateSimilarityHash, .detectBlurriness,
           .imageFindMany, .imageUpdate, .getSignedUrl] },
       .ok { finalData
               (uploadParams env img.processedBuffer file.originalname
                 (storedContentType img.format file)).Key
               (env.s3GetSignedUrl (uploadParams env img.processedBuffer file.originalname
                 (storedContentType img.format file)).Key) img
               (verdict (runValidations cfg file userId img
                 (env.generateSimilarityHash img.processedBuffer)
                 (env.detectBlurriness img.processedBuffer) w).2).1
               (verdict (runValidations cfg file userId img
                 (env.generateSimilarityHash img.processedBuffer)
                 (env.detectBlurriness img.processedBuffer) w).2).2
               (env.generateSimilarityHash img.processedBuffer) r0 with
             s3Url := env.s3GetSignedUrl (uploadParams env img.processedBuffer
               file.originalname (storedContentType img.format file)).Key }) := by
  simp only [validateAndFinalize, uploadFile_ok env w _ _ _ hu]
  generalize hW : (World.emit (World.emit
      { images := w.images, nextId := w.nextId,
        bucket := w.bucket ++ [uploadParams env img.processedBuffer file.originalname
          (storedContentType img.format file)],
        log := w.log ++ [Effect.uploadFile] } Effect.generateSimilarityHash)
      Effect.detectBlurriness) = W
  have hWimg : W.images = w.images := by rw [← hW]; rfl
  have hWnext : W.nextId = w.nextId := by rw [← hW]; rfl
  have hWbucket : W.bucket = w.bucket ++ [uploadParams env img.processedBuffer
      file.originalname (storedContentType img.format file)] := by rw [← hW]; rfl
  have hWlog : W.log = w.log ++ [.uploadFile, .generateSimilarityHash, .detectBlurriness] := by
    rw [← hW]; simp [World.emit]
  have h1 := runValidations_fst cfg file userId img
    (env.generateSimilarityHash img.processedBuffer) (env.detectBlurriness img.processedBuffer) W
  have h2 := runValidations_snd_congr cfg file userId img
    (env.generateSimilarityHash img.processedBuffer) (env.detectBlurriness img.processedBuffer)
    W w (by simp [World.imageFindMany, hWimg])
  rcases hrv : runValidations cfg file userId img
    (env.generateSimilarityHash img.processedBuffer) (env.detectBlurriness img.processedBuffer) W
    with ⟨w4, vs⟩
  rw [hrv] at h1 h2
  simp only at h1 h2
  subst h1
  rw [← h2]
  have hfind4 : (W.emit .imageFindMany).imageFindUnique id = some r0 := by
    simp only [World.imageFindUnique, World.emit, hWimg]
    exact hfind
  rw [imageUpdate_ok _ id _ r0 hfind4]
  simp [World.emit, hWimg, hWnext, hWbucket, hWlog, getSignedUrl]

theorem imageCreate_find (w : World) (env : Env) (data : CreateData) :
    ∃ r0, (((w.imageCreate env data).1.emit .processImage).emit .detectFaces).imageFindUnique
        w.nextId = some r0 ∧ r0.id = w.nextId := by
  obtain ⟨r0, h1, h2⟩ := find_append_singleton w.images (w.imageCreate env data).2
  exact ⟨r0, h1, h2⟩

theorem processUpload_gate_passed (cfg : ImageValidation) (env : Env) (file : UploadedFile)
    (userId : String) (w : World) (img : ProcessedImage) (fr : FaceResults)
    (fv : ValidationResult)
    (hp : processImage env file.buffer file.originalname = .ok img)
    (hd : detectFaces env img.processedBuffer = .ok fr)
    (hv : validateFaces cfg fr = .ok fv) (hvalid : fv.valid = true) :
    processUpload cfg env file userId w =
      validateAndFinalize cfg env file userId img w.nextId
        (((w.imageCreate env (provisionalData env file userId)).1.emit .processImage).emit
          .detectFaces) := by
  simp [processUpload, hp, hd, hv, hvalid, World.imageCreate]

theorem processUpload_gate_failed (cfg : ImageValidation) (env : Env) (file : UploadedFile)
    (userId : String) (w : World) (img : ProcessedImage) (fr : FaceResults)
    (fv : ValidationResult)
    (hp : processImage env file.buffer file.originalname = .ok img)
    (hd : detectFaces env img.processedBuffer = .ok fr)
    (hv : validateFaces cfg fr = .ok fv) (hvalid : fv.valid = false) :
    processUpload cfg env file userId w =
      rejectByFace env file img fv w.nextId
        (((w.imageCreate env (provisionalData env file userId)).1.emit .processImage).emit
          .detectFaces) := by
  simp [processUpload, hp, hd, hv, hvalid, World.imageCreate]

/-- The run of `processUpload` on an upload stopped at the face gate. -/
theorem processUpload_face_rejected (cfg : ImageValidation) (env : Env) (file : UploadedFile)
    (userId : String) (w : World) (img : ProcessedImage) (fr : FaceResults)
    (fv : ValidationResult)
    (hp : processImage env file.buffer file.originalname = .ok img)
    (hd : detectFaces env img.processedBuffer = .ok fr)
    (hv : validateFaces cfg fr = .ok fv) (hvalid : fv.valid = false)
    (hu : env.s3Upload (uploadParams env img.processedBuffer file.originalname
      (storedContentType img.format file)) = .ok ()) :
    ∃ r0 r : ImageRecord, r0.id = w.nextId ∧
      r = faceRejectionData
        (uploadParams env img.processedBuffer file.originalname
          (storedContentType img.format file)).Key
        (env.s3GetSignedUrl (uploadParams env img.processedBuffer file.originalname
          (storedContentType img.format file)).Key) img fv r0 ∧
      (processUpload cfg env file userId w).2 = .ok r ∧
      (processUpload cfg env file userId w).1.imageFindUnique w.nextId = some r ∧
      (processUpload cfg env file userId w).1.bucket =
        w.bucket ++ [uploadParams env img.processedBuffer file.originalname
          (storedContentType img.format file)] ∧
      (processUpload cfg env file userId w).1.log =
        w.log ++ [.imageCreate, .processImage, .detectFaces, .uploadFile, .imageUpdate] := by
  obtain ⟨r0, hfind, hid⟩ := imageCreate_find w env (provisionalData env file userId)
  refine ⟨r0, _, hid, rfl, ?_⟩
  rw [processUpload_gate_failed cfg env file userId w img fr fv hp hd hv hvalid,
    rejectByFace_outcome env file img fv w.nextId _ r0 hu hfind]
  refine ⟨rfl, ?_, ?_, ?_⟩
  · simp only [World.imageFindUnique]
    rw [find_map_update _ w.nextId (faceRejectionData _ _ img fv) (fun x => rfl)]
    simp only [World.imageFindUnique] at hfind
    rw [hfind]
    rfl
  · simp [World.imageCreate, World.emit]
  · simp [World.imageCreate, World.emit]

/-- The run of `processUpload` on an upload that passed the face gate. -/
theorem processUpload_validated (cfg : ImageValidation) (env : Env) (file : UploadedFile)
    (userId : String) (w : World) (img : ProcessedImage) (fr : FaceResults)
    (fv : ValidationResult)
    (hp : processImage env file.buffer file.originalname = .ok img)
    (hd : detectFaces env img.processedBuffer = .ok fr)
    (hv : validateFaces cfg fr = .ok fv) (hvalid : fv.valid = true)
    (hu : env.s3Upload (uploadParams env img.processedBuffer file.originalname
      (storedContentType img.format file)) = .ok ()) :
    ∃ r0 r : ImageRecord, r0.id = w.nextId ∧
      r = finalData
        (uploadParams env img.processedBuffer file.originalname
          (storedContentType img.format file)).Key
        (env.s3GetSignedUrl (uploadParams env img.processedBuffer file.originalname
          (storedContentType img.format file)).Key) img
        (verdict (runValidations cfg file userId img
          (env.generateSimilarityHash img.processedBuffer)
          (env.detectBlurriness img.processedBuffer) w).2).1
        (verdict (runValidations cfg file userId img
          (env.generateSimilarityHash img.processedBuffer)
          (env.detectBlurriness img.processedBuffer) w).2).2
        (env.generateSimilarityHash img.processedBuffer) r0 ∧
      (processUpload cfg env file userId w).2 = .ok r ∧
      (processUpload cfg env file userId w).1.imageFindUnique w.nextId = some r ∧
      (processUpload cfg env file userId w).1.bucket =
        w.bucket ++ [uploadParams env img.processedBuffer file.originalname
          (storedContentType img.format file)] ∧
      (processUpload cfg env file userId w).1.log =
        w.log ++ [.imageCreate, .processImage, .detectFaces, .uploadFile,
          .generateSimilarityHash, .detectBlurriness, .imageFindMany, .imageUpdate,
          .getSignedUrl] := by
  obtain ⟨r0, hfind, hid⟩ := imageCreate_find w env (provisionalData env file userId)
  refine ⟨r0, _, hid, rfl, ?_⟩
  have hcongr := runValidations_snd_congr cfg file userId img
    (env.generateSimilarityHash img.processedBuffer) (env.detectBlurriness img.processedBuffer)
    (((w.imageCreate env (provisionalData env file userId)).1.emit .processImage).emit
      .detectFaces) w
    (imageFindMany_accepted_append w _ (w.imageCreate env (provisionalData env file userId)).2
      userId rfl rfl)
  rw [processUpload_gate_passed cfg env file userId w img fr fv hp hd hv hvalid,
    validateAndFinalize_outcome cfg env file userId img w.nextId _ r0 hu hfind, hcongr]
  refine ⟨?_, ?_, ?_, ?_⟩
  · simp [finalData]
  · simp only [World.imageFindUnique]
    rw [find_map_update _ w.nextId (finalData _ _ img _ _ _) (fun x => rfl)]
    simp only [World.imageFindUnique] at hfind
    rw [hfind]
    rfl
  · simp [World.imageCreate, World.emit]
  · simp [World.imageCreate, World.emit]

/-! ## Lemmas on the similarity and sharpness validators and on the verdict -/

theorem validateSharpness_valid_iff (cfg : ImageValidation) (blurValue : ℚ) :
    (validateSharpness cfg blurValue).valid = true ↔ (cfg.blurThreshold : ℚ) ≤ blurValue := by
  simp [validateSharpness]

theorem validateSharpness_reason_iff (cfg : ImageValidation) (blurValue : ℚ) :
    (validateSharpness cfg blurValue).reason = none ↔
      (validateSharpness cfg blurValue).valid = true := by
  simp only [validateSharpness]
  split_ifs with h <;> simp [h]

theorem similarityLoop_valid_iff (cfg : ImageValidation) (hash : String) (l : List ImageRecord) :
    (similarityLoop cfg hash l).valid = true ↔
      ∀ rec ∈ l, falsyString rec.similarityHash = false →
        calculateHashSimilarity (some hash) rec.similarityHash < (cfg.similarityThreshold : ℚ) := by
  induction l with
  | nil => simp [similarityLoop, passed]
  | cons x xs ih =>
    simp only [similarityLoop, List.mem_cons, forall_eq_or_imp]
    by_cases hf : falsyString x.similarityHash = true
    · simp [hf, ih]
    · simp only [hf, Bool.false_eq_true, ↓reduceIte]
      by_cases hs : calculateHashSimilarity (some hash) x.similarityHash ≥
          (cfg.similarityThreshold : ℚ)
      · simp only [hs, ↓reduceIte, rejected, Bool.false_eq_true, false_iff]
        intro h
        have := h.1 (by simp [hf])
        exact absurd hs (not_le.mpr this)
      · simp only [hs, ↓reduceIte, ih]
        constructor
        · intro h
          exact ⟨fun _ => not_le.mp hs, h⟩
        · intro h
          exact h.2

theorem similarityLoop_reason_iff (cfg : ImageValidation) (hash : String) (l : List ImageRecord) :
    (similarityLoop cfg hash l).reason = none ↔ (similarityLoop cfg hash l).valid = true := by
  induction l with
  | nil => simp [similarityLoop, passed]
  | cons x xs ih =>
    simp only [similarityLoop]
    split_ifs
    · exact ih
    · simp [rejected]
    · exact ih

theorem validateSimilarity_snd (cfg : ImageValidation) (w : World) (hash : String)
    (buf : Buffer) (userId : String) :
    (validateSimilarity cfg w hash buf userId).2 =
      similarityLoop cfg hash (w.imageFindMany userId (some .ACCEPTED)) := by
  simp only [validateSimilarity]
  split_ifs with h
  · rw [List.length_eq_zero.mp h]
    rfl
  · rfl

theorem falsy_similarity_zero (hash : String) (h : Option String) (hf : falsyString h = true) :
    calculateHashSimilarity (some hash) h = 0 := by
  cases h with
  | none => rfl
  | some t =>
    have : t = "" := by simpa [falsyString] using hf
    subst this
    simp [calculateHashSimilarity]

theorem validateSimilarity_default_valid_iff (w : World) (hash : String) (buf : Buffer)
    (userId : String) :
    (validateSimilarity defaultConfig w hash buf userId).2.valid = true ↔
      ∀ rec ∈ w.images, rec.userId = userId → rec.status = .ACCEPTED →
        calculateHashSimilarity (some hash) rec.similarityHash < 85 := by
  rw [validateSimilarity_snd, similarityLoop_valid_iff]
  simp only [World.imageFindMany, List.mem_filter, Bool.and_eq_true, decide_eq_true_eq]
  have hthr : ((defaultConfig.similarityThreshold : ℤ) : ℚ) = 85 := by
    simp [defaultConfig]
  rw [hthr]
  constructor
  · intro h rec hmem hu hs
    by_cases hf : falsyString rec.similarityHash = true
    · rw [falsy_similarity_zero hash _ hf]; norm_num
    · exact h rec ⟨hmem, hu, hs⟩ (by simpa using hf)
  · intro h rec hrec _
    exact h rec hrec.1 hrec.2.1 hrec.2.2

theorem verdict_accepted_iff (vs : List ValidationResult) :
    (verdict vs).1 = .ACCEPTED ↔ ∀ v ∈ vs, v.valid = true := by
  unfold verdict
  cases h : vs.find? (fun v => !v.valid) with
  | none =>
    rw [List.find?_eq_none] at h
    simp only [true_iff]
    intro v hv
    simpa using h v hv
  | some f =>
    have h1 := List.find?_some h
    have h2 := List.mem_of_find?_eq_some h
    simp only [false_iff, reduceCtorEq]
    intro hall
    have := hall f h2
    simp [this] at h1

theorem verdict_status (vs : List ValidationResult) :
    (verdict vs).1 = .ACCEPTED ∨ (verdict vs).1 = .REJECTED := by
  unfold verdict
  split <;> simp

theorem verdict_reason_of_accepted (vs : List ValidationResult)
    (h : (verdict vs).1 = .ACCEPTED) : (verdict vs).2 = none := by
  unfold verdict at h ⊢
  split at h
  · simp at h
  · rename_i hnone
    simp [hnone]

theorem verdict_four (a b c d : ValidationResult) :
    (a.valid = false → verdict [a, b, c, d] = (.REJECTED, a.reason)) ∧
    (a.valid = true → b.valid = false → verdict [a, b, c, d] = (.REJECTED, b.reason)) ∧
    (a.valid = true → b.valid = true → c.valid = false →
      verdict [a, b, c, d] = (.REJECTED, c.reason)) ∧
    (a.valid = true → b.valid = true → c.valid = true → d.valid = false →
      verdict [a, b, c, d] = (.REJECTED, d.reason)) ∧
    (a.valid = true → b.valid = true → c.valid = true → d.valid = true →
      verdict [a, b, c, d] = (.ACCEPTED, none)) := by
  refine ⟨?_, ?_, ?_, ?_, ?_⟩ <;> intros <;> simp [verdict, List.find?, *]

/-! ## The orchestrator (claims C1, C2, C3, C6) -/

theorem validateFaces_valid_iff_conditions (cfg : ImageValidation) (fr : FaceResults)
    (fv : ValidationResult) (hv : validateFaces cfg fr = .ok fv) :
    fv.valid = true ↔
      fr.faceCount = 1 ∧ ∃ face, fr.faces.head? = some face ∧
        (cfg.minFaceSize : ℚ) ≤ face.sizePercentage := by
  rw [← validateFaces_ok_passed_iff, (validateFaces_valid_reason cfg fr fv hv).2, hv]
  constructor
  · intro h; rw [h]
  · intro h; exact Except.ok.inj h

theorem sample_processImage (faces : List FaceDetail) (width height : Int) (blur : ℚ) :
    processImage (sampleEnv faces width height blur) sampleFile.buffer sampleFile.originalname =
      .ok (sampleImage width height) := by
  have hext : toLowerCase (extname sampleFile.originalname) = ".jpg" := by decide
  simp only [processImage, hext]
  simp [sampleEnv, sampleImage, sampleFile]

theorem sample_validateFaces_passed :
    validateFaces defaultConfig (toFaceResults (· * ·) [fivePercentFace]) = .ok passed := by
  simp [validateFaces, toFaceResults, fivePercentFace, defaultConfig]
  norm_num

/-- Status and reason of the record finalized behind the face gate, in terms of
the four validation results. -/
theorem verdict_runValidations_accepted_iff (cfg : ImageValidation) (file : UploadedFile)
    (userId : String) (img : ProcessedImage) (hash : String) (blur : ℚ) (w : World) :
    (verdict (runValidations cfg file userId img hash blur w).2).1 = .ACCEPTED ↔
      (validateFormat cfg file.mimetype file.originalname).valid = true ∧
      (validateDimensions cfg img.width img.height).valid = true ∧
      (validateSimilarity cfg w hash img.processedBuffer userId).2.valid = true ∧
      (validateSharpness cfg blur).valid = true := by
  rw [verdict_accepted_iff, runValidations_snd]
  simp

/-- C1: when normalization, face detection and storage succeed, `processUpload`
returns the record it finalized (the stored row has the same status and
reason), and that record is ACCEPTED with no rejection
reason exactly when `validateFaces`, `validateFormat`, `validateDimensions`,
`validateSimilarity` and `validateSharpness` are all valid; under the default
configuration this is: exactly one face of at least 5%, an allowed format,
`300 ≤ width, height ≤ 5000`, a blur score of at least 5, and a similarity
below 85 against every ACCEPTED record of the user. -/
theorem processUpload_accepted_iff (cfg : ImageValidation) (env : Env) (file : UploadedFile)
    (userId : String) (w : World) (img : ProcessedImage) (fr : FaceResults)
    (fv : ValidationResult)
    (hp : processImage env file.buffer file.originalname = .ok img)
    (hd : detectFaces env img.processedBuffer = .ok fr)
    (hv : validateFaces cfg fr = .ok fv)
    (hu : env.s3Upload (uploadParams env img.processedBuffer file.originalname
      (storedContentType img.format file)) = .ok ()) :
    ∃ r : ImageRecord,
      (processUpload cfg env file userId w).2 = .ok r ∧
      (∃ stored, (processUpload cfg env file userId w).1.imageFindUnique r.id = some stored ∧
        stored.status = r.status ∧ stored.rejectionReason = r.rejectionReason) ∧
      ((r.status = .ACCEPTED ∧ r.rejectionReason = none) ↔
        fv.valid = true ∧
        (validateFormat cfg file.mimetype file.originalname).valid = true ∧
        (validateDimensions cfg img.width img.height).valid = true ∧
        (validateSimilarity cfg w (env.generateSimilarityHash img.processedBuffer)
          img.processedBuffer userId).2.valid = true ∧
        (validateSharpness cfg (env.detectBlurriness img.processedBuffer)).valid = true) ∧
      (cfg = defaultConfig →
        ((r.status = .ACCEPTED ∧ r.rejectionReason = none) ↔
          (fr.faceCount = 1 ∧ ∃ face, fr.faces.head? = some face ∧ 5 ≤ face.sizePercentage) ∧
          ((file.mimetype = "image/jpeg" ∨ file.mimetype = "image/jpg" ∨
              file.mimetype = "image/png" ∨ file.mimetype = "image/heic" ∨
              file.mimetype = "image/heif") ∨
            toLowerCase (extname file.originalname) = ".heic" ∨
            toLowerCase (extname file.originalname) = ".heif") ∧
          ((300 ≤ img.width ∧ img.width ≤ 5000) ∧ (300 ≤ img.height ∧ img.height ≤ 5000)) ∧
          (∀ rec ∈ w.images, rec.userId = userId → rec.status = .ACCEPTED →
            calculateHashSimilarity (some (env.generateSimilarityHash img.processedBuffer))
              rec.similarityHash < 85) ∧
          5 ≤ env.detectBlurriness img.processedBuffer)) := by
  have key : ∃ r : ImageRecord,
      (processUpload cfg env file userId w).2 = .ok r ∧
      (∃ stored, (processUpload cfg env file userId w).1.imageFindUnique r.id = some stored ∧
        stored.status = r.status ∧ stored.rejectionReason = r.rejectionReason) ∧
      ((r.status = .ACCEPTED ∧ r.rejectionReason = none) ↔
        fv.valid = true ∧
        (validateFormat cfg file.mimetype file.originalname).valid = true ∧
        (validateDimensions cfg img.width img.height).valid = true ∧
        (validateSimilarity cfg w (env.generateSimilarityHash img.processedBuffer)
          img.processedBuffer userId).2.valid = true ∧
        (validateSharpness cfg (env.detectBlurriness img.processedBuffer)).valid = true) := by
    cases hvalid : fv.valid with
    | false =>
      obtain ⟨r0, r, hid, hr, hret, hstored, -, -⟩ :=
        processUpload_face_rejected cfg env file userId w img fr fv hp hd hv hvalid hu
      have hrid : r.id = w.nextId := by rw [hr]; exact hid
      refine ⟨r, hret, ⟨r, by rw [hrid]; exact hstored, rfl, rfl⟩, ?_⟩
      have hs : r.status = .REJECTED := by rw [hr]; rfl
      simp [hs]
    | true =>
      obtain ⟨r0, r, hid, hr, hret, hstored, -, -⟩ :=
        processUpload_validated cfg env file userId w img fr fv hp hd hv hvalid hu
      have hrid : r.id = w.nextId := by rw [hr]; exact hid
      refine ⟨r, hret, ⟨r, by rw [hrid]; exact hstored, rfl, rfl⟩, ?_⟩
      have hs : r.status = (verdict (runValidations cfg file userId img
          (env.generateSimilarityHash img.processedBuffer)
          (env.detectBlurriness img.processedBuffer) w).2).1 := by rw [hr]; rfl
      have hreason : r.rejectionReason = (verdict (runValidations cfg file userId img
          (env.generateSimilarityHash img.processedBuffer)
          (env.detectBlurriness img.processedBuffer) w).2).2 := by rw [hr]; rfl
      rw [hs, hreason, ← verdict_runValidations_accepted_iff]
      constructor
      · intro h; exact ⟨rfl, h.1⟩
      · intro h; exact ⟨h.2, verdict_reason_of_accepted _ h.2⟩
  obtain ⟨r, hret, hstored, hiff⟩ := key
  refine ⟨r, hret, hstored, hiff, ?_⟩
  intro hcfg
  subst hcfg
  rw [hiff, validateFaces_valid_iff_conditions defaultConfig fr fv hv,
    validateFormat_valid_iff_general, validateDimensions_default_iff,
    validateSimilarity_default_valid_iff, validateSharpness_valid_iff]
  simp [defaultConfig]

/-- Witness for C1: a 800x600 JPEG with one face of exactly 5% and blur score
12, uploaded to an empty store, is ACCEPTED. -/
theorem processUpload_accepted_iff_witness :
    ∃ r : ImageRecord,
      (processUpload defaultConfig (sampleEnv [fivePercentFace] 800 600 12) sampleFile "user-1"
        emptyWorld).2 = .ok r ∧ r.status = .ACCEPTED ∧ r.rejectionReason = none := by
  obtain ⟨r, hret, -, hiff, -⟩ :=
    processUpload_accepted_iff defaultConfig (sampleEnv [fivePercentFace] 800 600 12) sampleFile
      "user-1" emptyWorld (sampleImage 800 600) (toFaceResults (· * ·) [fivePercentFace]) passed
      (sample_processImage _ _ _ _) rfl sample_validateFaces_passed rfl
  refine ⟨r, hret, hiff.mpr ⟨rfl, ?_, ?_, ?_, ?_⟩⟩
  · decide
  · decide
  · rfl
  · rw [validateSharpness_valid_iff]
    norm_num [sampleEnv, defaultConfig]

/-- C2: for an upload that passed the face gate, the finalized record is
REJECTED as soon as one of the four validators is invalid, and its
`rejectionReason` is the reason of the first invalid one in the order Format,
Dimension, Similarity, Sharpness (so a too-small and too-blurry image gets the
dimension reason); whatever the results, the run makes the same collaborator
calls, the similarity query on the record store among them. -/
theorem processUpload_first_failed_reason (cfg : ImageValidation) (env : Env)
    (file : UploadedFile) (userId : String) (w : World) (img : ProcessedImage)
    (fr : FaceResults) (fv : ValidationResult)
    (hp : processImage env file.buffer file.originalname = .ok img)
    (hd : detectFaces env img.processedBuffer = .ok fr)
    (hv : validateFaces cfg fr = .ok fv) (hvalid : fv.valid = true)
    (hu : env.s3Upload (uploadParams env img.processedBuffer file.originalname
      (storedContentType img.format file)) = .ok ()) :
    ∃ r : ImageRecord,
      (processUpload cfg env file userId w).2 = .ok r ∧
      (∃ stored, (processUpload cfg env file userId w).1.imageFindUnique r.id = some stored ∧
        stored.status = r.status ∧ stored.rejectionReason = r.rejectionReason) ∧
      ((validateFormat cfg file.mimetype file.originalname).valid = false ∨
        (validateDimensions cfg img.width img.height).valid = false ∨
        (validateSimilarity cfg w (env.generateSimilarityHash img.processedBuffer)
          img.processedBuffer userId).2.valid = false ∨
        (validateSharpness cfg (env.detectBlurriness img.processedBuffer)).valid = false →
        r.status = .REJECTED) ∧
      ((validateFormat cfg file.mimetype file.originalname).valid = false →
        r.rejectionReason = (validateFormat cfg file.mimetype file.originalname).reason) ∧
      ((validateFormat cfg file.mimetype file.originalname).valid = true →
        (validateDimensions cfg img.width img.height).valid = false →
        r.rejectionReason = (validateDimensions cfg img.width img.height).reason) ∧
      ((validateFormat cfg file.mimetype file.originalname).valid = true →
        (validateDimensions cfg img.width img.height).valid = true →
        (validateSimilarity cfg w (env.generateSimilarityHash img.processedBuffer)
          img.processedBuffer userId).2.valid = false →
        r.rejectionReason = (validateSimilarity cfg w
          (env.generateSimilarityHash img.processedBuffer) img.processedBuffer userId).2.reason) ∧
      ((validateFormat cfg file.mimetype file.originalname).valid = true →
        (validateDimensions cfg img.width img.height).valid = true →
        (validateSimilarity cfg w (env.generateSimilarityHash img.processedBuffer)
          img.processedBuffer userId).2.valid = true →
        (validateSharpness cfg (env.detectBlurriness img.processedBuffer)).valid = false →
        r.rejectionReason =
          (validateSharpness cfg (env.detectBlurriness img.processedBuffer)).reason) ∧
      (processUpload cfg env file userId w).1.log =
        w.log ++ [.imageCreate, .processImage, .detectFaces, .uploadFile,
          .generateSimilarityHash, .detectBlurriness, .imageFindMany, .imageUpdate,
          .getSignedUrl] := by
  obtain ⟨r0, r, hid, hr, hret, hstored0, -, hlog⟩ :=
    processUpload_validated cfg env file userId w img fr fv hp hd hv hvalid hu
  have hrid : r.id = w.nextId := by rw [hr]; exact hid
  have hstored : ∃ stored,
      (processUpload cfg env file userId w).1.imageFindUnique r.id = some stored ∧
      stored.status = r.status ∧ stored.rejectionReason = r.rejectionReason :=
    ⟨r, by rw [hrid]; exact hstored0, rfl, rfl⟩
  have hs : r.status = (verdict (runValidations cfg file userId img
      (env.generateSimilarityHash img.processedBuffer)
      (env.detectBlurriness img.processedBuffer) w).2).1 := by rw [hr]; rfl
  have hreason : r.rejectionReason = (verdict (runValidations cfg file userId img
      (env.generateSimilarityHash img.processedBuffer)
      (env.detectBlurriness img.processedBuffer) w).2).2 := by rw [hr]; rfl
  rw [runValidations_snd] at hs hreason
  obtain ⟨h1, h2, h3, h4, -⟩ := verdict_four
    (validateFormat cfg file.mimetype file.originalname)
    (validateDimensions cfg img.width img.height)
    (validateSimilarity cfg w (env.generateSimilarityHash img.processedBuffer)
      img.processedBuffer userId).2
    (validateSharpness cfg (env.detectBlurriness img.processedBuffer))
  refine ⟨r, hret, hstored, ?_, ?_, ?_, ?_, ?_, hlog⟩
  · intro hany
    rw [hs]
    cases hF : (validateFormat cfg file.mimetype file.originalname).valid with
    | false => rw [h1 hF]
    | true =>
      cases hD : (validateDimensions cfg img.width img.height).valid with
      | false => rw [h2 hF hD]
      | true =>
        cases hS : (validateSimilarity cfg w (env.generateSimilarityHash img.processedBuffer)
            img.processedBuffer userId).2.valid with
        | false => rw [h3 hF hD hS]
        | true =>
          cases hB : (validateSharpness cfg (env.detectBlurriness img.processedBuffer)).valid with
          | false => rw [h4 hF hD hS hB]
          | true => simp [hF, hD, hS, hB] at hany
  · intro hF; rw [hreason, h1 hF]
  · intro hF hD; rw [hreason, h2 hF hD]
  · intro hF hD hS; rw [hreason, h3 hF hD hS]
  · intro hF hD hS hB; rw [hreason, h4 hF hD hS hB]

/-- Witness for C2: a 200x200 JPEG with blur score 1, one face of 5%, is
rejected with the dimension reason, not the blur reason. -/
theorem processUpload_first_failed_reason_witness :
    ∃ r : ImageRecord,
      (processUpload defaultConfig (sampleEnv [fivePercentFace] 200 200 1) sampleFile "user-1"
        emptyWorld).2 = .ok r ∧ r.status = .REJECTED ∧
      r.rejectionReason =
        some "Image dimensions too small. Minimum: 300x300px, Actual: 200x200px" ∧
      (validateSharpness defaultConfig 1).valid = false := by
  obtain ⟨r, hret, -, hrej, -, hdim, -, -, -⟩ :=
    processUpload_first_failed_reason defaultConfig (sampleEnv [fivePercentFace] 200 200 1)
      sampleFile "user-1" emptyWorld (sampleImage 200 200) (toFaceResults (· * ·) [fivePercentFace])
      passed (sample_processImage _ _ _ _) rfl sample_validateFaces_passed rfl rfl
  refine ⟨r, hret, hrej (Or.inr (Or.inl (by decide))), ?_, ?_⟩
  · rw [hdim (by decide) (by decide)]
    decide
  · cases hB : (validateSharpness defaultConfig 1).valid with
    | false => rfl
    | true =>
      rw [validateSharpness_valid_iff] at hB
      norm_num [defaultConfig] at hB

theorem validateFormat_reason_iff (cfg : ImageValidation) (mimeType originalName : String) :
    (validateFormat cfg mimeType originalName).reason = none ↔
      (validateFormat cfg mimeType originalName).valid = true := by
  rcases validateFormat_cases cfg mimeType originalName with h | h <;> rw [h] <;>
    simp [passed, rejected]

theorem validateDimensions_reason_iff (cfg : ImageValidation) (width height : Int) :
    (validateDimensions cfg width height).reason = none ↔
      (validateDimensions cfg width height).valid = true := by
  unfold validateDimensions
  split_ifs <;> simp [passed, rejected]

theorem validateSimilarity_reason_iff (cfg : ImageValidation) (w : World) (hash : String)
    (buf : Buffer) (userId : String) :
    (validateSimilarity cfg w hash buf userId).2.reason = none ↔
      (validateSimilarity cfg w hash buf userId).2.valid = true := by
  rw [validateSimilarity_snd]
  exact similarityLoop_reason_iff cfg hash _

theorem verdict_reason_iff (vs : List ValidationResult)
    (hvs : ∀ v ∈ vs, (v.reason = none ↔ v.valid = true)) :
    (verdict vs).2 = none ↔ (verdict vs).1 = .ACCEPTED := by
  unfold verdict
  cases h : vs.find? (fun v => !v.valid) with
  | none => simp
  | some f =>
    have h1 := List.find?_some h
    have h2 := List.mem_of_find?_eq_some h
    have h3 := hvs f h2
    simp only [reduceCtorEq, iff_false]
    rw [h3]
    simpa using h1

theorem processUpload_ok_inv (cfg : ImageValidation) (env : Env) (file : UploadedFile)
    (userId : String) (w : World) (r : ImageRecord)
    (h : (processUpload cfg env file userId w).2 = .ok r) :
    ∃ img fr fv, processImage env file.buffer file.originalname = .ok img ∧
      detectFaces env img.processedBuffer = .ok fr ∧
      validateFaces cfg fr = .ok fv ∧
      env.s3Upload (uploadParams env img.processedBuffer file.originalname
        (storedContentType img.format file)) = .ok () := by
  cases hp : processImage env file.buffer file.originalname with
  | error e => simp [processUpload, hp] at h
  | ok img =>
    cases hd : detectFaces env img.processedBuffer with
    | error e => simp [processUpload, hp, hd] at h
    | ok fr =>
      cases hv : validateFaces cfg fr with
      | error e => simp [processUpload, hp, hd, hv] at h
      | ok fv =>
        refine ⟨img, fr, fv, rfl, hd, hv, ?_⟩
        cases hu : env.s3Upload (uploadParams env img.processedBuffer file.originalname
            (storedContentType img.format file)) with
        | ok u => rfl
        | error e =>
          exfalso
          cases hvalid : fv.valid with
          | false =>
            rw [processUpload_gate_failed cfg env file userId w img fr fv hp hd hv hvalid] at h
            simp [rejectByFace, uploadFile, hu] at h
          | true =>
            rw [processUpload_gate_passed cfg env file userId w img fr fv hp hd hv hvalid] at h
            simp [validateAndFinalize, uploadFile, hu] at h

/-- C6: every record `processUpload` returns is ACCEPTED or REJECTED, never
PROCESSING, and has a rejection reason exactly when it is REJECTED; every
validator, `validateFaces` included, returns a reason exactly when its result
is invalid. -/
theorem processUpload_terminal_status (cfg : ImageValidation) (env : Env)
    (file : UploadedFile) (userId : String) (w : World) (r : ImageRecord)
    (h : (processUpload cfg env file userId w).2 = .ok r) :
    (r.status = .ACCEPTED ∨ r.status = .REJECTED) ∧
    r.status ≠ .PROCESSING ∧
    (r.rejectionReason ≠ none ↔ r.status = .REJECTED) ∧
    (∀ fr fv, validateFaces cfg fr = .ok fv → (fv.reason ≠ none ↔ fv.valid = false)) ∧
    (∀ mimeType originalName, (validateFormat cfg mimeType originalName).reason ≠ none ↔
      (validateFormat cfg mimeType originalName).valid = false) ∧
    (∀ width height, (validateDimensions cfg width height).reason ≠ none ↔
      (validateDimensions cfg width height).valid = false) ∧
    (∀ w1 hash buf user, (validateSimilarity cfg w1 hash buf user).2.reason ≠ none ↔
      (validateSimilarity cfg w1 hash buf user).2.valid = false) ∧
    (∀ blurValue, (validateSharpness cfg blurValue).reason ≠ none ↔
      (validateSharpness cfg blurValue).valid = false) := by
  have hfaces : ∀ fr fv, validateFaces cfg fr = .ok fv →
      (fv.reason ≠ none ↔ fv.valid = false) := by
    intro fr fv hv
    rw [Ne, ← (validateFaces_valid_reason cfg fr fv hv).1]
    simp
  have hrest :
      (∀ mimeType originalName, (validateFormat cfg mimeType originalName).reason ≠ none ↔
        (validateFormat cfg mimeType originalName).valid = false) ∧
      (∀ width height, (validateDimensions cfg width height).reason ≠ none ↔
        (validateDimensions cfg width height).valid = false) ∧
      (∀ w1 hash buf user, (validateSimilarity cfg w1 hash buf user).2.reason ≠ none ↔
        (validateSimilarity cfg w1 hash buf user).2.valid = false) ∧
      (∀ blurValue, (validateSharpness cfg blurValue).reason ≠ none ↔
        (validateSharpness cfg blurValue).valid = false) := by
    refine ⟨?_, ?_, ?_, ?_⟩
    · intro a b; rw [Ne, validateFormat_reason_iff]; simp
    · intro a b; rw [Ne, validateDimensions_reason_iff]; simp
    · intro a b c d; rw [Ne, validateSimilarity_reason_iff]; simp
    · intro a; rw [Ne, validateSharpness_reason_iff]; simp
  obtain ⟨img, fr, fv, hp, hd, hv, hu⟩ := processUpload_ok_inv cfg env file userId w r h
  have hmain : (r.status = .ACCEPTED ∨ r.status = .REJECTED) ∧
      (r.rejectionReason ≠ none ↔ r.status = .REJECTED) := by
    cases hvalid : fv.valid with
    | false =>
      obtain ⟨r0, r1, -, hr, hret, -, -, -⟩ :=
        processUpload_face_rejected cfg env file userId w img fr fv hp hd hv hvalid hu
      rw [h] at hret
      have hrr : r = r1 := Except.ok.inj hret
      subst hrr
      have hs : r.status = .REJECTED := by rw [hr]; rfl
      have hreason : r.rejectionReason = fv.reason := by rw [hr]; rfl
      refine ⟨Or.inr hs, ?_⟩
      rw [hreason, hfaces fr fv hv]
      simp [hs, hvalid]
    | true =>
      obtain ⟨r0, r1, -, hr, hret, -, -, -⟩ :=
        processUpload_validated cfg env file userId w img fr fv hp hd hv hvalid hu
      rw [h] at hret
      have hrr : r = r1 := Except.ok.inj hret
      subst hrr
      have hs : r.status = (verdict (runValidations cfg file userId img
          (env.generateSimilarityHash img.processedBuffer)
          (env.detectBlurriness img.processedBuffer) w).2).1 := by rw [hr]; rfl
      have hreason : r.rejectionReason = (verdict (runValidations cfg file userId img
          (env.generateSimilarityHash img.processedBuffer)
          (env.detectBlurriness img.processedBuffer) w).2).2 := by rw [hr]; rfl
      have hst := verdict_status (runValidations cfg file userId img
          (env.generateSimilarityHash img.processedBuffer)
          (env.detectBlurriness img.processedBuffer) w).2
      have hiff := verdict_reason_iff (runValidations cfg file userId img
          (env.generateSimilarityHash img.processedBuffer)
          (env.detectBlurriness img.processedBuffer) w).2 (by
        rw [runValidations_snd]
        intro v hv
        simp only [List.mem_cons, List.mem_singleton, List.not_mem_nil, or_false] at hv
        rcases hv with e | e | e | e <;> subst e
        · exact validateFormat_reason_iff _ _ _
        · exact validateDimensions_reason_iff _ _ _
        · exact validateSimilarity_reason_iff _ _ _ _ _
        · exact validateSharpness_reason_iff _ _)
      rw [← hs] at hst hiff
      rw [← hreason] at hiff
      refine ⟨hst, ?_⟩
      rw [Ne, hiff]
      rcases hst with e | e <;> simp [e]
  refine ⟨hmain.1, ?_, hmain.2, hfaces, hrest⟩
  rcases hmain.1 with e | e <;> simp [e]

/-- Witness for C6: the record returned for a 200x200 upload is REJECTED and
carries a reason. -/
theorem processUpload_terminal_status_witness :
    ∃ r : ImageRecord,
      (processUpload defaultConfig (sampleEnv [fivePercentFace] 200 200 1) sampleFile "user-1"
        emptyWorld).2 = .ok r ∧ r.status ≠ .PROCESSING ∧
      (r.rejectionReason ≠ none ↔ r.status = .REJECTED) := by
  obtain ⟨r0, r, -, -, hret, -, -, -⟩ :=
    processUpload_validated defaultConfig (sampleEnv [fivePercentFace] 200 200 1)
      sampleFile "user-1" emptyWorld (sampleImage 200 200) (toFaceResults (· * ·) [fivePercentFace])
      passed (sample_processImage _ _ _ _) rfl sample_validateFaces_passed rfl rfl
  have h := processUpload_terminal_status defaultConfig
    (sampleEnv [fivePercentFace] 200 200 1) sampleFile "user-1" emptyWorld r hret
  exact ⟨r, hret, h.2.1, h.2.2.1⟩

/-! ## The similarity and sharpness validators (claims C11 to C13) -/

theorem falsyString_eq_false_iff (s : Option String) :
    falsyString s = false ↔ ∃ h, s = some h ∧ h ≠ "" := by
  cases s with
  | none => simp [falsyString]
  | some t => simp [falsyString]

theorem similarityLoop_invalid_iff (cfg : ImageValidation) (hash : String)
    (l : List ImageRecord) :
    (similarityLoop cfg hash l).valid = false ↔
      ∃ rec ∈ l, (∃ h, rec.similarityHash = some h ∧ h ≠ "") ∧
        (cfg.similarityThreshold : ℚ) ≤ calculateHashSimilarity (some hash) rec.similarityHash := by
  rw [← Bool.not_eq_true, similarityLoop_valid_iff]
  push_neg
  constructor
  · rintro ⟨rec, hmem, hf, hs⟩
    exact ⟨rec, hmem, (falsyString_eq_false_iff _).mp hf, hs⟩
  · rintro ⟨rec, hmem, hf, hs⟩
    exact ⟨rec, hmem, (falsyString_eq_false_iff _).mpr hf, hs⟩

theorem similarity_32_iff (a b : String) (ha : a.length = 32) (hb : b.length = 32) :
    (85 : ℚ) ≤ calculateHashSimilarity (some a) (some b) ↔ 28 ≤ matchingChars a.data b.data := by
  have hane : a ≠ "" := by
    intro h; rw [h] at ha; exact absurd ha (by decide)
  have hbne : b ≠ "" := by
    intro h; rw [h] at hb; exact absurd hb (by decide)
  rw [calculateHashSimilarity_some a b hane hbne (by rw [ha, hb]), ha]
  constructor
  · intro h
    have h1 : (2720 : ℚ) ≤ 100 * (matchingChars a.data b.data : ℚ) := by
      have : ((32 : ℕ) : ℚ) = 32 := by norm_num
      rw [this] at h
      linarith
    have h2 : 2720 ≤ 100 * matchingChars a.data b.data := by exact_mod_cast h1
    omega
  · intro h
    have h1 : (28 : ℚ) ≤ (matchingChars a.data b.data : ℚ) := by exact_mod_cast h
    have : ((32 : ℕ) : ℚ) = 32 := by norm_num
    rw [this]
    linarith

/-- C11: `validateSimilarity` is invalid exactly when some record of the same
user with status ACCEPTED and a non-empty `similarityHash` is at least
`similarityThreshold` similar to the new hash; it is valid when the user has no
ACCEPTED record; its result depends on the ACCEPTED records of that user only;
and for two 32-character digests the default threshold 85 is reached exactly
when at least 28 positions agree. -/
theorem validateSimilarity_invalid_iff (cfg : ImageValidation) (w : World) (hash : String)
    (buf : Buffer) (userId : String) :
    ((validateSimilarity cfg w hash buf userId).2.valid = false ↔
      ∃ rec ∈ w.images, rec.userId = userId ∧ rec.status = .ACCEPTED ∧
        (∃ h, rec.similarityHash = some h ∧ h ≠ "") ∧
        (cfg.similarityThreshold : ℚ) ≤
          calculateHashSimilarity (some hash) rec.similarityHash) ∧
    ((∀ rec ∈ w.images, rec.userId = userId → rec.status ≠ .ACCEPTED) →
      (validateSimilarity cfg w hash buf userId).2 = { valid := true, reason := none }) ∧
    (∀ w2 : World,
      (w2.images.filter fun r => decide (r.userId = userId ∧ r.status = .ACCEPTED)) =
        (w.images.filter fun r => decide (r.userId = userId ∧ r.status = .ACCEPTED)) →
      (validateSimilarity cfg w2 hash buf userId).2 =
        (validateSimilarity cfg w hash buf userId).2) ∧
    (∀ a b : String, a.length = 32 → b.length = 32 →
      (((defaultConfig.similarityThreshold : ℤ) : ℚ) ≤
          calculateHashSimilarity (some a) (some b) ↔
        28 ≤ ((List.range 32).filter
          (fun i => decide (a.data.get? i = b.data.get? i))).length)) := by
  refine ⟨?_, ?_, ?_, ?_⟩
  · rw [validateSimilarity_snd, similarityLoop_invalid_iff]
    simp only [World.imageFindMany, List.mem_filter, Bool.and_eq_true, decide_eq_true_eq]
    constructor
    · rintro ⟨rec, ⟨hmem, hu, hs⟩, hh, ht⟩
      exact ⟨rec, hmem, hu, hs, hh, ht⟩
    · rintro ⟨rec, hmem, hu, hs, hh, ht⟩
      exact ⟨rec, ⟨hmem, hu, hs⟩, hh, ht⟩
  · intro hnone
    have hempty : w.imageFindMany userId (some .ACCEPTED) = [] := by
      rw [World.imageFindMany, List.filter_eq_nil_iff]
      intro r hr
      simp only [Bool.and_eq_true, decide_eq_true_eq, not_and]
      intro hu
      exact hnone r hr hu
    rw [validateSimilarity_snd, hempty]
    rfl
  · intro w2 hfilter
    apply validateSimilarity_snd_congr
    simp only [World.imageFindMany]
    have e : ∀ l : List ImageRecord,
        (l.filter fun r => decide (r.userId = userId) && decide (r.status = Status.ACCEPTED)) =
          (l.filter fun r => decide (r.userId = userId ∧ r.status = .ACCEPTED)) := by
      intro l
      congr 1
      funext r
      simp
    rw [e, e, hfilter]
  · intro a b ha hb
    have hthr : ((defaultConfig.similarityThreshold : ℤ) : ℚ) = 85 := by simp [defaultConfig]
    rw [hthr, similarity_32_iff a b ha hb,
      matchingChars_eq_count a.data b.data (by
        have h1 : a.data.length = 32 := ha
        have h2 : b.data.length = 32 := hb
        rw [h1, h2])]
    have h1 : a.data.length = 32 := ha
    rw [h1]

theorem toFixed_hundred_one : toFixed 100 1 = "100.0" := by decide!

theorem tooSimilarReason_hundred :
    tooSimilarReason 100 = "Image too similar to an existing one (100.0% match)" := by
  simp only [tooSimilarReason, toFixed_hundred_one]
  decide

theorem similarity_self (h : String) (hne : h ≠ "") :
    calculateHashSimilarity (some h) (some h) = 100 :=
  (calculateHashSimilarity_eq_hundred_iff (some h) (some h)).mpr ⟨h, hne, rfl, rfl⟩

/-- The loop stops at the first fetched record that reaches the threshold. -/
theorem similarityLoop_rejects (cfg : ImageValidation) (h : String) (hne : h ≠ "")
    (hthr : cfg.similarityThreshold ≤ 100) (l : List ImageRecord)
    (hex : ∃ rec ∈ l, rec.similarityHash = some h) :
    ∃ s : ℚ, (cfg.similarityThreshold : ℚ) ≤ s ∧ s ≤ 100 ∧
      similarityLoop cfg h l = rejected (tooSimilarReason s) := by
  induction l with
  | nil => obtain ⟨rec, hmem, -⟩ := hex; simp at hmem
  | cons x xs ih =>
    simp only [similarityLoop]
    by_cases hf : falsyString x.similarityHash = true
    · rw [if_pos hf]
      apply ih
      obtain ⟨rec, hmem, hrec⟩ := hex
      rcases List.mem_cons.mp hmem with e | e
      · subst e
        rw [hrec] at hf
        simp [falsyString, hne] at hf
      · exact ⟨rec, e, hrec⟩
    · rw [if_neg hf]
      by_cases hs : calculateHashSimilarity (some h) x.similarityHash ≥
          (cfg.similarityThreshold : ℚ)
      · rw [if_pos hs]
        exact ⟨_, hs, calculateHashSimilarity_le _ _, rfl⟩
      · rw [if_neg hs]
        apply ih
        obtain ⟨rec, hmem, hrec⟩ := hex
        rcases List.mem_cons.mp hmem with e | e
        · subst e
          rw [hrec, similarity_self h hne] at hs
          exfalso; apply hs
          have : ((cfg.similarityThreshold : ℤ) : ℚ) ≤ ((100 : ℤ) : ℚ) := by exact_mod_cast hthr
          simpa using this
        · exact ⟨rec, e, hrec⟩

theorem similarityLoop_rejects_hundred (cfg : ImageValidation) (h : String) (hne : h ≠ "")
    (hthr : cfg.similarityThreshold ≤ 100) (l : List ImageRecord)
    (hex : ∃ rec ∈ l, rec.similarityHash = some h)
    (hothers : ∀ other ∈ l, other.similarityHash ≠ some h →
      calculateHashSimilarity (some h) other.similarityHash < (cfg.similarityThreshold : ℚ)) :
    similarityLoop cfg h l = rejected (tooSimilarReason 100) := by
  induction l with
  | nil => obtain ⟨rec, hmem, -⟩ := hex; simp at hmem
  | cons x xs ih =>
    have htail : (∃ rec ∈ xs, rec.similarityHash = some h) ∨ x.similarityHash = some h := by
      obtain ⟨rec, hmem, hrec⟩ := hex
      rcases List.mem_cons.mp hmem with e | e
      · subst e; exact Or.inr hrec
      · exact Or.inl ⟨rec, e, hrec⟩
    have hothers' : ∀ other ∈ xs, other.similarityHash ≠ some h →
        calculateHashSimilarity (some h) other.similarityHash < (cfg.similarityThreshold : ℚ) :=
      fun o ho => hothers o (List.mem_cons_of_mem _ ho)
    simp only [similarityLoop]
    by_cases hx : x.similarityHash = some h
    · have hf : ¬ falsyString x.similarityHash = true := by
        rw [hx]; simp [falsyString, hne]
      rw [if_neg hf, hx, similarity_self h hne]
      have : (100 : ℚ) ≥ (cfg.similarityThreshold : ℚ) := by
        have : ((cfg.similarityThreshold : ℤ) : ℚ) ≤ ((100 : ℤ) : ℚ) := by exact_mod_cast hthr
        simpa using this
      rw [if_pos this]
    · have hlt := hothers x (List.mem_cons_self _ _) hx
      have hs : ¬ calculateHashSimilarity (some h) x.similarityHash ≥
          (cfg.similarityThreshold : ℚ) := not_le.mpr hlt
      rcases htail with ht | ht
      · by_cases hf : falsyString x.similarityHash = true
        · rw [if_pos hf]; exact ih ht hothers'
        · rw [if_neg hf, if_neg hs]; exact ih ht hothers'
      · exact absurd ht hx

/-- Witness for C11: an ACCEPTED record of the same user with the same digest
makes the new hash invalid; the same record does not matter to another user. -/
theorem validateSimilarity_invalid_iff_witness :
    (validateSimilarity defaultConfig duplicateWorld storedHash [] "user-1").2.valid = false ∧
    (validateSimilarity defaultConfig duplicateWorld storedHash [] "user-2").2 =
      { valid := true, reason := none } := by
  constructor
  · refine (validateSimilarity_invalid_iff defaultConfig duplicateWorld storedHash []
      "user-1").1.mpr ⟨acceptedRecord 1 "user-1" storedHash, by simp [duplicateWorld], rfl, rfl,
      ⟨storedHash, rfl, by decide⟩, ?_⟩
    have h : calculateHashSimilarity (some storedHash)
        (acceptedRecord 1 "user-1" storedHash).similarityHash = 100 :=
      similarity_self storedHash (by decide)
    rw [h]
    norm_num [defaultConfig]
  · refine (validateSimilarity_invalid_iff defaultConfig duplicateWorld storedHash []
      "user-2").2.1 ?_
    intro rec hrec hu
    simp only [duplicateWorld, List.mem_singleton] at hrec
    subst hrec
    exact absurd hu (by decide)

theorem nearDuplicate_similarity :
    (validateSimilarity defaultConfig nearDuplicateWorld storedHash [1, 2, 3] "user-1").2 =
      rejected "Image too similar to an existing one (96.9% match)" := by
  decide!

/-- Status and reason of the record finalized for an upload that passed the face gate,
the format check and the dimension check, and whose hash fails the similarity
check. -/
theorem processUpload_similarity_rejected (cfg : ImageValidation) (env : Env)
    (file : UploadedFile) (userId : String) (w : World) (img : ProcessedImage)
    (fr : FaceResults) (fv : ValidationResult)
    (hp : processImage env file.buffer file.originalname = .ok img)
    (hd : detectFaces env img.processedBuffer = .ok fr)
    (hv : validateFaces cfg fr = .ok fv) (hvalid : fv.valid = true)
    (hu : env.s3Upload (uploadParams env img.processedBuffer file.originalname
      (storedContentType img.format file)) = .ok ())
    (hformat : (validateFormat cfg file.mimetype file.originalname).valid = true)
    (hdim : (validateDimensions cfg img.width img.height).valid = true)
    (reason : String)
    (hsim : (validateSimilarity cfg w (env.generateSimilarityHash img.processedBuffer)
      img.processedBuffer userId).2 = rejected reason) :
    ∃ r : ImageRecord,
      (processUpload cfg env file userId w).2 = .ok r ∧ r.status = .REJECTED ∧
      r.rejectionReason = some reason := by
  obtain ⟨r0, r, -, hr, hret, -, -, -⟩ :=
    processUpload_validated cfg env file userId w img fr fv hp hd hv hvalid hu
  have hs : r.status = (verdict (runValidations cfg file userId img
      (env.generateSimilarityHash img.processedBuffer)
      (env.detectBlurriness img.processedBuffer) w).2).1 := by rw [hr]; rfl
  have hreason : r.rejectionReason = (verdict (runValidations cfg file userId img
      (env.generateSimilarityHash img.processedBuffer)
      (env.detectBlurriness img.processedBuffer) w).2).2 := by rw [hr]; rfl
  rw [runValidations_snd] at hs hreason
  have h3 := (verdict_four
    (validateFormat cfg file.mimetype file.originalname)
    (validateDimensions cfg img.width img.height)
    (validateSimilarity cfg w (env.generateSimilarityHash img.processedBuffer)
      img.processedBuffer userId).2
    (validateSharpness cfg (env.detectBlurriness img.processedBuffer))).2.2.1 hformat hdim
    (by rw [hsim]; rfl)
  rw [h3] at hs hreason
  refine ⟨r, hret, hs, ?_⟩
  rw [hreason, hsim]
  rfl

/-- Counterexample to C12 as stated: `user-1` has an ACCEPTED record with the
hash of the new upload, the upload passes the face, format and dimension
checks, yet the reason cites 96.9%, the similarity of the record fetched
first. -/
theorem processUpload_duplicate_reason_counterexample :
    (∃ rec ∈ nearDuplicateWorld.images, rec.userId = "user-1" ∧ rec.status = .ACCEPTED ∧
      rec.similarityHash = some
        ((sampleEnv [fivePercentFace] 800 600 12).generateSimilarityHash [1, 2, 3])) ∧
    processImage (sampleEnv [fivePercentFace] 800 600 12) sampleFile.buffer
      sampleFile.originalname = .ok (sampleImage 800 600) ∧
    validateFaces defaultConfig (toFaceResults (· * ·) [fivePercentFace]) = .ok passed ∧
    (validateFormat defaultConfig sampleFile.mimetype sampleFile.originalname).valid = true ∧
    (validateDimensions defaultConfig 800 600).valid = true ∧
    ∃ r : ImageRecord,
      (processUpload defaultConfig (sampleEnv [fivePercentFace] 800 600 12) sampleFile "user-1"
        nearDuplicateWorld).2 = .ok r ∧
      r.status = .REJECTED ∧
      r.rejectionReason = some "Image too similar to an existing one (96.9% match)" ∧
      r.rejectionReason ≠ some "Image too similar to an existing one (100.0% match)" := by
  refine ⟨⟨acceptedRecord 2 "user-1" storedHash, by simp [nearDuplicateWorld], rfl, rfl, rfl⟩,
    sample_processImage _ _ _ _, sample_validateFaces_passed, by decide, by decide, ?_⟩
  obtain ⟨r, hret, hs, hreason⟩ :=
    processUpload_similarity_rejected defaultConfig (sampleEnv [fivePercentFace] 800 600 12)
      sampleFile "user-1" nearDuplicateWorld (sampleImage 800 600)
      (toFaceResults (· * ·) [fivePercentFace]) passed (sample_processImage _ _ _ _) rfl
      sample_validateFaces_passed rfl rfl (by decide) (by decide)
      "Image too similar to an existing one (96.9% match)" nearDuplicate_similarity
  refine ⟨r, hret, hs, hreason, ?_⟩
  rw [hreason]
  decide

theorem similarityLoop_find (cfg : ImageValidation) (h : String) (l : List ImageRecord) :
    similarityLoop cfg h l =
      match l.find? (fun image => !falsyString image.similarityHash &&
          decide (calculateHashSimilarity (some h) image.similarityHash ≥
            (cfg.similarityThreshold : ℚ))) with
      | some first =>
        rejected (tooSimilarReason (calculateHashSimilarity (some h) first.similarityHash))
      | none => passed := by
  induction l with
  | nil => rfl
  | cons x xs ih =>
    rw [similarityLoop, List.find?_cons]
    by_cases hf : falsyString x.similarityHash = true
    · rw [if_pos hf]
      simp only [hf, Bool.not_true, Bool.false_and]
      exact ih
    · rw [if_neg hf]
      have hf2 : falsyString x.similarityHash = false := by simpa using hf
      by_cases hs : calculateHashSimilarity (some h) x.similarityHash ≥
          (cfg.similarityThreshold : ℚ)
      · simp only [hf2, Bool.not_false, Bool.true_and, decide_eq_true hs, if_pos hs]
      · simp only [hf2, Bool.not_false, Bool.true_and, decide_eq_false hs, if_neg hs]
        exact ih

/-- C12 (amended): when a user has an ACCEPTED record with the non-empty hash
`h` and the threshold is at most 100, a later upload of the same user that
passes the face, format and dimension checks and whose hash is `h` is finalized
as REJECTED, and its reason cites the similarity of `first`, the first fetched
ACCEPTED record of that user that has a hash and reaches the threshold, a
percentage between the threshold and 100; the percentage is 100.0 whenever the
user's ACCEPTED records with another hash are all below the threshold. -/
theorem processUpload_duplicate_rejected (cfg : ImageValidation) (env : Env)
    (file : UploadedFile) (userId : String) (w : World) (img : ProcessedImage)
    (fr : FaceResults) (fv : ValidationResult) (h : String) (rec : ImageRecord)
    (hp : processImage env file.buffer file.originalname = .ok img)
    (hd : detectFaces env img.processedBuffer = .ok fr)
    (hv : validateFaces cfg fr = .ok fv) (hvalid : fv.valid = true)
    (hu : env.s3Upload (uploadParams env img.processedBuffer file.originalname
      (storedContentType img.format file)) = .ok ())
    (hformat : (validateFormat cfg file.mimetype file.originalname).valid = true)
    (hdim : (validateDimensions cfg img.width img.height).valid = true)
    (hthr : cfg.similarityThreshold ≤ 100)
    (hhash : env.generateSimilarityHash img.processedBuffer = h) (hne : h ≠ "")
    (hmem : rec ∈ w.images) (huser : rec.userId = userId) (hstatus : rec.status = .ACCEPTED)
    (hrec : rec.similarityHash = some h) :
    ∃ (r first : ImageRecord),
      (processUpload cfg env file userId w).2 = .ok r ∧
      r.status = .REJECTED ∧
      (w.imageFindMany userId (some .ACCEPTED)).find?
        (fun image => !falsyString image.similarityHash &&
          decide (calculateHashSimilarity (some h) image.similarityHash ≥
            (cfg.similarityThreshold : ℚ))) = some first ∧
      first ∈ w.images ∧ first.userId = userId ∧ first.status = .ACCEPTED ∧
      (cfg.similarityThreshold : ℚ) ≤ calculateHashSimilarity (some h) first.similarityHash ∧
      calculateHashSimilarity (some h) first.similarityHash ≤ 100 ∧
      r.rejectionReason =
        some ("Image too similar to an existing one (" ++
          toFixed (calculateHashSimilarity (some h) first.similarityHash) 1 ++ "% match)") ∧
      ((∀ other ∈ w.images, other.userId = userId → other.status = .ACCEPTED →
          other.similarityHash ≠ some h →
          calculateHashSimilarity (some h) other.similarityHash <
            (cfg.similarityThreshold : ℚ)) →
        r.rejectionReason = some "Image too similar to an existing one (100.0% match)") := by
  have hex : ∃ x ∈ w.imageFindMany userId (some .ACCEPTED), x.similarityHash = some h :=
    ⟨rec, by simp [World.imageFindMany, hmem, huser, hstatus], hrec⟩
  obtain ⟨s, -, -, hloop⟩ :=
    similarityLoop_rejects cfg h hne hthr (w.imageFindMany userId (some .ACCEPTED)) hex
  have hfind := similarityLoop_find cfg h (w.imageFindMany userId (some .ACCEPTED))
  cases hf : (w.imageFindMany userId (some .ACCEPTED)).find?
      (fun image => !falsyString image.similarityHash &&
        decide (calculateHashSimilarity (some h) image.similarityHash ≥
          (cfg.similarityThreshold : ℚ))) with
  | none =>
    rw [hf] at hfind
    rw [hloop] at hfind
    simp [rejected, passed] at hfind
  | some first =>
    rw [hf] at hfind
    simp only at hfind
    have hsim : (validateSimilarity cfg w (env.generateSimilarityHash img.processedBuffer)
        img.processedBuffer userId).2 =
        rejected (tooSimilarReason (calculateHashSimilarity (some h) first.similarityHash)) := by
      rw [validateSimilarity_snd, hhash, hfind]
    obtain ⟨r, hret, hst, hreason⟩ :=
      processUpload_similarity_rejected cfg env file userId w img fr fv hp hd hv hvalid hu
        hformat hdim _ hsim
    have hp1 := List.find?_some hf
    simp only [Bool.and_eq_true, Bool.not_eq_true', decide_eq_true_eq] at hp1
    have hm := List.mem_of_find?_eq_some hf
    simp only [World.imageFindMany, List.mem_filter, Bool.and_eq_true,
      decide_eq_true_eq] at hm
    refine ⟨r, first, hret, hst, rfl, hm.1, hm.2.1, hm.2.2, hp1.2,
      calculateHashSimilarity_le _ _, hreason, ?_⟩
    intro hothers
    have hloop100 := similarityLoop_rejects_hundred cfg h hne hthr
      (w.imageFindMany userId (some .ACCEPTED)) hex (by
        intro other hother hneq
        simp only [World.imageFindMany, List.mem_filter, Bool.and_eq_true,
          decide_eq_true_eq] at hother
        exact hothers other hother.1 hother.2.1 hother.2.2 hneq)
    rw [hreason]
    have : rejected (tooSimilarReason
        (calculateHashSimilarity (some h) first.similarityHash)) =
        rejected (tooSimilarReason 100) := by
      rw [← hfind, hloop100]
    have h2 : tooSimilarReason (calculateHashSimilarity (some h) first.similarityHash) =
        tooSimilarReason 100 := by
      simpa [rejected] using this
    rw [h2, tooSimilarReason_hundred]

/-- Witness for C12: with a single ACCEPTED record carrying the same digest,
the second upload is rejected for a 100.0% match. -/
theorem processUpload_duplicate_rejected_witness :
    ∃ r : ImageRecord,
      (processUpload defaultConfig (sampleEnv [fivePercentFace] 800 600 12) sampleFile "user-1"
        duplicateWorld).2 = .ok r ∧
      r.status = .REJECTED ∧
      r.rejectionReason = some "Image too similar to an existing one (100.0% match)" := by
  obtain ⟨r, first, hret, hs, -, -, -, -, -, -, -, h100⟩ :=
    processUpload_duplicate_rejected defaultConfig (sampleEnv [fivePercentFace] 800 600 12)
      sampleFile "user-1" duplicateWorld (sampleImage 800 600)
      (toFaceResults (· * ·) [fivePercentFace]) passed storedHash
      (acceptedRecord 1 "user-1" storedHash)
      (sample_processImage _ _ _ _) rfl sample_validateFaces_passed rfl rfl
      (by decide) (by decide) (by decide) rfl (by decide) (by simp [duplicateWorld]) rfl rfl rfl
  refine ⟨r, hret, hs, h100 ?_⟩
  intro other hother _ _ hneq
  simp only [duplicateWorld, List.mem_singleton] at hother
  subst hother
  exact absurd rfl hneq

theorem rat_floor_eq (q : ℚ) : Rat.floor q = ⌊q⌋ := by
  rw [Rat.floor_def, Rat.floor_def']

/-- The integer `toFixed` prints is within half a unit of the scaled magnitude. -/
theorem roundedScaled_close (x : ℚ) (fd : Nat) :
    abs ((roundedScaled x fd : ℚ) / (10 : ℚ) ^ fd - abs x) ≤ 1 / (2 * (10 : ℚ) ^ fd) := by
  have hpow : (0 : ℚ) < (10 : ℚ) ^ fd := by positivity
  have hnn : (0 : ℚ) ≤ |x| * (10 : ℚ) ^ fd + 1 / 2 := by positivity
  have hfl : (0 : ℤ) ≤ ⌊|x| * (10 : ℚ) ^ fd + 1 / 2⌋ := Int.floor_nonneg.mpr hnn
  have hcast : ((roundedScaled x fd : ℕ) : ℚ) = ((⌊|x| * (10 : ℚ) ^ fd + 1 / 2⌋ : ℤ) : ℚ) := by
    unfold roundedScaled
    rw [rat_floor_eq]
    have : ((⌊|x| * (10 : ℚ) ^ fd + 1 / 2⌋.toNat : ℕ) : ℤ) = ⌊|x| * (10 : ℚ) ^ fd + 1 / 2⌋ :=
      Int.toNat_of_nonneg hfl
    exact_mod_cast congrArg (fun z : ℤ => (z : ℚ)) this
  rw [hcast]
  have h1 := Int.floor_le (|x| * (10 : ℚ) ^ fd + 1 / 2)
  have h2 := Int.lt_floor_add_one (|x| * (10 : ℚ) ^ fd + 1 / 2)
  generalize ((⌊|x| * (10 : ℚ) ^ fd + 1 / 2⌋ : ℤ) : ℚ) = F at h1 h2 ⊢
  have key : F / (10 : ℚ) ^ fd - |x| = (F - |x| * (10 : ℚ) ^ fd) / (10 : ℚ) ^ fd := by
    field_simp
    ring
  have hu : abs (F - abs x * (10 : ℚ) ^ fd) ≤ 1 / 2 := abs_le.mpr ⟨by linarith, by linarith⟩
  calc abs (F / (10 : ℚ) ^ fd - abs x)
      = abs (F - abs x * (10 : ℚ) ^ fd) / (10 : ℚ) ^ fd := by
        rw [key, abs_div, abs_of_pos hpow]
    _ ≤ (1 / 2) / (10 : ℚ) ^ fd := div_le_div_of_nonneg_right hu hpow.le
    _ = 1 / (2 * (10 : ℚ) ^ fd) := by field_simp

theorem padZeros_length (n : Nat) (ds : List Char) : n ≤ (padZeros n ds).length := by
  simp only [padZeros, List.length_append, List.length_replicate]
  omega

/-- With two fraction digits the printed number is an integer part, a point
and exactly two digits. -/
theorem fixedDigits_two (n : Nat) :
    ∃ ip fp : List Char, fixedDigits n 2 = String.mk ip ++ "." ++ String.mk fp ∧
      ip ≠ [] ∧ fp.length = 2 ∧ ip ++ fp = padZeros 3 (Nat.repr n).data := by
  have hlen := padZeros_length 3 (Nat.repr n).data
  refine ⟨(padZeros 3 (Nat.repr n).data).take ((padZeros 3 (Nat.repr n).data).length - 2),
    (padZeros 3 (Nat.repr n).data).drop ((padZeros 3 (Nat.repr n).data).length - 2), ?_, ?_, ?_, ?_⟩
  · simp [fixedDigits]
  · intro h
    have := congrArg List.length h
    simp only [List.length_take, List.length_nil] at this
    omega
  · simp only [List.length_drop]
    omega
  · exact List.take_append_drop _ _

theorem validateSharpness_passed_iff (cfg : ImageValidation) (blurValue : ℚ) :
    validateSharpness cfg blurValue = passed ↔ (cfg.blurThreshold : ℚ) ≤ blurValue := by
  by_cases h : (cfg.blurThreshold : ℚ) ≤ blurValue
  · simp [validateSharpness, passed, h]
  · simp [validateSharpness, passed, h]

theorem validateSharpness_rejected (cfg : ImageValidation) (blurValue : ℚ)
    (h : blurValue < (cfg.blurThreshold : ℚ)) :
    validateSharpness cfg blurValue =
      rejected ("Image is too blurry (score: " ++ toFixed blurValue 2 ++ ", minimum: " ++
        toString cfg.blurThreshold ++ ")") := by
  simp [validateSharpness, rejected, not_le.mpr h]

/-- C13: `validateSharpness` returns the valid result with reason null exactly
when the score is at least `blurThreshold`, so exactly 5 passes under the
default; below the threshold it is invalid with the reason
`Image is too blurry (score: S, minimum: T)`, where `T` is the threshold and
`S` the score rounded to two decimals: an integer part, a point and two digits,
within 0.005 of the score. -/
theorem validateSharpness_valid_iff_threshold (cfg : ImageValidation) (blurValue : ℚ) :
    (validateSharpness cfg blurValue = { valid := true, reason := none } ↔
      (cfg.blurThreshold : ℚ) ≤ blurValue) ∧
    ((validateSharpness cfg blurValue).valid = true ↔ (cfg.blurThreshold : ℚ) ≤ blurValue) ∧
    (blurValue < (cfg.blurThreshold : ℚ) →
      validateSharpness cfg blurValue =
        { valid := false
          reason := some ("Image is too blurry (score: " ++ toFixed blurValue 2 ++
            ", minimum: " ++ toString cfg.blurThreshold ++ ")") }) ∧
    validateSharpness defaultConfig 5 = { valid := true, reason := none } ∧
    validateSharpness defaultConfig (7 / 2) =
      { valid := false, reason := some "Image is too blurry (score: 3.50, minimum: 5)" } ∧
    (0 ≤ blurValue →
      (∃ ip fp : List Char, toFixed blurValue 2 = String.mk ip ++ "." ++ String.mk fp ∧
        ip ≠ [] ∧ fp.length = 2 ∧
        ip ++ fp = padZeros 3 (Nat.repr (roundedScaled blurValue 2)).data) ∧
      abs ((roundedScaled blurValue 2 : ℚ) / 100 - blurValue) ≤ 1 / 200) := by
  refine ⟨validateSharpness_passed_iff cfg blurValue, validateSharpness_valid_iff cfg blurValue,
    validateSharpness_rejected cfg blurValue, ?_, ?_, ?_⟩
  · exact (validateSharpness_passed_iff defaultConfig 5).mpr (by norm_num [defaultConfig])
  · decide!
  · intro hnn
    constructor
    · obtain ⟨ip, fp, h1, h2, h3, h4⟩ := fixedDigits_two (roundedScaled blurValue 2)
      refine ⟨ip, fp, ?_, h2, h3, h4⟩
      simp only [toFixed, not_lt.mpr hnn, if_false, h1]
      rfl
    · have h := roundedScaled_close blurValue 2
      rw [abs_of_nonneg hnn] at h
      norm_num at h ⊢
      exact h

/-- Witness for C13: a score of 4.994 is below the default threshold and is
cited as 4.99. -/
theorem validateSharpness_valid_iff_threshold_witness :
    validateSharpness defaultConfig (4994 / 1000) =
      { valid := false, reason := some "Image is too blurry (score: 4.99, minimum: 5)" } := by
  have h := (validateSharpness_valid_iff_threshold defaultConfig (4994 / 1000)).2.2.1
    (by norm_num [defaultConfig])
  rw [h]
  have ht : toFixed (4994 / 1000) 2 = "4.99" := by decide!
  rw [ht]
  decide

/-! ## The perceptual hash (claim C15) -/

theorem foldl_add_eq_sum (l : List Nat) (init : Nat) :
    l.foldl (fun sum value => sum + value) init = init + l.sum := by
  induction l generalizing init with
  | nil => simp
  | cons x xs ih => simp [ih, Nat.add_assoc]

theorem avgBrightness_eq_mean (pixelArray : List Nat) :
    avgBrightness pixelArray = (pixelArray.sum : ℚ) / (pixelArray.length : ℚ) := by
  simp [avgBrightness, foldl_add_eq_sum]

theorem binaryString_length (pixelArray : List Nat) :
    (binaryString pixelArray).length = pixelArray.length := by
  simp [binaryString, String.length]

theorem binaryString_get (pixelArray : List Nat) (i : Nat) (hi : i < pixelArray.length) :
    (binaryString pixelArray).data.get? i =
      some (if (pixelArray.sum : ℚ) / (pixelArray.length : ℚ) ≤ (pixelArray.get ⟨i, hi⟩ : ℚ)
        then '1' else '0') := by
  simp only [binaryString, List.get?_eq_getElem?, List.getElem?_map, avgBrightness_eq_mean]
  rw [List.getElem?_eq_getElem hi]
  simp

theorem sum_lt_of_all_lt (l : List Nat) (c : ℚ) (hne : l ≠ [])
    (h : ∀ p ∈ l, (p : ℚ) < c) : (l.sum : ℚ) < (l.length : ℚ) * c := by
  induction l with
  | nil => exact absurd rfl hne
  | cons x xs ih =>
    have hx : (x : ℚ) < c := h x (List.mem_cons_self _ _)
    by_cases hxs : xs = []
    · subst hxs
      simpa using hx
    · have := ih hxs (fun p hp => h p (List.mem_cons_of_mem _ hp))
      simp only [List.sum_cons, List.length_cons]
      rw [Nat.cast_add, Nat.cast_add, Nat.cast_one]
      linarith

theorem exists_pixel_ge_mean (l : List Nat) (hne : l ≠ []) :
    ∃ i, ∃ hi : i < l.length, (l.sum : ℚ) / (l.length : ℚ) ≤ (l.get ⟨i, hi⟩ : ℚ) := by
  by_contra hcon
  push_neg at hcon
  have hall : ∀ p ∈ l, (p : ℚ) < (l.sum : ℚ) / (l.length : ℚ) := by
    intro p hp
    obtain ⟨n, hn⟩ := List.get_of_mem hp
    rw [← hn]
    exact hcon n.1 n.2
  have hlt := sum_lt_of_all_lt l _ hne hall
  have hpos : (0 : ℚ) < (l.length : ℚ) := by
    have : 0 < l.length := List.length_pos.mpr hne
    exact_mod_cast this
  rw [mul_div_cancel₀ _ hpos.ne'] at hlt
  exact lt_irrefl _ hlt

/-- C15: for a decoded thumbnail with at least one pixel the bitstring has one
character per pixel (1024 of them for 1024 pixels), character `i` is `1` when
pixel `i` is at least the arithmetic mean of all pixels and `0` otherwise (some
pixel is), the returned hash is the digest of the bitstring, and two images with equal
bitstrings get equal hashes. -/
theorem generateSimilarityHash_bitstring (codec : PixelCodec) (buffer : Buffer)
    (pixelArray : List Nat) (hdec : codec.thumbnailRaw buffer = .ok pixelArray)
    (hne : pixelArray ≠ []) :
    (binaryString pixelArray).length = pixelArray.length ∧
    (pixelArray.length = 1024 → (binaryString pixelArray).length = 1024) ∧
    (∀ i (hi : i < pixelArray.length),
      (binaryString pixelArray).data.get? i =
        some (if (pixelArray.sum : ℚ) / (pixelArray.length : ℚ) ≤
            (pixelArray.get ⟨i, hi⟩ : ℚ) then '1' else '0')) ∧
    (∃ i, i < pixelArray.length ∧ (binaryString pixelArray).data.get? i = some '1') ∧
    generateSimilarityHash codec buffer = codec.md5Hex (binaryString pixelArray) ∧
    (∀ buffer2 pixelArray2, codec.thumbnailRaw buffer2 = .ok pixelArray2 →
      binaryString pixelArray2 = binaryString pixelArray →
      generateSimilarityHash codec buffer2 = generateSimilarityHash codec buffer) := by
  refine ⟨binaryString_length pixelArray,
    fun h => by rw [binaryString_length, h],
    binaryString_get pixelArray, ?_, by simp [generateSimilarityHash, hdec], ?_⟩
  · obtain ⟨i, hi, hge⟩ := exists_pixel_ge_mean pixelArray hne
    refine ⟨i, hi, ?_⟩
    rw [binaryString_get pixelArray i hi, if_pos hge]
  · intro buffer2 pixelArray2 hdec2 hbits
    simp [generateSimilarityHash, hdec, hdec2, hbits]

/-- Witness for C15: four pixels with mean 25 give the bitstring `0011`, and
the hash is its digest. -/
theorem generateSimilarityHash_bitstring_witness :
    generateSimilarityHash
      (sampleCodec [10, 20, 30, 40] { data := [], width := 0, height := 0 } fun _ => 0) [] =
      "md5(0011)" := by
  rw [(generateSimilarityHash_bitstring
    (sampleCodec [10, 20, 30, 40] { data := [], width := 0, height := 0 } fun _ => 0) []
    [10, 20, 30, 40] rfl (by decide)).2.2.2.2.1]
  have hb : binaryString [10, 20, 30, 40] = "0011" := by decide!
  rw [hb]
  decide

/-! ## The blur estimator (claim C14) -/

theorem pixelAt_inside (data : List Nat) (i : Nat) (h : i < data.length) :
    pixelAt data (i : Int) = some ((data.getD i 0 : Nat) : ℚ) := by
  have hneg : ¬ ((i : Int) < 0) := by omega
  simp only [pixelAt, hneg, if_false, Int.toNat_ofNat, List.get?_eq_getElem?]
  rw [List.getElem?_eq_getElem h, List.getD_eq_getElem _ _ h]
  rfl

theorem laplacianAt_interior (data : List Nat) (w h x y : Nat) (hlen : data.length = w * h)
    (hx : 2 ≤ x) (hx2 : x + 2 < w) (hy : 2 ≤ y) (hy2 : y + 2 < h) :
    laplacianAt data w ((y : Int) * (w : Int) + (x : Int)) = some (laplacianSpec data w x y) := by
  obtain ⟨k, rfl⟩ : ∃ k, y = k + 2 := ⟨y - 2, by omega⟩
  obtain ⟨j, rfl⟩ : ∃ j, x = j + 2 := ⟨x - 2, by omega⟩
  have hrow : (k + 2 + 2) * w ≤ h * w := Nat.mul_le_mul_right w (by omega)
  have e0 : (k + 2 + 2) * w = (k + 2) * w + w + w := by ring
  have e1 : (k + 2 + 1) * w = (k + 2) * w + w := by ring
  have e2 : (k + 2) * w = (k + 2 - 1) * w + w := by
    have : k + 2 - 1 = k + 1 := by omega
    rw [this]; ring
  have hwh : w * h = h * w := Nat.mul_comm _ _
  have i0 : (((k + 2 : ℕ) : ℤ) * (w : ℤ) + ((j + 2 : ℕ) : ℤ)) = (((k + 2) * w + (j + 2) : ℕ) : ℤ) := by
    push_cast; ring
  have i1 : (((k + 2) * w + (j + 2) : ℕ) : ℤ) - (w : ℤ) = (((k + 2 - 1) * w + (j + 2) : ℕ) : ℤ) := by
    rw [e2]; push_cast; ring
  have i2 : (((k + 2) * w + (j + 2) : ℕ) : ℤ) + (w : ℤ) = (((k + 2 + 1) * w + (j + 2) : ℕ) : ℤ) := by
    push_cast; ring
  have i3 : (((k + 2) * w + (j + 2) : ℕ) : ℤ) - 1 = (((k + 2) * w + (j + 2 - 1) : ℕ) : ℤ) := by
    have : j + 2 - 1 = j + 1 := by omega
    rw [this]; push_cast; ring
  have i4 : (((k + 2) * w + (j + 2) : ℕ) : ℤ) + 1 = (((k + 2) * w + (j + 2 + 1) : ℕ) : ℤ) := by
    push_cast; ring
  rw [i0]
  simp only [laplacianAt]
  rw [i1, i2, i3, i4,
    pixelAt_inside data _ (by omega), pixelAt_inside data _ (by omega),
    pixelAt_inside data _ (by omega), pixelAt_inside data _ (by omega),
    pixelAt_inside data _ (by omega)]
  rfl

theorem blur_inner_fold (data : List Nat) (w h y : Nat) (hlen : data.length = w * h)
    (hy : 2 ≤ y) (hy2 : y + 2 < h) :
    ∀ (xs : List Nat) (acc : BlurAcc) (s : ℚ), (∀ x ∈ xs, 2 ≤ x ∧ x + 2 < w) →
      acc.laplacianSum = some s →
      xs.foldl (fun acc x => blurStep data w y x acc) acc =
        { laplacianSum := some (s + (xs.map fun x => laplacianSpec data w x y).sum)
          validPixels := acc.validPixels + xs.length } := by
  intro xs
  induction xs with
  | nil =>
    intro acc s _ hs
    cases acc
    simp only at hs
    simp [hs]
  | cons x xs ih =>
    intro acc s hall hs
    have hx := hall x (List.mem_cons_self _ _)
    simp only [List.foldl_cons]
    rw [ih (blurStep data w y x acc) (s + laplacianSpec data w x y)
      (fun z hz => hall z (List.mem_cons_of_mem _ hz))
      (by simp only [blurStep, hs, laplacianAt_interior data w h x y hlen hx.1 hx.2 hy hy2])]
    simp only [blurStep, List.map_cons, List.sum_cons, List.length_cons]
    congr 1
    · congr 1; ring
    · omega

theorem blur_outer_fold (data : List Nat) (w h : Nat) (hlen : data.length = w * h) :
    ∀ (ys : List Nat) (acc : BlurAcc) (s : ℚ), (∀ y ∈ ys, 2 ≤ y ∧ y + 2 < h) →
      acc.laplacianSum = some s →
      ys.foldl (fun acc y =>
          (innerRange w).foldl (fun acc x => blurStep data w y x acc) acc) acc =
        { laplacianSum := some (s + (ys.map fun y =>
            ((innerRange w).map fun x => laplacianSpec data w x y).sum).sum)
          validPixels := acc.validPixels + ys.length * (innerRange w).length } := by
  have hcols : ∀ x ∈ innerRange w, 2 ≤ x ∧ x + 2 < w := by
    intro x hx
    simp only [innerRange, List.mem_range'_1] at hx
    omega
  intro ys
  induction ys with
  | nil =>
    intro acc s _ hs
    cases acc
    simp only at hs
    simp [hs]
  | cons y ys ih =>
    intro acc s hall hs
    have hy := hall y (List.mem_cons_self _ _)
    simp only [List.foldl_cons]
    rw [blur_inner_fold data w h y hlen hy.1 hy.2 (innerRange w) acc s hcols hs]
    rw [ih _ _ (fun z hz => hall z (List.mem_cons_of_mem _ hz)) rfl]
    simp only [List.map_cons, List.sum_cons, List.length_cons]
    congr 1
    · congr 1; ring
    · ring

theorem innerRange_toFinset (n : Nat) : (innerRange n).toFinset = Finset.Ico 2 (n - 2) := by
  ext v
  simp only [innerRange, List.mem_toFinset, List.mem_range'_1, Finset.mem_Ico]
  omega

theorem innerRange_sum (n : Nat) (f : Nat → ℚ) :
    ((innerRange n).map f).sum = ∑ v ∈ Finset.Ico 2 (n - 2), f v := by
  rw [← innerRange_toFinset]
  exact (List.sum_toFinset f (List.nodup_range' 2 (n - 4))).symm

theorem innerRange_length (n : Nat) : (innerRange n).length = n - 4 := by
  simp [innerRange]

theorem interiorPixels_card (w h : Nat) : (interiorPixels w h).card = (h - 4) * (w - 4) := by
  simp only [interiorPixels, Finset.card_product, Nat.card_Ico]
  have e1 : w - 2 - 2 = w - 4 := by omega
  have e2 : h - 2 - 2 = h - 4 := by omega
  rw [e1, e2, Nat.mul_comm]

theorem blurLoops_eq (data : List Nat) (w h : Nat) (hlen : data.length = w * h) :
    blurLoops data w h =
      { laplacianSum := some (∑ q ∈ interiorPixels w h, laplacianSpec data w q.1 q.2)
        validPixels := (interiorPixels w h).card } := by
  have hrows : ∀ y ∈ innerRange h, 2 ≤ y ∧ y + 2 < h := by
    intro y hy
    simp only [innerRange, List.mem_range'_1] at hy
    omega
  rw [blurLoops, blur_outer_fold data w h hlen (innerRange h) _ 0 hrows rfl,
    interiorPixels_card]
  congr 1
  · congr 1
    rw [zero_add, innerRange_sum h]
    simp only [innerRange_sum w]
    rw [interiorPixels, Finset.sum_product, Finset.sum_comm]
  · simp [innerRange_length]

theorem detectBlurriness_eq (codec : PixelCodec) (buffer : Buffer) (raw : RawImage)
    (hdec : codec.greyscaleRaw buffer = .ok raw)
    (hlen : raw.data.length = raw.width * raw.height) :
    detectBlurriness codec buffer =
      some (meanLaplacianSpec raw.data raw.width raw.height *
        max (1 / 2) (codec.sqrt ((raw.width : ℚ) * (raw.height : ℚ)) / 500)) := by
  simp only [detectBlurriness, hdec, blurLoops_eq raw.data raw.width raw.height hlen]
  have hmax : ∀ nf : ℚ, (if nf > 1 / 2 then nf else 1 / 2) = max (1 / 2) nf := by
    intro nf
    by_cases h : nf > 1 / 2
    · rw [if_pos h, max_eq_right h.le]
    · rw [if_neg h, max_eq_left (not_lt.mp h)]
  rw [hmax]
  by_cases hc : (interiorPixels raw.width raw.height).card > 0
  · have hne : interiorPixels raw.width raw.height ≠ ∅ := by
      intro h0; rw [h0] at hc; simp at hc
    simp [hc, meanLaplacianSpec, hne]
  · have h0 : interiorPixels raw.width raw.height = ∅ := by
      have : (interiorPixels raw.width raw.height).card = 0 := by omega
      exact Finset.card_eq_zero.mp this
    simp [meanLaplacianSpec, h0]

theorem interiorPixels_five : interiorPixels 5 5 = {(2, 2)} := by decide

theorem meanLaplacianSpec_five (data : List Nat) :
    meanLaplacianSpec data 5 5 = laplacianSpec data 5 2 2 := by
  simp [meanLaplacianSpec, interiorPixels_five]

/-- C14: for a decoded single-channel buffer of `w * h` pixels `detectBlurriness`
returns `M * max(0.5, sqrt(w*h)/500)`, where `M` is the mean of
`|4*p(x,y) - p(x,y-1) - p(x,y+1) - p(x-1,y) - p(x+1,y)|` over the pixels with
`2 ≤ x < w-2` and `2 ≤ y < h-2`, which are exactly the pixels the loops visit,
and 0 when there are none; in a 5x5 image the only such pixel is `(2,2)`, and a
centre of 200 with four neighbours of 100 gives `M = 400`. -/
theorem detectBlurriness_mean_laplacian (codec : PixelCodec) (buffer : Buffer) (raw : RawImage)
    (hdec : codec.greyscaleRaw buffer = .ok raw)
    (hlen : raw.data.length = raw.width * raw.height) :
    detectBlurriness codec buffer =
      some (meanLaplacianSpec raw.data raw.width raw.height *
        max (1 / 2) (codec.sqrt ((raw.width : ℚ) * (raw.height : ℚ)) / 500)) ∧
    (∀ x y : Nat, (x, y) ∈ interiorPixels raw.width raw.height ↔
      (2 ≤ x ∧ (x : Int) < (raw.width : Int) - 2) ∧
      (2 ≤ y ∧ (y : Int) < (raw.height : Int) - 2)) ∧
    (blurLoops raw.data raw.width raw.height).validPixels =
      (interiorPixels raw.width raw.height).card ∧
    (interiorPixels raw.width raw.height = ∅ →
      meanLaplacianSpec raw.data raw.width raw.height = 0) ∧
    (interiorPixels raw.width raw.height ≠ ∅ →
      meanLaplacianSpec raw.data raw.width raw.height =
        (∑ q ∈ interiorPixels raw.width raw.height,
          abs (4 * pixelValue raw.data raw.width q.1 q.2 -
            pixelValue raw.data raw.width q.1 (q.2 - 1) -
            pixelValue raw.data raw.width q.1 (q.2 + 1) -
            pixelValue raw.data raw.width (q.1 - 1) q.2 -
            pixelValue raw.data raw.width (q.1 + 1) q.2)) /
          ((interiorPixels raw.width raw.height).card : ℚ)) ∧
    (raw.width = 5 → raw.height = 5 →
      interiorPixels raw.width raw.height = {(2, 2)} ∧
      (pixelValue raw.data 5 2 2 = 200 → pixelValue raw.data 5 2 1 = 100 →
        pixelValue raw.data 5 2 3 = 100 → pixelValue raw.data 5 1 2 = 100 →
        pixelValue raw.data 5 3 2 = 100 →
        meanLaplacianSpec raw.data raw.width raw.height = 400)) := by
  refine ⟨detectBlurriness_eq codec buffer raw hdec hlen, ?_, ?_, ?_, ?_, ?_⟩
  · intro x y
    simp only [interiorPixels, Finset.mem_product, Finset.mem_Ico]
    omega
  · rw [blurLoops_eq raw.data raw.width raw.height hlen]
  · intro h0
    simp [meanLaplacianSpec, h0]
  · intro hne
    simp only [meanLaplacianSpec, hne, if_false, laplacianSpec]
  · intro hw hh
    rw [hw, hh]
    refine ⟨interiorPixels_five, ?_⟩
    intro hc ht hb hl hr
    rw [meanLaplacianSpec_five]
    simp only [laplacianSpec]
    have e1 : 2 - 1 = 1 := rfl
    have e2 : 2 + 1 = 3 := rfl
    rw [e1, e2, hc, ht, hb, hl, hr]
    norm_num

/-- Witness for C14: the 5x5 image with a centre of 200 and four neighbours of
100 has mean 400; with `sqrt(25) = 5` the factor is `max(0.5, 0.01)` and the
score is 200. -/
theorem detectBlurriness_mean_laplacian_witness :
    detectBlurriness (sampleCodec [] fiveByFive fun q => if q = 25 then 5 else 0) [] =
      some 200 := by
  have h := detectBlurriness_mean_laplacian
    (sampleCodec [] fiveByFive fun q => if q = 25 then 5 else 0) [] fiveByFive rfl (by decide)
  have hm : meanLaplacianSpec fiveByFive.data fiveByFive.width fiveByFive.height = 400 :=
    (h.2.2.2.2.2 rfl rfl).2 (by simp [pixelValue, fiveByFive]) (by simp [pixelValue, fiveByFive])
      (by simp [pixelValue, fiveByFive]) (by simp [pixelValue, fiveByFive])
      (by simp [pixelValue, fiveByFive])
  rw [h.1, hm]
  norm_num [sampleCodec, fiveByFive]

/-! ## Listing (claims C16, C17) -/

theorem ceilDiv_eq_ceil (total limit : Nat) :
    ceilDiv total limit = ⌈(total : ℚ) / (limit : ℚ)⌉₊ := by
  rw [ceilDiv, rat_floor_eq, Int.floor_neg, neg_neg, Int.ceil_toNat]

theorem ceilDiv_least (total limit : Nat) (hl : 1 ≤ limit) (n : Nat) :
    ceilDiv total limit ≤ n ↔ total ≤ n * limit := by
  have hpos : (0 : ℚ) < (limit : ℚ) := by exact_mod_cast hl
  rw [ceilDiv_eq_ceil, Nat.ceil_le, div_le_iff₀ hpos]
  constructor
  · intro h; exact_mod_cast h
  · intro h; exact_mod_cast h

theorem newerFirst_sorted (l : List ImageRecord) :
    (l.insertionSort newerFirst).Sorted newerFirst := by
  haveI : IsTotal ImageRecord newerFirst := ⟨fun a b => Nat.le_total b.createdAt a.createdAt⟩
  haveI : IsTrans ImageRecord newerFirst :=
    ⟨fun a b c hab hbc => Nat.le_trans hbc hab⟩
  exact List.sorted_insertionSort newerFirst l

theorem mem_imageFindMany (w : World) (userId : String) (status : Option Status)
    (r : ImageRecord) :
    r ∈ w.imageFindMany userId status ↔
      r ∈ w.images ∧ r.userId = userId ∧ ∀ s, status = some s → r.status = s := by
  cases status with
  | none => simp [World.imageFindMany]
  | some s => simp [World.imageFindMany]

theorem page_get (l : List ImageRecord) (f : ImageRecord → ImageRecord) (skip limit k : Nat)
    (hk : k < limit) :
    (((l.drop skip).take limit).map f).get? k = (l.get? (skip + k)).map f := by
  simp only [List.get?_eq_getElem?, List.getElem?_map, List.getElem?_take, hk, if_true,
    List.getElem?_drop]

/-- C16: for `page ≥ 1` and `limit ≥ 1`, `getUserImages` returns, with their
URLs refreshed, the rows at positions `(page-1)*limit + 1` to `page*limit` (as
many as exist) of the user's rows matching the status filter, sorted by
`createdAt` descending, together with `total`, the number of matching rows, and
`totalPages = ceil(total/limit)`, the least `n` with `total ≤ n * limit`; with
25 matching rows, `limit = 10` and `page = 2` these are the rows ranked 11 to
20 and `totalPages = 3`. -/
theorem getUserImages_page (env : Env) (w : World) (userId : String) (status : Option Status)
    (page limit : Nat) (hp : 1 ≤ page) (hl : 1 ≤ limit) :
    (∀ r, r ∈ w.imageFindMany userId status ↔
      r ∈ w.images ∧ r.userId = userId ∧ ∀ s, status = some s → r.status = s) ∧
    ((w.imageFindMany userId status).insertionSort newerFirst).Sorted
      (fun a b => a.createdAt ≥ b.createdAt) ∧
    ((w.imageFindMany userId status).insertionSort newerFirst).Perm
      (w.imageFindMany userId status) ∧
    (getUserImages env w userId status page limit).images =
      ((((w.imageFindMany userId status).insertionSort newerFirst).drop
        ((page - 1) * limit)).take limit).map (withFreshUrl env) ∧
    (∀ k, k < limit →
      (getUserImages env w userId status page limit).images.get? k =
        (((w.imageFindMany userId status).insertionSort newerFirst).get?
          ((page - 1) * limit + k)).map (withFreshUrl env)) ∧
    (getUserImages env w userId status page limit).images.length =
      min limit ((w.imageFindMany userId status).length - (page - 1) * limit) ∧
    (∀ r, (withFreshUrl env r).id = r.id) ∧
    (getUserImages env w userId status page limit).pagination.total =
      (w.imageFindMany userId status).length ∧
    (getUserImages env w userId status page limit).pagination.totalPages =
      ⌈((w.imageFindMany userId status).length : ℚ) / (limit : ℚ)⌉₊ ∧
    (∀ n, (getUserImages env w userId status page limit).pagination.totalPages ≤ n ↔
      (w.imageFindMany userId status).length ≤ n * limit) ∧
    ((w.imageFindMany userId status).length = 25 → limit = 10 → page = 2 →
      (getUserImages env w userId status page limit).images.length = 10 ∧
      (∀ k, k < 10 →
        (getUserImages env w userId status page limit).images.get? k =
          (((w.imageFindMany userId status).insertionSort newerFirst).get? (10 + k)).map
            (withFreshUrl env)) ∧
      (getUserImages env w userId status page limit).pagination.totalPages = 3) := by
  have hlen : (getUserImages env w userId status page limit).images.length =
      min limit ((w.imageFindMany userId status).length - (page - 1) * limit) := by
    simp [getUserImages, World.imageFindManyPage, List.length_insertionSort]
  have hget : ∀ k, k < limit →
      (getUserImages env w userId status page limit).images.get? k =
        (((w.imageFindMany userId status).insertionSort newerFirst).get?
          ((page - 1) * limit + k)).map (withFreshUrl env) := by
    intro k hk
    exact page_get _ _ _ _ _ hk
  have hleast : ∀ n, (getUserImages env w userId status page limit).pagination.totalPages ≤ n ↔
      (w.imageFindMany userId status).length ≤ n * limit := by
    intro n
    exact ceilDiv_least _ _ hl n
  refine ⟨mem_imageFindMany w userId status, newerFirst_sorted _,
    List.perm_insertionSort _ _, rfl, hget, hlen, ?_, rfl, ceilDiv_eq_ceil _ _, hleast, ?_⟩
  · intro r
    simp only [withFreshUrl]
    split_ifs <;> rfl
  · intro h25 h10 h2
    subst h10; subst h2
    refine ⟨by rw [hlen, h25]; decide, ?_, ?_⟩
    · intro k hk
      have := hget k hk
      simpa using this
    · apply le_antisymm
      · exact (hleast 3).mpr (by rw [h25]; decide)
      · by_contra hlt
        have h2 : (getUserImages env w userId status 2 10).pagination.totalPages ≤ 2 := by omega
        have := (hleast 2).mp h2
        rw [h25] at this
        omega

/-- Witness for C16: of 25 ACCEPTED records created at times 1 to 25, page 2
with limit 10 starts with the record created at time 15 (rank 11) and ends with
the one created at time 6 (rank 20); there are 3 pages. -/
theorem getUserImages_page_witness :
    ((getUserImages (sampleEnv [] 0 0 0) twentyFiveWorld "user-1" (some .ACCEPTED) 2
      10).images.map fun r => r.createdAt) = [15, 14, 13, 12, 11, 10, 9, 8, 7, 6] ∧
    (getUserImages (sampleEnv [] 0 0 0) twentyFiveWorld "user-1" (some .ACCEPTED) 2
      10).pagination.totalPages = 3 := by
  have h := getUserImages_page (sampleEnv [] 0 0 0) twentyFiveWorld "user-1" (some .ACCEPTED)
    2 10 (by decide) (by decide)
  refine ⟨?_, (h.2.2.2.2.2.2.2.2.2.2 (by decide) rfl rfl).2.2⟩
  rw [h.2.2.2.1]
  decide

theorem withFreshUrl_fields (env : Env) (stored : ImageRecord) :
    { withFreshUrl env stored with s3Url := stored.s3Url } = stored := by
  simp only [withFreshUrl]
  split_ifs <;> rfl

theorem uploadParams_key_ne_empty (env : Env) (buffer : Buffer) (fileName mimeType : String) :
    (uploadParams env buffer fileName mimeType).Key ≠ "" := by
  intro h
  have := congrArg String.length h
  simp [uploadParams, String.length_append] at this
  have h8 : "uploads/".length = 8 := by decide
  omega

/-- The URL refresh of `getUserImages` in any store: as many records as
fetched, in the same order, each equal to the stored one in every field but
`s3Url`; a record with status ACCEPTED or REJECTED and a non-empty storage key
gets the freshly signed URL of that key; any other record is returned as
stored. The keys `uploadFile` assigns are never empty. -/
theorem getUserImages_refresh (env : Env) (w : World) (userId : String)
    (status : Option Status) (page limit : Nat) :
    (getUserImages env w userId status page limit).images.length =
      (w.imageFindManyPage userId status ((page - 1) * limit) limit).length ∧
    (∀ k stored,
      (w.imageFindManyPage userId status ((page - 1) * limit) limit).get? k = some stored →
      ∃ returned,
        (getUserImages env w userId status page limit).images.get? k = some returned ∧
        { returned with s3Url := stored.s3Url } = stored ∧
        ((stored.status = .ACCEPTED ∨ stored.status = .REJECTED) → stored.s3Key ≠ "" →
          returned.s3Url = getSignedUrl env stored.s3Key) ∧
        (¬ ((stored.status = .ACCEPTED ∨ stored.status = .REJECTED) ∧ stored.s3Key ≠ "") →
          returned = stored)) ∧
    (∀ (env2 : Env) (buffer : Buffer) (fileName mimeType : String),
      (uploadParams env2 buffer fileName mimeType).Key ≠ "") := by
  refine ⟨by simp [getUserImages], ?_, uploadParams_key_ne_empty⟩
  intro k stored hk
  refine ⟨withFreshUrl env stored, ?_, withFreshUrl_fields env stored, ?_, ?_⟩
  · simp only [getUserImages, List.get?_eq_getElem?, List.getElem?_map]
    simp only [List.get?_eq_getElem?] at hk
    rw [hk]
    rfl
  · intro hs hkey
    simp [withFreshUrl, hs, hkey]
  · intro hnot
    simp [withFreshUrl, hnot]

/-! ## Deletion (claim C18) -/

theorem deleteImage_false_iff (s3Delete : String → Except String Unit) (w : World)
    (imageId : Nat) (userId : String) :
    (deleteImage s3Delete w imageId userId).2 = .ok false ↔
      (w.imageFindUnique imageId = none ∨
        ∃ image, w.imageFindUnique imageId = some image ∧ image.userId ≠ userId) := by
  unfold deleteImage
  cases hfind : w.imageFindUnique imageId with
  | none => simp
  | some image =>
    by_cases hu : image.userId = userId
    · simp only [hu, ne_eq, not_true_eq_false, if_false, reduceCtorEq, Option.some.injEq,
        exists_eq_left', or_self, iff_false]
      unfold deleteFile
      cases s3Delete image.s3Key <;> simp
    · simp [hu]

theorem deleteImage_false_unchanged (s3Delete : String → Except String Unit) (w : World)
    (imageId : Nat) (userId : String)
    (h : (deleteImage s3Delete w imageId userId).2 = .ok false) :
    deleteImage s3Delete w imageId userId = (w, .ok false) := by
  rcases (deleteImage_false_iff s3Delete w imageId userId).mp h with h0 | ⟨image, h0, hu⟩
  · simp [deleteImage, h0]
  · simp [deleteImage, h0, hu]

theorem deleteImage_true (s3Delete : String → Except String Unit) (w : World)
    (imageId : Nat) (userId : String) (image : ImageRecord)
    (hfind : w.imageFindUnique imageId = some image) (hu : image.userId = userId)
    (hs3 : s3Delete image.s3Key = .ok ()) :
    deleteImage s3Delete w imageId userId =
      ({ images := w.images.filter fun r => r.id ≠ imageId
         nextId := w.nextId
         bucket := w.bucket.filter fun o => o.Key ≠ image.s3Key
         log := w.log }, .ok true) := by
  simp [deleteImage, hfind, hu, deleteFile, hs3, World.imageDelete]

theorem filter_ne_id_eq_erase (l : List ImageRecord) (id : Nat) (image : ImageRecord)
    (hnodup : (l.map fun r => r.id).Nodup)
    (hfind : l.find? (fun r => decide (r.id = id)) = some image) :
    (l.filter fun r => decide (r.id ≠ id)) = l.erase image := by
  induction l with
  | nil => simp at hfind
  | cons x xs ih =>
    simp only [List.map_cons, List.nodup_cons, List.mem_map, not_exists, not_and] at hnodup
    by_cases hx : x.id = id
    · have himg : image = x := by
        simp [List.find?, hx] at hfind
        exact hfind.symm
      subst himg
      have hrest : (xs.filter fun r => decide (r.id ≠ id)) = xs := by
        rw [List.filter_eq_self]
        intro r hr
        have := hnodup.1 r hr
        simp only [decide_eq_true_eq]
        intro e
        exact this (e.trans hx.symm)
      rw [List.filter_cons, if_neg (by simp [hx]), hrest, List.erase_cons_head]
    · have hfind' : xs.find? (fun r => decide (r.id = id)) = some image := by
        simpa [List.find?, hx] using hfind
      have hne : x ≠ image := by
        intro e
        have := List.find?_some hfind'
        simp only [decide_eq_true_eq] at this
        rw [← e] at this
        exact hx this
      rw [List.filter_cons, if_pos (by simpa using hx), ih hnodup.2 hfind',
        List.erase_cons_tail (by simpa using hne)]

theorem controllerDeleteImage_status (s3Delete : String → Except String Unit) (w : World)
    (imageId : Nat) (bodyUserId : Option String) (success : Bool)
    (h : (deleteImage s3Delete w imageId
      (if falsyString bodyUserId then "demo-user" else bodyUserId.getD "demo-user")).2 =
        .ok success) :
    (controllerDeleteImage s3Delete w imageId bodyUserId).2 =
      .ok (if success then
          { status := 200, success := true, message := "Image deleted successfully" }
        else
          { status := 404, success := false, message := "Image not found or unauthorized" }) := by
  unfold controllerDeleteImage
  rcases hd : deleteImage s3Delete w imageId
    (if falsyString bodyUserId then "demo-user" else bodyUserId.getD "demo-user") with ⟨w1, res⟩
  rw [hd] at h
  simp only at h
  subst h
  cases success <;> simp [hd]

/-- Counterexample for C18: `user-1` deletes its record 1 while the storage
backend refuses the deletion. The record exists and belongs to the caller, yet
`deleteImage` neither returns true nor deletes anything: it throws, and both
stores are as before. -/
theorem deleteImage_storage_fails_counterexample :
    (∃ image, twoUserWorld.imageFindUnique 1 = some image ∧ image.userId = "user-1") ∧
    deleteImage s3DeleteDown twoUserWorld 1 "user-1" = (twoUserWorld, .error "AccessDenied") ∧
    (deleteImage s3DeleteDown twoUserWorld 1 "user-1").2 ≠ .ok true ∧
    (deleteImage s3DeleteDown twoUserWorld 1 "user-1").2 ≠ .ok false := by
  have h : deleteImage s3DeleteDown twoUserWorld 1 "user-1" =
      (twoUserWorld, .error "AccessDenied") := by
    have hfind : twoUserWorld.imageFindUnique 1 = some (acceptedRecord 1 "user-1" storedHash) := by
      decide
    unfold deleteImage
    rw [hfind]
    simp [acceptedRecord, deleteFile, s3DeleteDown]
  refine ⟨⟨acceptedRecord 1 "user-1" storedHash, by decide, rfl⟩, h, ?_, ?_⟩
  · rw [h]; simp
  · rw [h]; simp

/-- C18 (amended): `deleteImage` returns false exactly when no record has the
id or the record belongs to another user, and then both stores are unchanged;
when the record exists and belongs to the user and the storage backend deletes
the object, it returns true, the bucket no longer holds the record's key, and
the record store has lost the rows of that id, which with unique ids is exactly
that one record; when the storage backend throws, `deleteImage` throws that
error and both stores are unchanged; the controller answers 404 to false and
200 to true and passes a thrown error on. -/
theorem deleteImage_spec (s3Delete : String → Except String Unit) (w : World)
    (imageId : Nat) (userId : String) :
    ((deleteImage s3Delete w imageId userId).2 = .ok false ↔
      (w.imageFindUnique imageId = none ∨
        ∃ image, w.imageFindUnique imageId = some image ∧ image.userId ≠ userId)) ∧
    ((deleteImage s3Delete w imageId userId).2 = .ok false →
      deleteImage s3Delete w imageId userId = (w, .ok false)) ∧
    (∀ image, w.imageFindUnique imageId = some image → image.userId = userId →
      s3Delete image.s3Key = .ok () →
      (deleteImage s3Delete w imageId userId).2 = .ok true ∧
      (deleteImage s3Delete w imageId userId).1.bucket =
        (w.bucket.filter fun o => o.Key ≠ image.s3Key) ∧
      (deleteImage s3Delete w imageId userId).1.images =
        (w.images.filter fun r => r.id ≠ imageId) ∧
      ((w.images.map fun r => r.id).Nodup →
        (deleteImage s3Delete w imageId userId).1.images = w.images.erase image ∧
        (deleteImage s3Delete w imageId userId).1.images.length + 1 = w.images.length)) ∧
    (∀ bodyUserId : Option String,
      ((deleteImage s3Delete w imageId
          (if falsyString bodyUserId then "demo-user" else bodyUserId.getD "demo-user")).2 =
          .ok false →
        (controllerDeleteImage s3Delete w imageId bodyUserId).2 =
          .ok { status := 404, success := false, message := "Image not found or unauthorized" }) ∧
      ((deleteImage s3Delete w imageId
          (if falsyString bodyUserId then "demo-user" else bodyUserId.getD "demo-user")).2 =
          .ok true →
        (controllerDeleteImage s3Delete w imageId bodyUserId).2 =
          .ok { status := 200, success := true, message := "Image deleted successfully" }) ∧
      (∀ e, (deleteImage s3Delete w imageId
          (if falsyString bodyUserId then "demo-user" else bodyUserId.getD "demo-user")).2 =
          .error e →
        (controllerDeleteImage s3Delete w imageId bodyUserId).2 = .error e)) ∧
    (∀ image e, w.imageFindUnique imageId = some image → image.userId = userId →
      s3Delete image.s3Key = .error e →
      deleteImage s3Delete w imageId userId = (w, .error e)) := by
  refine ⟨deleteImage_false_iff s3Delete w imageId userId,
    deleteImage_false_unchanged s3Delete w imageId userId, ?_, ?_, ?_⟩
  · intro image hfind hu hs3
    rw [deleteImage_true s3Delete w imageId userId image hfind hu hs3]
    refine ⟨rfl, rfl, rfl, ?_⟩
    intro hnodup
    have herase := filter_ne_id_eq_erase w.images imageId image hnodup hfind
    have hmem : image ∈ w.images := List.mem_of_find?_eq_some hfind
    refine ⟨herase, ?_⟩
    show (w.images.filter fun r => decide (r.id ≠ imageId)).length + 1 = w.images.length
    rw [herase, List.length_erase_of_mem hmem]
    have : 0 < w.images.length := List.length_pos_of_mem hmem
    omega
  · intro bodyUserId
    refine ⟨fun h => controllerDeleteImage_status s3Delete w imageId bodyUserId false h,
      fun h => controllerDeleteImage_status s3Delete w imageId bodyUserId true h, ?_⟩
    intro e he
    unfold controllerDeleteImage
    simp only
    generalize deleteImage s3Delete w imageId
      (if falsyString bodyUserId then "demo-user" else bodyUserId.getD "demo-user") = res at he
    obtain ⟨w1, out⟩ := res
    simp only at he
    subst he
    rfl
  · intro image e hfind hu hs3
    unfold deleteImage
    rw [hfind]
    simp [hu, deleteFile, hs3]

/-- Witness for C18: `user-1` deletes record 1, which removes its object and
that record only; `user-1` cannot delete record 2, and record 7 does not
exist. -/
theorem deleteImage_spec_witness :
    deleteImage s3DeleteOk twoUserWorld 1 "user-1" =
      ({ images := [acceptedRecord 2 "user-2" storedHash], nextId := 3, bucket := [],
         log := [] }, .ok true) ∧
    deleteImage s3DeleteOk twoUserWorld 2 "user-1" = (twoUserWorld, .ok false) ∧
    deleteImage s3DeleteOk twoUserWorld 7 "user-1" = (twoUserWorld, .ok false) := by
  have h := deleteImage_spec s3DeleteOk twoUserWorld 2 "user-1"
  have h7 := deleteImage_spec s3DeleteOk twoUserWorld 7 "user-1"
  refine ⟨?_, h.2.1 (h.1.mpr (Or.inr ⟨acceptedRecord 2 "user-2" storedHash, by decide,
    by decide⟩)), h7.2.1 (h7.1.mpr (Or.inl (by decide)))⟩
  rw [deleteImage_true s3DeleteOk twoUserWorld 1 "user-1" (acceptedRecord 1 "user-1" storedHash)
    (by decide) rfl rfl]
  simp only [twoUserWorld, Prod.mk.injEq, and_true]
  congr 1

/-! ## Failed uploads (claim C19) -/

/-- The provisional record of a run of `processUpload`. -/
theorem imageCreate_record (w : World) (env : Env) (data : CreateData) :
    (w.imageCreate env data).2.id = w.nextId ∧
    (w.imageCreate env data).2.status = data.status ∧
    (w.imageCreate env data).2.s3Key = data.s3Key ∧
    (w.imageCreate env data).1.images = w.images ++ [(w.imageCreate env data).2] ∧
    (w.imageCreate env data).1.nextId = w.nextId + 1 ∧
    (w.imageCreate env data).1.bucket = w.bucket :=
  ⟨rfl, rfl, rfl, rfl, rfl, rfl⟩

/-- Whatever happens, a run of `processUpload` appends its provisional record
and rewrites at most the rows carrying the fresh id, keeping their ids. -/
theorem processUpload_images (cfg : ImageValidation) (env : Env) (file : UploadedFile)
    (userId : String) (w : World) :
    ∃ f : ImageRecord → ImageRecord, (∀ x, (f x).id = x.id) ∧
      (processUpload cfg env file userId w).1.images =
        (w.images ++ [(w.imageCreate env (provisionalData env file userId)).2]).map
          (fun x => if x.id = w.nextId then f x else x) ∧
      (processUpload cfg env file userId w).1.nextId = w.nextId + 1 := by
  have hid : ∀ l : List ImageRecord, l = l.map (fun x => if x.id = w.nextId then id x else x) := by
    intro l
    simp
  cases hp : processImage env file.buffer file.originalname with
  | error e =>
    refine ⟨id, fun _ => rfl, ?_, ?_⟩
    · simp only [processUpload, hp]
      exact hid _
    · simp only [processUpload, hp]; rfl
  | ok img =>
    cases hd : detectFaces env img.processedBuffer with
    | error e =>
      refine ⟨id, fun _ => rfl, ?_, ?_⟩
      · simp only [processUpload, hp, hd]
        exact hid _
      · simp only [processUpload, hp, hd]; rfl
    | ok fr =>
      cases hv : validateFaces cfg fr with
      | error e =>
        refine ⟨id, fun _ => rfl, ?_, ?_⟩
        · simp only [processUpload, hp, hd, hv]
          exact hid _
        · simp only [processUpload, hp, hd, hv]; rfl
      | ok fv =>
        obtain ⟨r0, hfind, -⟩ := imageCreate_find w env (provisionalData env file userId)
        cases hu : env.s3Upload (uploadParams env img.processedBuffer file.originalname
            (storedContentType img.format file)) with
        | error e =>
          refine ⟨id, fun _ => rfl, ?_, ?_⟩
          · cases hvalid : fv.valid with
            | false =>
              rw [processUpload_gate_failed cfg env file userId w img fr fv hp hd hv hvalid]
              simp only [rejectByFace, uploadFile, hu]
              exact hid _
            | true =>
              rw [processUpload_gate_passed cfg env file userId w img fr fv hp hd hv hvalid]
              simp only [validateAndFinalize, uploadFile, hu]
              exact hid _
          · cases hvalid : fv.valid with
            | false =>
              rw [processUpload_gate_failed cfg env file userId w img fr fv hp hd hv hvalid]
              simp only [rejectByFace, uploadFile, hu]
              rfl
            | true =>
              rw [processUpload_gate_passed cfg env file userId w img fr fv hp hd hv hvalid]
              simp only [validateAndFinalize, uploadFile, hu]
              rfl
        | ok u =>
          cases hvalid : fv.valid with
          | false =>
            rw [processUpload_gate_failed cfg env file userId w img fr fv hp hd hv hvalid,
              rejectByFace_outcome env file img fv w.nextId _ r0 hu hfind]
            refine ⟨_, ?_, rfl, rfl⟩
            intro x; rfl
          | true =>
            rw [processUpload_gate_passed cfg env file userId w img fr fv hp hd hv hvalid,
              validateAndFinalize_outcome cfg env file userId img w.nextId _ r0 hu hfind]
            refine ⟨_, ?_, rfl, rfl⟩
            intro x; rfl

theorem map_update_ids (l : List ImageRecord) (id : Nat) (f : ImageRecord → ImageRecord)
    (hf : ∀ x, (f x).id = x.id) :
    ((l.map fun x => if x.id = id then f x else x).map fun r => r.id) = l.map fun r => r.id := by
  rw [List.map_map]
  apply List.map_congr_left
  intro x _
  simp only [Function.comp]
  split_ifs
  · exact hf x
  · rfl

theorem processUpload_uniqueIds (cfg : ImageValidation) (env : Env) (file : UploadedFile)
    (userId : String) (w : World) (hw : w.uniqueIds) :
    (processUpload cfg env file userId w).1.uniqueIds := by
  obtain ⟨f, hf, himg, hnext⟩ := processUpload_images cfg env file userId w
  have hids := map_update_ids
    (w.images ++ [(w.imageCreate env (provisionalData env file userId)).2]) w.nextId f hf
  constructor
  · rw [himg, hids, List.map_append, List.nodup_append]
    refine ⟨hw.1, by simp, ?_⟩
    intro a ha hb
    simp only [List.map_cons, List.map_nil, List.mem_singleton] at hb
    obtain ⟨r, hr, rfl⟩ := List.mem_map.mp ha
    have := hw.2 r hr
    have hcreate : (w.imageCreate env (provisionalData env file userId)).2.id = w.nextId := rfl
    omega
  · intro r hr
    have hmem : r.id ∈ (w.images ++ [(w.imageCreate env (provisionalData env file userId)).2]).map
        (fun r => r.id) := by
      rw [← hids, ← himg]
      exact List.mem_map_of_mem _ hr
    rw [hnext]
    simp only [List.map_append, List.mem_append, List.map_cons, List.map_nil,
      List.mem_singleton] at hmem
    rcases hmem with h | h
    · obtain ⟨r', hr', e⟩ := List.mem_map.mp h
      have := hw.2 r' hr'
      omega
    · have hcreate : (w.imageCreate env (provisionalData env file userId)).2.id = w.nextId := rfl
      omega

theorem processUpload_keeps (cfg : ImageValidation) (env : Env) (file : UploadedFile)
    (userId : String) (w : World) (hw : w.uniqueIds) (r : ImageRecord) (hr : r ∈ w.images) :
    r ∈ (processUpload cfg env file userId w).1.images := by
  obtain ⟨f, -, himg, -⟩ := processUpload_images cfg env file userId w
  rw [himg]
  apply List.mem_map.mpr
  refine ⟨r, List.mem_append_left _ hr, ?_⟩
  have := hw.2 r hr
  rw [if_neg (by omega)]

theorem deleteImage_world (s3Delete : String → Except String Unit) (w : World)
    (imageId : Nat) (userId : String) :
    (deleteImage s3Delete w imageId userId).1 = w ∨
      ∃ image, w.imageFindUnique imageId = some image ∧ image.userId = userId ∧
        (deleteImage s3Delete w imageId userId).1.images =
          (w.images.filter fun r => r.id ≠ imageId) ∧
        (deleteImage s3Delete w imageId userId).1.nextId = w.nextId := by
  cases hfind : w.imageFindUnique imageId with
  | none => left; simp [deleteImage, hfind]
  | some image =>
    by_cases hu : image.userId = userId
    · cases hs3 : s3Delete image.s3Key with
      | error e => left; simp [deleteImage, hfind, hu, deleteFile, hs3]
      | ok u =>
        right
        refine ⟨image, rfl, hu, ?_, ?_⟩
        · rw [deleteImage_true s3Delete w imageId userId image hfind hu hs3]
        · rw [deleteImage_true s3Delete w imageId userId image hfind hu hs3]
    · left; simp [deleteImage, hfind, hu]

theorem deleteImage_uniqueIds (s3Delete : String → Except String Unit) (w : World)
    (imageId : Nat) (userId : String) (hw : w.uniqueIds) :
    (deleteImage s3Delete w imageId userId).1.uniqueIds := by
  rcases deleteImage_world s3Delete w imageId userId with h | ⟨image, -, -, himg, hnext⟩
  · rw [h]; exact hw
  · constructor
    · rw [himg]
      exact (hw.1.sublist ((List.filter_sublist _).map _))
    · intro r hr
      rw [himg] at hr
      rw [hnext]
      exact hw.2 r (List.mem_of_mem_filter hr)

theorem find_eq_of_nodup (l : List ImageRecord) (hnodup : (l.map fun r => r.id).Nodup)
    (r image : ImageRecord) (hr : r ∈ l)
    (hfind : l.find? (fun x => decide (x.id = r.id)) = some image) : image = r := by
  have hmem : image ∈ l := List.mem_of_find?_eq_some hfind
  have hid : image.id = r.id := by simpa using List.find?_some hfind
  exact List.inj_on_of_nodup_map hnodup hmem hr hid

theorem deleteImage_keeps (s3Delete : String → Except String Unit) (w : World)
    (imageId : Nat) (userId : String) (hw : w.uniqueIds) (r : ImageRecord) (hr : r ∈ w.images)
    (h : imageId ≠ r.id ∨ userId ≠ r.userId) :
    r ∈ (deleteImage s3Delete w imageId userId).1.images := by
  rcases deleteImage_world s3Delete w imageId userId with h0 | ⟨image, hfind, hu, himg, -⟩
  · rw [h0]; exact hr
  · rw [himg]
    apply List.mem_filter.mpr
    refine ⟨hr, ?_⟩
    simp only [ne_eq, decide_eq_true_eq]
    intro hid
    rcases h with h | h
    · exact h hid.symm
    · rw [← hid] at hfind
      have := find_eq_of_nodup w.images hw.1 r image hr hfind
      rw [this] at hu
      exact h hu.symm

/-- A record with unique id survives every sequence of later operations that
does not delete it on behalf of its owner. -/
theorem laterSteps_keep (r : ImageRecord) (w w' : World) (hw : w.uniqueIds) (hr : r ∈ w.images)
    (hsteps : Relation.ReflTransGen (LaterStep r.id r.userId) w w') :
    w'.uniqueIds ∧ r ∈ w'.images := by
  induction hsteps with
  | refl => exact ⟨hw, hr⟩
  | tail _ hstep ih =>
    cases hstep with
    | upload cfg env file userId =>
      exact ⟨processUpload_uniqueIds cfg env file userId _ ih.1,
        processUpload_keeps cfg env file userId _ ih.1 r ih.2⟩
    | delete s3Delete _ imageId userId h =>
      exact ⟨deleteImage_uniqueIds s3Delete _ imageId userId ih.1,
        deleteImage_keeps s3Delete _ imageId userId ih.1 r ih.2 h⟩

theorem detectFaces_validateFaces_ok (cfg : ImageValidation) (env : Env) (buffer : Buffer)
    (fr : FaceResults) (hd : detectFaces env buffer = .ok fr) :
    ∃ fv, validateFaces cfg fr = .ok fv := by
  unfold detectFaces at hd
  cases hs : env.rekognitionSend buffer with
  | error e => rw [hs] at hd; cases hd
  | ok details =>
    rw [hs] at hd
    have hfr : fr = toFaceResults env.mulDouble details := (Except.ok.inj hd).symm
    subst hfr
    cases details with
    | nil =>
      exact ⟨rejected "No faces detected in the image", by simp [validateFaces, toFaceResults]⟩
    | cons d ds =>
      cases ds with
      | nil =>
        by_cases hsz : env.mulDouble (env.mulDouble d.BoundingBox.Width d.BoundingBox.Height)
            100 < (cfg.minFaceSize : ℚ)
        · exact ⟨rejected (faceTooSmallReason cfg
            (env.mulDouble (env.mulDouble d.BoundingBox.Width d.BoundingBox.Height) 100)),
            by simp [validateFaces, toFaceResults, hsz]⟩
        · exact ⟨passed, by simp [validateFaces, toFaceResults, hsz]⟩
      | cons e es =>
        exact ⟨rejected ("Multiple faces detected (" ++ toString (es.length + 1 + 1) ++
          "). Only one face allowed"), by simp [validateFaces, toFaceResults]⟩

/-- A run of `processUpload` in which the normalizer, the face detection or the
upload fails ends with that error and with the provisional record appended. -/
theorem processUpload_failure (cfg : ImageValidation) (env : Env) (file : UploadedFile)
    (userId : String) (w : World) (e : String)
    (hfail : processImage env file.buffer file.originalname = .error e ∨
      (∃ img, processImage env file.buffer file.originalname = .ok img ∧
        detectFaces env img.processedBuffer = .error e) ∨
      (∃ img fr, processImage env file.buffer file.originalname = .ok img ∧
        detectFaces env img.processedBuffer = .ok fr ∧
        env.s3Upload (uploadParams env img.processedBuffer file.originalname
          (storedContentType img.format file)) = .error e)) :
    (processUpload cfg env file userId w).2 = .error e ∧
    (processUpload cfg env file userId w).1.images =
      w.images ++ [(w.imageCreate env (provisionalData env file userId)).2] ∧
    (processUpload cfg env file userId w).1.bucket = w.bucket := by
  rcases hfail with hp | ⟨img, hp, hd⟩ | ⟨img, fr, hp, hd, hu⟩
  · refine ⟨?_, ?_, ?_⟩ <;> simp [processUpload, hp, World.imageCreate, World.emit]
  · refine ⟨?_, ?_, ?_⟩ <;> simp [processUpload, hp, hd, World.imageCreate, World.emit]
  · obtain ⟨fv, hv⟩ := detectFaces_validateFaces_ok cfg env img.processedBuffer fr hd
    cases hvalid : fv.valid with
    | false =>
      rw [processUpload_gate_failed cfg env file userId w img fr fv hp hd hv hvalid]
      refine ⟨?_, ?_, ?_⟩ <;>
        simp [rejectByFace, uploadFile, hu, World.imageCreate, World.emit]
    | true =>
      rw [processUpload_gate_passed cfg env file userId w img fr fv hp hd hv hvalid]
      refine ⟨?_, ?_, ?_⟩ <;>
        simp [validateAndFinalize, uploadFile, hu, World.imageCreate, World.emit]

theorem find_appended (l : List ImageRecord) (rec : ImageRecord)
    (hfresh : ∀ r ∈ l, r.id ≠ rec.id) :
    (l ++ [rec]).find? (fun r => decide (r.id = rec.id)) = some rec := by
  induction l with
  | nil => simp
  | cons x xs ih =>
    have hx : x.id ≠ rec.id := hfresh x (List.mem_cons_self _ _)
    simp only [List.cons_append, List.find?, hx, decide_False]
    exact ih (fun r hr => hfresh r (List.mem_cons_of_mem _ hr))

/-- C19 (amended): when the format normalizer, the face-detection call or the
object-store upload fails, `processUpload` ends with that error, the bucket is
unchanged, and the provisional record stays in the record store with status
PROCESSING and its placeholder key; no later upload, and no deletion for
another id or by another user, changes or removes it (listings only read); a
deletion of its id by its owner does remove it. -/
theorem processUpload_failure_leaves_processing (cfg : ImageValidation) (env : Env)
    (file : UploadedFile) (userId : String) (w : World) (e : String) (hw : w.uniqueIds)
    (hfail : processImage env file.buffer file.originalname = .error e ∨
      (∃ img, processImage env file.buffer file.originalname = .ok img ∧
        detectFaces env img.processedBuffer = .error e) ∨
      (∃ img fr, processImage env file.buffer file.originalname = .ok img ∧
        detectFaces env img.processedBuffer = .ok fr ∧
        env.s3Upload (uploadParams env img.processedBuffer file.originalname
          (storedContentType img.format file)) = .error e)) :
    (processUpload cfg env file userId w).2 = .error e ∧
    ∃ prov : ImageRecord,
      prov.id = w.nextId ∧ prov.userId = userId ∧ prov.status = .PROCESSING ∧
      prov.s3Key = env.tempId ∧ prov.s3Url = env.tempId ∧
      (processUpload cfg env file userId w).1.images = w.images ++ [prov] ∧
      (processUpload cfg env file userId w).1.bucket = w.bucket ∧
      (∀ w', Relation.ReflTransGen (LaterStep w.nextId userId)
          (processUpload cfg env file userId w).1 w' → prov ∈ w'.images) ∧
      (∀ s3Delete : String → Except String Unit, s3Delete prov.s3Key = .ok () →
        (deleteImage s3Delete (processUpload cfg env file userId w).1 w.nextId userId).2 =
          .ok true ∧
        prov ∉ (deleteImage s3Delete (processUpload cfg env file userId w).1 w.nextId
          userId).1.images) := by
  obtain ⟨herr, himg, hbucket⟩ := processUpload_failure cfg env file userId w e hfail
  refine ⟨herr, (w.imageCreate env (provisionalData env file userId)).2, rfl, rfl, rfl, rfl, rfl,
    himg, hbucket, ?_, ?_⟩
  · intro w' hsteps
    exact (laterSteps_keep (w.imageCreate env (provisionalData env file userId)).2 _ w'
      (processUpload_uniqueIds cfg env file userId w hw) (by rw [himg]; simp) hsteps).2
  · intro s3Delete hs3
    have hfind : (processUpload cfg env file userId w).1.imageFindUnique w.nextId =
        some (w.imageCreate env (provisionalData env file userId)).2 := by
      simp only [World.imageFindUnique, himg]
      exact find_appended w.images (w.imageCreate env (provisionalData env file userId)).2
        (fun r hr => by
          have := hw.2 r hr
          have hid : (w.imageCreate env (provisionalData env file userId)).2.id = w.nextId := rfl
          omega)
    rw [deleteImage_true s3Delete _ w.nextId userId _ hfind rfl hs3]
    refine ⟨rfl, ?_⟩
    simp only [List.mem_filter, ne_eq, decide_eq_true_eq, not_and, not_not]
    intro _
    rfl

/-- Counterexample to C19 as stated: after a failed upload the provisional
PROCESSING record is in the store, and `deleteImage` called with its id by its
owner removes it. -/
theorem processUpload_failure_record_removed_counterexample :
    (processUpload defaultConfig failingEnv sampleFile "user-1" emptyWorld).2 =
      .error "Failed to process image: unsupported image format" ∧
    ((processUpload defaultConfig failingEnv sampleFile "user-1" emptyWorld).1.images.map
      fun r => (r.id, r.userId, r.status, r.s3Key)) = [(1, "user-1", Status.PROCESSING, "temp-1")] ∧
    (deleteImage s3DeleteOk
      (processUpload defaultConfig failingEnv sampleFile "user-1" emptyWorld).1 1 "user-1").2 =
      .ok true ∧
    (deleteImage s3DeleteOk
      (processUpload defaultConfig failingEnv sampleFile "user-1" emptyWorld).1 1
      "user-1").1.images = [] := by
  have hp : processImage failingEnv sampleFile.buffer sampleFile.originalname =
      .error "Failed to process image: unsupported image format" := by
    have hext : toLowerCase (extname sampleFile.originalname) = ".jpg" := by decide
    simp only [processImage, hext]
    simp [failingEnv]
  obtain ⟨herr, himg, -⟩ := processUpload_failure defaultConfig failingEnv sampleFile "user-1"
    emptyWorld _ (Or.inl hp)
  have hfind : (processUpload defaultConfig failingEnv sampleFile "user-1"
      emptyWorld).1.imageFindUnique 1 =
      some (emptyWorld.imageCreate failingEnv (provisionalData failingEnv sampleFile "user-1")).2 := by
    simp only [World.imageFindUnique, himg]
    rfl
  refine ⟨herr, by rw [himg]; rfl, ?_, ?_⟩
  · rw [deleteImage_true s3DeleteOk _ 1 "user-1" _ hfind rfl rfl]
  · rw [deleteImage_true s3DeleteOk _ 1 "user-1" _ hfind rfl rfl]
    simp only [himg]
    rfl

/-- Witness for C19: after the failed upload of `sampleFile` to an empty store
a later successful upload leaves the provisional record in place. -/
theorem processUpload_failure_leaves_processing_witness :
    ∃ prov : ImageRecord, prov.id = 1 ∧ prov.status = .PROCESSING ∧ prov.s3Key = "temp-1" ∧
      prov ∈ (processUpload defaultConfig (sampleEnv [fivePercentFace] 800 600 12) sampleFile
        "user-2"
        (processUpload defaultConfig failingEnv sampleFile "user-1" emptyWorld).1).1.images := by
  have hp : processImage failingEnv sampleFile.buffer sampleFile.originalname =
      .error "Failed to process image: unsupported image format" := by
    have hext : toLowerCase (extname sampleFile.originalname) = ".jpg" := by decide
    simp only [processImage, hext]
    simp [failingEnv]
  obtain ⟨-, prov, hid, -, hstatus, hkey, -, -, -, hkeep, -⟩ :=
    processUpload_failure_leaves_processing defaultConfig failingEnv sampleFile "user-1"
      emptyWorld _ ⟨by simp [emptyWorld], by simp [emptyWorld]⟩ (Or.inl hp)
  exact ⟨prov, hid, hstatus, hkey, hkeep _ (Relation.ReflTransGen.single
    (LaterStep.upload defaultConfig (sampleEnv [fivePercentFace] 800 600 12) sampleFile
      "user-2" _))⟩

/-! ## Client deletion (claim C20) -/

theorem mem_addDeletedId (prev : List String) (imageId : String) :
    imageId ∈ addDeletedId prev imageId := by
  unfold addDeletedId
  split_ifs with h
  · exact h
  · simp

theorem deleteFailed_fields (imageId : String) (status : Option Nat) (st : ClientState) :
    (deleteFailed imageId status st).deletedImageIds = addDeletedId st.deletedImageIds imageId ∧
    (deleteFailed imageId status st).acceptedImages = st.acceptedImages ∧
    (deleteFailed imageId status st).rejectedImages = st.rejectedImages := by
  unfold deleteFailed
  split_ifs <;> exact ⟨rfl, rfl, rfl⟩

theorem handleDeleteImage_fields (outcome : DeleteOutcome) (imageId : String) (st : ClientState)
    (hne : imageId ≠ "") :
    (handleDeleteImage outcome imageId st).deletedImageIds =
      addDeletedId st.deletedImageIds imageId ∧
    (handleDeleteImage outcome imageId st).acceptedImages =
      (st.acceptedImages.filter fun img => img.id ≠ imageId) ∧
    (handleDeleteImage outcome imageId st).rejectedImages =
      (st.rejectedImages.filter fun img => img.id ≠ imageId) ∧
    (handleDeleteImage outcome imageId st).isLoading = false := by
  unfold handleDeleteImage
  rw [if_neg hne]
  cases outcome with
  | body success message =>
    cases success
    · exact ⟨(deleteFailed_fields _ _ _).1, (deleteFailed_fields _ _ _).2.1,
        (deleteFailed_fields _ _ _).2.2, rfl⟩
    · exact ⟨rfl, rfl, rfl, rfl⟩
  | noBody =>
    exact ⟨(deleteFailed_fields _ _ _).1, (deleteFailed_fields _ _ _).2.1,
      (deleteFailed_fields _ _ _).2.2, rfl⟩
  | httpError status =>
    exact ⟨(deleteFailed_fields _ _ _).1, (deleteFailed_fields _ _ _).2.1,
      (deleteFailed_fields _ _ _).2.2, rfl⟩
  | otherError =>
    exact ⟨(deleteFailed_fields _ _ _).1, (deleteFailed_fields _ _ _).2.1,
      (deleteFailed_fields _ _ _).2.2, rfl⟩

theorem fetchImages_hides (accepted rejected : ListOutcome) (st : ClientState) (imageId : String)
    (hdel : imageId ∈ st.deletedImageIds)
    (hacc : ∀ img ∈ st.acceptedImages, img.id ≠ imageId)
    (hrej : ∀ img ∈ st.rejectedImages, img.id ≠ imageId) :
    (∀ img ∈ (fetchImages accepted rejected st).acceptedImages, img.id ≠ imageId) ∧
    (∀ img ∈ (fetchImages accepted rejected st).rejectedImages, img.id ≠ imageId) ∧
    (fetchImages accepted rejected st).deletedImageIds = st.deletedImageIds := by
  have hfilter : ∀ l : List ClientImage,
      ∀ img ∈ l.filter (fun img => !(st.deletedImageIds.contains img.id)), img.id ≠ imageId := by
    intro l img himg
    have := (List.mem_filter.mp himg).2
    intro e
    rw [e] at this
    simp [hdel] at this
  unfold fetchImages
  by_cases ha : accepted = .failure
  · rw [if_pos ha]
    exact ⟨hacc, hrej, rfl⟩
  · rw [if_neg ha]
    by_cases hr : rejected = .failure
    · rw [if_pos hr]
      exact ⟨hfilter _, hrej, rfl⟩
    · rw [if_neg hr]
      exact ⟨hfilter _, hfilter _, rfl⟩

/-- C20: for a non-empty image id and every outcome of the remote delete (a
success body, a body with `success` false, no body, a 404 or any other error),
after `handleDeleteImage` the id is in `deletedImageIds`, is in the persisted
entry once the saving effect has run, and no image with that id is in the
accepted or the rejected list, also after the refresh the change of
`deletedImageIds` triggers, whatever the server lists. -/
theorem handleDeleteImage_tombstones (outcome : DeleteOutcome) (imageId : String)
    (st : ClientState) (hne : imageId ≠ "") :
    imageId ∈ (handleDeleteImage outcome imageId st).deletedImageIds ∧
    (∀ img ∈ (handleDeleteImage outcome imageId st).acceptedImages, img.id ≠ imageId) ∧
    (∀ img ∈ (handleDeleteImage outcome imageId st).rejectedImages, img.id ≠ imageId) ∧
    (∃ ids, (persistDeletedIds (handleDeleteImage outcome imageId st)).persisted = some ids ∧
      imageId ∈ ids) ∧
    (∀ accepted rejected : ListOutcome,
      imageId ∈ (fetchImages accepted rejected
        (persistDeletedIds (handleDeleteImage outcome imageId st))).deletedImageIds ∧
      (∀ img ∈ (fetchImages accepted rejected
        (persistDeletedIds (handleDeleteImage outcome imageId st))).acceptedImages,
        img.id ≠ imageId) ∧
      (∀ img ∈ (fetchImages accepted rejected
        (persistDeletedIds (handleDeleteImage outcome imageId st))).rejectedImages,
        img.id ≠ imageId)) := by
  obtain ⟨hdel, hacc, hrej, -⟩ := handleDeleteImage_fields outcome imageId st hne
  have h1 : imageId ∈ (handleDeleteImage outcome imageId st).deletedImageIds := by
    rw [hdel]; exact mem_addDeletedId _ _
  have h2 : ∀ img ∈ (handleDeleteImage outcome imageId st).acceptedImages, img.id ≠ imageId := by
    rw [hacc]
    intro img himg
    simpa using (List.mem_filter.mp himg).2
  have h3 : ∀ img ∈ (handleDeleteImage outcome imageId st).rejectedImages, img.id ≠ imageId := by
    rw [hrej]
    intro img himg
    simpa using (List.mem_filter.mp himg).2
  refine ⟨h1, h2, h3, ⟨_, rfl, h1⟩, ?_⟩
  intro accepted rejected
  obtain ⟨f1, f2, f3⟩ := fetchImages_hides accepted rejected
    (persistDeletedIds (handleDeleteImage outcome imageId st)) imageId h1 h2 h3
  exact ⟨by rw [f3]; exact h1, f1, f2⟩

/-- Witness for C20: the server answers 500 to the deletion of image `a` and
still lists it; the id is tombstoned and the image stays hidden. -/
theorem handleDeleteImage_tombstones_witness :
    "a" ∈ (handleDeleteImage (.httpError 500) "a" sampleClient).deletedImageIds ∧
    ∀ img ∈ (fetchImages
        (.data [{ id := "a", status := .ACCEPTED, s3Url := "https://bucket.example/a" }])
        .noData
        (persistDeletedIds (handleDeleteImage (.httpError 500) "a" sampleClient))).acceptedImages,
      img.id ≠ "a" :=
  ⟨(handleDeleteImage_tombstones (.httpError 500) "a" sampleClient (by decide)).1,
    ((handleDeleteImage_tombstones (.httpError 500) "a" sampleClient (by decide)).2.2.2.2
      (.data [{ id := "a", status := .ACCEPTED, s3Url := "https://bucket.example/a" }])
      .noData).2.1⟩

/-! ## The client over time -/

theorem mem_addDeletedId_iff (prev : List String) (imageId x : String) :
    x ∈ addDeletedId prev imageId ↔ x ∈ prev ∨ x = imageId := by
  unfold addDeletedId
  split_ifs with h
  · constructor
    · exact Or.inl
    · rintro (h1 | h1)
      · exact h1
      · rw [h1]; exact h
  · simp

theorem fetchImages_deletedImageIds (accepted rejected : ListOutcome) (st : ClientState) :
    (fetchImages accepted rejected st).deletedImageIds = st.deletedImageIds := by
  unfold fetchImages
  by_cases ha : accepted = .failure
  · rw [if_pos ha]
  · rw [if_neg ha]
    by_cases hr : rejected = .failure
    · rw [if_pos hr]
    · rw [if_neg hr]

theorem fetchImages_hidesTombstones (accepted rejected : ListOutcome) (st : ClientState)
    (h : st.hidesTombstones) : (fetchImages accepted rejected st).hidesTombstones := by
  intro img himg
  rw [fetchImages_deletedImageIds]
  have hfilter : ∀ l : List ClientImage,
      img ∈ l.filter (fun img => !(st.deletedImageIds.contains img.id)) →
        img.id ∉ st.deletedImageIds := by
    intro l hmem
    have := (List.mem_filter.mp hmem).2
    simpa using this
  have hold_acc : img ∈ st.acceptedImages → img.id ∉ st.deletedImageIds :=
    fun hm => h img (List.mem_append.mpr (Or.inl hm))
  have hold_rej : img ∈ st.rejectedImages → img.id ∉ st.deletedImageIds :=
    fun hm => h img (List.mem_append.mpr (Or.inr hm))
  unfold fetchImages at himg
  by_cases ha : accepted = .failure
  · rw [if_pos ha] at himg
    rcases List.mem_append.mp himg with hm | hm
    · exact hold_acc hm
    · exact hold_rej hm
  · rw [if_neg ha] at himg
    by_cases hr : rejected = .failure
    · rw [if_pos hr] at himg
      rcases List.mem_append.mp himg with hm | hm
      · exact hfilter _ hm
      · exact hold_rej hm
    · rw [if_neg hr] at himg
      rcases List.mem_append.mp himg with hm | hm
      · exact hfilter _ hm
      · exact hfilter _ hm

theorem uploadStep_mem (acc : UploadAcc) (outcome : UploadOutcome) (img : ClientImage) :
    (img ∈ (uploadStep acc outcome).acceptedImages →
      img ∈ acc.acceptedImages ∨ outcome = .body true (some img)) ∧
    (img ∈ (uploadStep acc outcome).rejectedImages →
      img ∈ acc.rejectedImages ∨ outcome = .body true (some img)) := by
  cases outcome with
  | failure => exact ⟨Or.inl, Or.inl⟩
  | body success data =>
    cases success
    · exact ⟨Or.inl, Or.inl⟩
    · cases data with
      | none => exact ⟨Or.inl, Or.inl⟩
      | some d =>
        unfold uploadStep
        by_cases hs : d.status = .ACCEPTED
        · simp only [hs, if_true]
          refine ⟨?_, Or.inl⟩
          intro hm
          rcases List.mem_append.mp hm with h1 | h1
          · exact Or.inl h1
          · rw [List.mem_singleton.mp h1]; exact Or.inr rfl
        · simp only [hs, if_false]
          refine ⟨Or.inl, ?_⟩
          intro hm
          rcases List.mem_append.mp hm with h1 | h1
          · exact Or.inl h1
          · rw [List.mem_singleton.mp h1]; exact Or.inr rfl

theorem uploadLoop_mem (img : ClientImage) :
    ∀ (files : List UploadOutcome) (acc : UploadAcc),
      (img ∈ (files.foldl uploadStep acc).acceptedImages →
        img ∈ acc.acceptedImages ∨ UploadOutcome.body true (some img) ∈ files) ∧
      (img ∈ (files.foldl uploadStep acc).rejectedImages →
        img ∈ acc.rejectedImages ∨ UploadOutcome.body true (some img) ∈ files) := by
  intro files
  induction files with
  | nil => intro acc; exact ⟨Or.inl, Or.inl⟩
  | cons o rest ih =>
    intro acc
    rw [List.foldl_cons]
    obtain ⟨ia, ir⟩ := ih (uploadStep acc o)
    obtain ⟨sa, sr⟩ := uploadStep_mem acc o img
    constructor
    · intro hm
      rcases ia hm with h1 | h1
      · rcases sa h1 with h2 | h2
        · exact Or.inl h2
        · exact Or.inr (by rw [h2]; exact List.mem_cons_self _ _)
      · exact Or.inr (List.mem_cons_of_mem _ h1)
    · intro hm
      rcases ir hm with h1 | h1
      · rcases sr h1 with h2 | h2
        · exact Or.inl h2
        · exact Or.inr (by rw [h2]; exact List.mem_cons_self _ _)
      · exact Or.inr (List.mem_cons_of_mem _ h1)

theorem handleFilesAccepted_deletedImageIds (files : List UploadOutcome) (st : ClientState) :
    (handleFilesAccepted files st).deletedImageIds = st.deletedImageIds := by
  unfold handleFilesAccepted
  split_ifs <;> rfl

theorem handleFilesAccepted_hidesTombstones (files : List UploadOutcome) (st : ClientState)
    (hfresh : freshUploads st files) (h : st.hidesTombstones) :
    (handleFilesAccepted files st).hidesTombstones := by
  intro img himg
  rw [handleFilesAccepted_deletedImageIds]
  unfold handleFilesAccepted at himg
  by_cases hmax : st.acceptedImages.length ≥ MAX_IMAGES
  · rw [if_pos hmax] at himg
    exact h img himg
  · rw [if_neg hmax] at himg
    obtain ⟨ia, ir⟩ := uploadLoop_mem img (filesToUpload files st)
      { acceptedImages := st.acceptedImages, rejectedImages := st.rejectedImages,
        successCount := 0, errorCount := 0 }
    rcases List.mem_append.mp himg with hm | hm
    · rcases ia hm with h1 | h1
      · exact h img (List.mem_append.mpr (Or.inl h1))
      · exact hfresh img h1
    · rcases ir hm with h1 | h1
      · exact h img (List.mem_append.mpr (Or.inr h1))
      · exact hfresh img h1

theorem handleDeleteImage_hidesTombstones (outcome : DeleteOutcome) (imageId : String)
    (st : ClientState) (h : st.hidesTombstones) :
    (handleDeleteImage outcome imageId st).hidesTombstones := by
  by_cases hne : imageId = ""
  · have : handleDeleteImage outcome imageId st =
        { st with error := some "Cannot delete image: Missing image ID" } := by
      unfold handleDeleteImage
      rw [if_pos hne]
    rw [this]
    exact h
  · obtain ⟨hdel, hacc, hrej, -⟩ := handleDeleteImage_fields outcome imageId st hne
    intro img himg
    rw [hdel, mem_addDeletedId_iff]
    rw [hacc, hrej] at himg
    rcases List.mem_append.mp himg with hm | hm
    · have h1 := List.mem_filter.mp hm
      rintro (h2 | h2)
      · exact h img (List.mem_append.mpr (Or.inl h1.1)) h2
      · simp [h2] at h1
    · have h1 := List.mem_filter.mp hm
      rintro (h2 | h2)
      · exact h img (List.mem_append.mpr (Or.inr h1.1)) h2
      · simp [h2] at h1

theorem deleteAllStep_fields (userId : String) (acc : DeleteAllAcc) (image : ClientImage)
    (outcome : DeleteOutcome) :
    (deleteAllStep userId acc image outcome).deletedImageIds =
      addDeletedId acc.deletedImageIds image.id ∧
    (deleteAllStep userId acc image outcome).requests =
      acc.requests ++ [Request.deleteImage image.id userId] ∧
    (deleteAllStep userId acc image outcome).successCount =
      acc.successCount + (if outcome.threw then 0 else 1) ∧
    (deleteAllStep userId acc image outcome).errorCount =
      acc.errorCount + (if outcome.threw then 1 else 0) := by
  unfold deleteAllStep
  by_cases ht : outcome.threw = true
  · simp [ht]
  · simp [ht]

theorem deleteAllLoop_spec (outcome : Nat → DeleteOutcome) (userId : String) :
    ∀ (images : List ClientImage) (i : Nat) (acc : DeleteAllAcc),
      (∀ x, x ∈ (deleteAllLoop outcome userId images i acc).deletedImageIds ↔
        x ∈ acc.deletedImageIds ∨ ∃ img ∈ images, img.id = x) ∧
      (deleteAllLoop outcome userId images i acc).requests =
        acc.requests ++ images.map (fun img => Request.deleteImage img.id userId) ∧
      (deleteAllLoop outcome userId images i acc).successCount =
        acc.successCount +
          ((List.range' i images.length).filter fun j => !(outcome j).threw).length ∧
      (deleteAllLoop outcome userId images i acc).errorCount =
        acc.errorCount +
          ((List.range' i images.length).filter fun j => (outcome j).threw).length := by
  intro images
  induction images with
  | nil =>
    intro i acc
    simp [deleteAllLoop]
  | cons image rest ih =>
    intro i acc
    obtain ⟨h1, h2, h3, h4⟩ := ih (i + 1) (deleteAllStep userId acc image (outcome i))
    obtain ⟨s1, s2, s3, s4⟩ := deleteAllStep_fields userId acc image (outcome i)
    have hloop : deleteAllLoop outcome userId (image :: rest) i acc =
        deleteAllLoop outcome userId rest (i + 1)
          (deleteAllStep userId acc image (outcome i)) := rfl
    rw [hloop]
    refine ⟨?_, ?_, ?_, ?_⟩
    · intro x
      rw [h1 x, s1, mem_addDeletedId_iff]
      constructor
      · rintro ((h | h) | ⟨img, hm, he⟩)
        · exact Or.inl h
        · exact Or.inr ⟨image, List.mem_cons_self _ _, h.symm⟩
        · exact Or.inr ⟨img, List.mem_cons_of_mem _ hm, he⟩
      · rintro (h | ⟨img, hm, he⟩)
        · exact Or.inl (Or.inl h)
        · rcases List.mem_cons.mp hm with h5 | h5
          · exact Or.inl (Or.inr (by rw [← he, h5]))
          · exact Or.inr ⟨img, h5, he⟩
    · rw [h2, s2]
      simp
    · rw [h3, s3]
      have hr : List.range' i (image :: rest).length = i :: List.range' (i + 1) rest.length := rfl
      rw [hr, List.filter_cons]
      by_cases ht : (outcome i).threw = true
      · simp [ht]
      · simp [ht]; omega
    · rw [h4, s4]
      have hr : List.range' i (image :: rest).length = i :: List.range' (i + 1) rest.length := rfl
      rw [hr, List.filter_cons]
      by_cases ht : (outcome i).threw = true
      · simp [ht]; omega
      · simp [ht]

theorem handleDeleteAllImages_run (outcome : Nat → DeleteOutcome) (userId : String)
    (st : ClientState) (hn : (st.acceptedImages ++ st.rejectedImages).length ≠ 0) :
    handleDeleteAllImages true outcome userId st =
      ({ st with
         deletedImageIds := (deleteAllLoop outcome userId
           (st.acceptedImages ++ st.rejectedImages) 0
           { deletedImageIds := st.deletedImageIds, successCount := 0, errorCount := 0,
             requests := [] }).deletedImageIds
         acceptedImages := []
         rejectedImages := []
         success := some (deletedAllMessage
           (deleteAllLoop outcome userId (st.acceptedImages ++ st.rejectedImages) 0
             { deletedImageIds := st.deletedImageIds, successCount := 0, errorCount := 0,
               requests := [] }).successCount
           (deleteAllLoop outcome userId (st.acceptedImages ++ st.rejectedImages) 0
             { deletedImageIds := st.deletedImageIds, successCount := 0, errorCount := 0,
               requests := [] }).errorCount)
         isLoading := false },
       (deleteAllLoop outcome userId (st.acceptedImages ++ st.rejectedImages) 0
         { deletedImageIds := st.deletedImageIds, successCount := 0, errorCount := 0,
           requests := [] }).requests) := by
  unfold handleDeleteAllImages
  rw [if_pos rfl]
  simp only
  rw [if_neg hn]

theorem handleDeleteAllImages_cases (confirmed : Bool) (outcome : Nat → DeleteOutcome)
    (userId : String) (st : ClientState) :
    ((handleDeleteAllImages confirmed outcome userId st).1.acceptedImages = st.acceptedImages ∧
      (handleDeleteAllImages confirmed outcome userId st).1.rejectedImages = st.rejectedImages ∧
      (handleDeleteAllImages confirmed outcome userId st).1.deletedImageIds =
        st.deletedImageIds) ∨
    ((handleDeleteAllImages confirmed outcome userId st).1.acceptedImages = [] ∧
      (handleDeleteAllImages confirmed outcome userId st).1.rejectedImages = [] ∧
      ∀ x, x ∈ (handleDeleteAllImages confirmed outcome userId st).1.deletedImageIds ↔
        x ∈ st.deletedImageIds ∨ ∃ img ∈ st.acceptedImages ++ st.rejectedImages, img.id = x) := by
  cases confirmed with
  | false => exact Or.inl ⟨rfl, rfl, rfl⟩
  | true =>
    by_cases hn : (st.acceptedImages ++ st.rejectedImages).length = 0
    · left
      unfold handleDeleteAllImages
      rw [if_pos rfl]
      simp only
      rw [if_pos hn]
      exact ⟨rfl, rfl, rfl⟩
    · right
      rw [handleDeleteAllImages_run outcome userId st hn]
      refine ⟨rfl, rfl, ?_⟩
      intro x
      exact (deleteAllLoop_spec outcome userId _ 0 _).1 x

theorem handleDeleteAllImages_hidesTombstones (confirmed : Bool) (outcome : Nat → DeleteOutcome)
    (userId : String) (st : ClientState) (h : st.hidesTombstones) :
    (handleDeleteAllImages confirmed outcome userId st).1.hidesTombstones := by
  rcases handleDeleteAllImages_cases confirmed outcome userId st with ⟨h1, h2, h3⟩ | ⟨h1, h2, -⟩
  · intro img himg
    rw [h1, h2] at himg
    rw [h3]
    exact h img himg
  · intro img himg
    rw [h1, h2] at himg
    simp at himg

theorem handleStartFresh_hidesTombstones (confirmed : Bool) (st : ClientState)
    (h : st.hidesTombstones) : (handleStartFresh confirmed st).1.hidesTombstones := by
  cases confirmed with
  | false => exact h
  | true =>
    intro img himg
    simp [handleStartFresh] at himg

theorem clientStep_hidesTombstones (st st' : ClientState)
    (hstep : ClientStep freshUploads st st') (h : st.hidesTombstones) : st'.hidesTombstones := by
  cases hstep with
  | refresh accepted rejected => exact fetchImages_hidesTombstones _ _ _ h
  | persist => exact h
  | upload files _ hfresh => exact handleFilesAccepted_hidesTombstones _ _ hfresh h
  | delete outcome imageId => exact handleDeleteImage_hidesTombstones _ _ _ h
  | deleteAll confirmed outcome userId =>
    exact handleDeleteAllImages_hidesTombstones _ _ _ _ h
  | reset confirmed => exact handleStartFresh_hidesTombstones _ _ h

/-- Counterexample for C21: the client lists image `a`, its deletion fails
remotely with 500 and tombstones `a`, and a later upload is answered with an
image whose id is again `a`. The state is reachable by a refresh, a single
delete, the saving effect, a refresh and an upload, and it shows `a` in the
accepted list although `a` is in the tombstone set: `handleFilesAccepted`
appends what the server returns without looking at the tombstones. -/
theorem reachable_shows_tombstoned_counterexample :
    Relation.ReflTransGen (ClientStep anyUploads) (initialState none) reuploadedClient ∧
    "a" ∈ reuploadedClient.deletedImageIds ∧
    imageA ∈ reuploadedClient.acceptedImages ∧
    ¬ reuploadedClient.hidesTombstones := by
  have hdel : "a" ∈ reuploadedClient.deletedImageIds := by decide
  have hacc : imageA ∈ reuploadedClient.acceptedImages := by decide
  refine ⟨?_, hdel, hacc, ?_⟩
  · refine Relation.ReflTransGen.tail (Relation.ReflTransGen.tail (Relation.ReflTransGen.tail
      (Relation.ReflTransGen.tail (Relation.ReflTransGen.tail Relation.ReflTransGen.refl
        (ClientStep.refresh (.data [imageA]) .noData _))
        (ClientStep.delete (.httpError 500) "a" _))
        (ClientStep.persist _))
        (ClientStep.refresh (.data [imageA]) .noData _))
        (ClientStep.upload [.body true (some imageA)] _ trivial)
  · intro h
    exact h imageA (List.mem_append.mpr (Or.inl hacc)) hdel

/-- C21 (amended): in every client state reachable from the mounted component
by listing refreshes, the saving effect, uploads, single deletes, delete-all
and reset steps, with arbitrary answers of the server to listings and
deletions and with upload answers whose image ids are not tombstoned at that
time, no image with a tombstoned id is in the accepted or the rejected list.
In particular, after the deletion of a non-empty id `x` with any remote
outcome, a refresh shows no image with id `x`, whatever the server lists. -/
theorem reachable_hidesTombstones (saved : Option (List String)) (st : ClientState)
    (hreach : Relation.ReflTransGen (ClientStep freshUploads) (initialState saved) st) :
    st.hidesTombstones ∧
    ∀ (outcome : DeleteOutcome) (x : String) (accepted rejected : ListOutcome), x ≠ "" →
      ∀ img ∈ (fetchImages accepted rejected (handleDeleteImage outcome x st)).acceptedImages ++
          (fetchImages accepted rejected (handleDeleteImage outcome x st)).rejectedImages,
        img.id ≠ x := by
  have hinv : st.hidesTombstones := by
    induction hreach with
    | refl =>
      intro img himg
      simp [initialState] at himg
    | tail _ hstep ih => exact clientStep_hidesTombstones _ _ hstep ih
  refine ⟨hinv, ?_⟩
  intro outcome x accepted rejected hx img himg
  have h1 : (handleDeleteImage outcome x st).hidesTombstones :=
    handleDeleteImage_hidesTombstones outcome x st hinv
  have h2 := fetchImages_hidesTombstones accepted rejected _ h1 img himg
  rw [fetchImages_deletedImageIds, (handleDeleteImage_fields outcome x st hx).1] at h2
  intro he
  exact h2 (by rw [he]; exact mem_addDeletedId _ _)

/-- Witness for C21 (amended): the mounted component lists image `a`; its
deletion fails remotely with 500; the refresh that follows hides `a` although
the server still lists it. -/
theorem reachable_hidesTombstones_witness :
    (fetchImages (.data [imageA]) .noData (initialState none)).hidesTombstones ∧
    ∀ img ∈ (fetchImages (.data [imageA]) .noData
        (handleDeleteImage (.httpError 500) "a"
          (fetchImages (.data [imageA]) .noData (initialState none)))).acceptedImages ++
        (fetchImages (.data [imageA]) .noData
        (handleDeleteImage (.httpError 500) "a"
          (fetchImages (.data [imageA]) .noData (initialState none)))).rejectedImages,
      img.id ≠ "a" :=
  ⟨(reachable_hidesTombstones none _
      (Relation.ReflTransGen.single (ClientStep.refresh (.data [imageA]) .noData _))).1,
    (reachable_hidesTombstones none _
      (Relation.ReflTransGen.single (ClientStep.refresh (.data [imageA]) .noData _))).2
      (.httpError 500) "a" (.data [imageA]) .noData (by decide)⟩

/-- C22: `handleDeleteImage`, `handleDeleteAllImages`, `handleFilesAccepted`
and the listing refresh keep every id that is in `deletedImageIds`, for every
state and every answer of the server; a confirmed `handleStartFresh` empties
`deletedImageIds`, removes the storage entry (the saving effect that follows
writes an empty list) and sends no request to the server; a declined one
changes nothing. -/
theorem tombstones_only_cleared_by_reset (st : ClientState) :
    (∀ (outcome : DeleteOutcome) (imageId : String),
      st.deletedImageIds ⊆ (handleDeleteImage outcome imageId st).deletedImageIds) ∧
    (∀ (confirmed : Bool) (outcome : Nat → DeleteOutcome) (userId : String),
      st.deletedImageIds ⊆
        (handleDeleteAllImages confirmed outcome userId st).1.deletedImageIds) ∧
    (∀ files : List UploadOutcome,
      (handleFilesAccepted files st).deletedImageIds = st.deletedImageIds) ∧
    (∀ accepted rejected : ListOutcome,
      (fetchImages accepted rejected st).deletedImageIds = st.deletedImageIds) ∧
    (handleStartFresh true st).1.deletedImageIds = [] ∧
    (handleStartFresh true st).1.persisted = none ∧
    (persistDeletedIds (handleStartFresh true st).1).persisted = some [] ∧
    (handleStartFresh true st).2 = [] ∧
    handleStartFresh false st = (st, []) := by
  refine ⟨?_, ?_, fun files => handleFilesAccepted_deletedImageIds files st,
    fun accepted rejected => fetchImages_deletedImageIds accepted rejected st,
    rfl, rfl, rfl, rfl, rfl⟩
  · intro outcome imageId x hx
    by_cases hne : imageId = ""
    · have : handleDeleteImage outcome imageId st =
          { st with error := some "Cannot delete image: Missing image ID" } := by
        unfold handleDeleteImage
        rw [if_pos hne]
      rw [this]
      exact hx
    · rw [(handleDeleteImage_fields outcome imageId st hne).1, mem_addDeletedId_iff]
      exact Or.inl hx
  · intro confirmed outcome userId x hx
    rcases handleDeleteAllImages_cases confirmed outcome userId st with ⟨-, -, h3⟩ | ⟨-, -, h3⟩
    · rw [h3]; exact hx
    · exact (h3 x).mpr (Or.inl hx)

/-- Witness for C22: with `a` tombstoned after a failed remote deletion, a
bulk deletion keeps `a`, and a confirmed reset empties the set and the storage
entry without a request. -/
theorem tombstones_only_cleared_by_reset_witness :
    "a" ∈ (handleDeleteAllImages true firstFails "test-user"
      (handleDeleteImage (.httpError 500) "a" sampleClient)).1.deletedImageIds ∧
    (handleStartFresh true
      (handleDeleteImage (.httpError 500) "a" sampleClient)).1.deletedImageIds = [] ∧
    (handleStartFresh true
      (handleDeleteImage (.httpError 500) "a" sampleClient)).1.persisted = none ∧
    (handleStartFresh true (handleDeleteImage (.httpError 500) "a" sampleClient)).2 = [] :=
  ⟨(tombstones_only_cleared_by_reset
      (handleDeleteImage (.httpError 500) "a" sampleClient)).2.1 true firstFails "test-user"
      (by decide),
    (tombstones_only_cleared_by_reset
      (handleDeleteImage (.httpError 500) "a" sampleClient)).2.2.2.2.1,
    (tombstones_only_cleared_by_reset
      (handleDeleteImage (.httpError 500) "a" sampleClient)).2.2.2.2.2.1,
    (tombstones_only_cleared_by_reset
      (handleDeleteImage (.httpError 500) "a" sampleClient)).2.2.2.2.2.2.2.1⟩

/-- C23: when the two visible lists hold `n > 0` images in total, a confirmed
`handleDeleteAllImages` sends one delete request per image, in the order
accepted then rejected, whatever the outcomes of the earlier requests; every
one of the `n` ids is in the tombstone set afterwards and nothing leaves it;
both lists are empty; and the message reports `successCount` and `errorCount`
with `successCount + errorCount = n`, `errorCount` being the number of
requests that threw. -/
theorem handleDeleteAllImages_spec (outcome : Nat → DeleteOutcome) (userId : String)
    (st : ClientState) (n : Nat)
    (hn : (st.acceptedImages ++ st.rejectedImages).length = n) (hpos : n > 0) :
    (handleDeleteAllImages true outcome userId st).2 =
      (st.acceptedImages ++ st.rejectedImages).map
        (fun img => Request.deleteImage img.id userId) ∧
    (∀ img ∈ st.acceptedImages ++ st.rejectedImages,
      img.id ∈ (handleDeleteAllImages true outcome userId st).1.deletedImageIds) ∧
    st.deletedImageIds ⊆ (handleDeleteAllImages true outcome userId st).1.deletedImageIds ∧
    (handleDeleteAllImages true outcome userId st).1.acceptedImages = [] ∧
    (handleDeleteAllImages true outcome userId st).1.rejectedImages = [] ∧
    (handleDeleteAllImages true outcome userId st).1.isLoading = false ∧
    ∃ successCount errorCount : Nat,
      (handleDeleteAllImages true outcome userId st).1.success =
        some (deletedAllMessage successCount errorCount) ∧
      successCount + errorCount = n ∧
      errorCount = ((List.range n).filter fun i => (outcome i).threw).length := by
  have hne : (st.acceptedImages ++ st.rejectedImages).length ≠ 0 := by omega
  obtain ⟨h1, h2, h3, h4⟩ := deleteAllLoop_spec outcome userId
    (st.acceptedImages ++ st.rejectedImages) 0
    { deletedImageIds := st.deletedImageIds, successCount := 0, errorCount := 0, requests := [] }
  rw [handleDeleteAllImages_run outcome userId st hne]
  refine ⟨?_, ?_, ?_, rfl, rfl, rfl, _, _, rfl, ?_, ?_⟩
  · rw [h2]; simp
  · intro img himg
    exact (h1 img.id).mpr (Or.inr ⟨img, himg, rfl⟩)
  · intro x hx
    exact (h1 x).mpr (Or.inl hx)
  · rw [h3, h4, hn]
    simp only [Nat.zero_add]
    have hsplit : ∀ l : List Nat,
        (l.filter fun j => !(outcome j).threw).length +
          (l.filter fun j => (outcome j).threw).length = l.length := by
      intro l
      induction l with
      | nil => rfl
      | cons a t ih =>
        rw [List.filter_cons, List.filter_cons]
        by_cases ht : (outcome a).threw = true
        · simp [ht]; omega
        · simp [ht]; omega
    rw [hsplit, List.length_range']
  · rw [h4, hn]
    simp only [Nat.zero_add]
    rw [List.range_eq_range']

/-- Witness for C23: with `a` accepted and `b` rejected on screen and the
first remote deletion failing with 500, both requests are sent, both ids are
tombstoned, both lists are empty, and the message counts one success and one
failure. -/
theorem handleDeleteAllImages_spec_witness :
    (handleDeleteAllImages true firstFails "test-user" sampleClient).2 =
      [Request.deleteImage "a" "test-user", Request.deleteImage "b" "test-user"] ∧
    (handleDeleteAllImages true firstFails "test-user" sampleClient).1.deletedImageIds =
      ["a", "b"] ∧
    (handleDeleteAllImages true firstFails "test-user" sampleClient).1.acceptedImages = [] ∧
    (handleDeleteAllImages true firstFails "test-user" sampleClient).1.rejectedImages = [] ∧
    (handleDeleteAllImages true firstFails "test-user" sampleClient).1.success =
      some "Deleted 1 images successfully (1 failed but were removed locally)." :=
  ⟨(handleDeleteAllImages_spec firstFails "test-user" sampleClient 2 rfl (by decide)).1,
    by decide,
    (handleDeleteAllImages_spec firstFails "test-user" sampleClient 2 rfl (by decide)).2.2.2.1,
    (handleDeleteAllImages_spec firstFails "test-user" sampleClient 2 rfl
      (by decide)).2.2.2.2.1,
    by decide⟩

/-! ## Normalization, stored objects and the format check (claims C24 to C27) -/

theorem processImage_transcoded (env : Env) (buffer : Buffer) (originalName : String)
    (jpeg : Buffer) (md : Metadata)
    (hext : toLowerCase (extname originalName) = ".heic" ∨
      toLowerCase (extname originalName) = ".heif")
    (hj : env.sharpJpeg buffer = .ok jpeg) (hm : env.sharpMetadata jpeg = .ok md) :
    processImage env buffer originalName =
      .ok { processedBuffer := jpeg, metadata := { md with format := "jpeg" },
            width := md.width, height := md.height, format := "jpeg" } := by
  unfold processImage
  simp only [if_pos hext, hj, hm]

theorem processImage_passthrough (env : Env) (buffer : Buffer) (originalName : String)
    (md : Metadata)
    (hext : ¬ (toLowerCase (extname originalName) = ".heic" ∨
      toLowerCase (extname originalName) = ".heif"))
    (hm : env.sharpMetadata buffer = .ok md) :
    processImage env buffer originalName =
      .ok { processedBuffer := buffer, metadata := md, width := md.width, height := md.height,
            format := md.format } := by
  unfold processImage
  simp only [if_neg hext, hm]

theorem processImage_ok_inv (env : Env) (buffer : Buffer) (originalName : String)
    (img : ProcessedImage) (h : processImage env buffer originalName = .ok img) :
    ((toLowerCase (extname originalName) = ".heic" ∨
        toLowerCase (extname originalName) = ".heif") →
      ∃ md, env.sharpJpeg buffer = .ok img.processedBuffer ∧
        env.sharpMetadata img.processedBuffer = .ok md ∧
        img = { processedBuffer := img.processedBuffer, metadata := { md with format := "jpeg" },
                width := md.width, height := md.height, format := "jpeg" }) ∧
    (¬ (toLowerCase (extname originalName) = ".heic" ∨
        toLowerCase (extname originalName) = ".heif") →
      img.processedBuffer = buffer ∧ env.sharpMetadata buffer = .ok img.metadata ∧
        img.width = img.metadata.width ∧ img.height = img.metadata.height ∧
        img.format = img.metadata.format) := by
  constructor
  · intro hext
    cases hj : env.sharpJpeg buffer with
    | error e =>
      unfold processImage at h
      simp [if_pos hext, hj] at h
    | ok jpeg =>
      cases hm : env.sharpMetadata jpeg with
      | error e =>
        unfold processImage at h
        simp [if_pos hext, hj, hm] at h
      | ok md =>
        rw [processImage_transcoded env buffer originalName jpeg md hext hj hm] at h
        have himg := Except.ok.inj h
        subst himg
        exact ⟨md, rfl, hm, rfl⟩
  · intro hext
    cases hm : env.sharpMetadata buffer with
    | error e =>
      unfold processImage at h
      simp [if_neg hext, hm] at h
    | ok md =>
      rw [processImage_passthrough env buffer originalName md hext hm] at h
      have himg := Except.ok.inj h
      subst himg
      exact ⟨rfl, rfl, rfl, rfl, rfl⟩

/-- Counterexample for C24: an upload labelled `image/heic` whose name has no
HEIC extension is admitted by the upload middleware, and `processImage`, which
is given the bytes and the name only, returns its bytes unchanged with the
decoder's format `heif` instead of the transcoded JPEG. -/
theorem processImage_heic_mime_untranscoded_counterexample :
    heicLabelledFile.mimetype = "image/heic" ∧
    fileFilter defaultConfig heicLabelledFile = .ok heicLabelledFile ∧
    transcodingEnv.sharpJpeg heicLabelledFile.buffer = .ok [255, 216, 255] ∧
    processImage transcodingEnv heicLabelledFile.buffer heicLabelledFile.originalname =
      .ok { processedBuffer := [1, 2, 3]
            metadata := { width := 800, height := 600, format := "heif" }
            width := 800, height := 600, format := "heif" } := by
  refine ⟨rfl, rfl, rfl, ?_⟩
  rw [processImage_passthrough transcodingEnv heicLabelledFile.buffer
    heicLabelledFile.originalname { width := 800, height := 600, format := "heif" }
    (by decide) rfl]
  rfl

/-- C24 (amended): `processImage` looks at the file name only. For every
upload whose lower-cased extension is `.heic` or `.heif`, whatever its MIME
type, it returns the bytes transcoded to JPEG (the codec call with quality 90)
with format `jpeg` and the width and height the decoder reports for the
transcoded bytes; for every other upload it returns the input bytes unchanged
with the decoder's width, height and format; in both cases provided the codec
calls succeed, and when one of them throws `processImage` throws
`Failed to process image: ` followed by its message. -/
theorem processImage_by_extension (env : Env) (file : UploadedFile) :
    ((toLowerCase (extname file.originalname) = ".heic" ∨
        toLowerCase (extname file.originalname) = ".heif") →
      (∀ jpeg md, env.sharpJpeg file.buffer = .ok jpeg → env.sharpMetadata jpeg = .ok md →
        processImage env file.buffer file.originalname =
          .ok { processedBuffer := jpeg, metadata := { md with format := "jpeg" },
                width := md.width, height := md.height, format := "jpeg" }) ∧
      (∀ e, env.sharpJpeg file.buffer = .error e →
        processImage env file.buffer file.originalname =
          .error ("Failed to process image: " ++ e)) ∧
      (∀ jpeg e, env.sharpJpeg file.buffer = .ok jpeg → env.sharpMetadata jpeg = .error e →
        processImage env file.buffer file.originalname =
          .error ("Failed to process image: " ++ e))) ∧
    (¬ (toLowerCase (extname file.originalname) = ".heic" ∨
        toLowerCase (extname file.originalname) = ".heif") →
      (∀ md, env.sharpMetadata file.buffer = .ok md →
        processImage env file.buffer file.originalname =
          .ok { processedBuffer := file.buffer, metadata := md, width := md.width,
                height := md.height, format := md.format }) ∧
      (∀ e, env.sharpMetadata file.buffer = .error e →
        processImage env file.buffer file.originalname =
          .error ("Failed to process image: " ++ e))) := by
  constructor
  · intro hext
    refine ⟨fun jpeg md hj hm => processImage_transcoded env _ _ jpeg md hext hj hm, ?_, ?_⟩
    · intro e hj
      unfold processImage
      simp only [if_pos hext, hj]
    · intro jpeg e hj hm
      unfold processImage
      simp only [if_pos hext, hj, hm]
  · intro hext
    refine ⟨fun md hm => processImage_passthrough env _ _ md hext hm, ?_⟩
    intro e hm
    unfold processImage
    simp only [if_neg hext, hm]

/-- Witness for C24 (amended): `IMG_0001.HEIC` is transcoded, and the result
carries the transcoded bytes, format `jpeg` and the size of the JPEG. -/
theorem processImage_by_extension_witness :
    processImage transcodingEnv heicNamedFile.buffer heicNamedFile.originalname =
      .ok { processedBuffer := [255, 216, 255]
            metadata := { width := 800, height := 600, format := "jpeg" }
            width := 800, height := 600, format := "jpeg" } :=
  ((processImage_by_extension transcodingEnv heicNamedFile).1 (by decide)).1 [255, 216, 255]
    { width := 800, height := 600, format := "jpeg" } rfl rfl

theorem imageCreate_find_fresh (w : World) (env : Env) (data : CreateData)
    (hw : ∀ r ∈ w.images, r.id ≠ w.nextId) :
    (((w.imageCreate env data).1.emit .processImage).emit .detectFaces).imageFindUnique
      w.nextId = some (w.imageCreate env data).2 := by
  have hnone : w.images.find? (fun r => decide (r.id = w.nextId)) = none := by
    rw [List.find?_eq_none]
    intro r hr
    simpa using hw r hr
  simp only [World.imageFindUnique, World.imageCreate, World.emit, List.find?_append, hnone]
  simp

theorem processUpload_face_rejected_fresh (cfg : ImageValidation) (env : Env)
    (file : UploadedFile) (userId : String) (w : World) (img : ProcessedImage) (fr : FaceResults)
    (fv : ValidationResult) (hw : w.uniqueIds)
    (hp : processImage env file.buffer file.originalname = .ok img)
    (hd : detectFaces env img.processedBuffer = .ok fr)
    (hv : validateFaces cfg fr = .ok fv) (hvalid : fv.valid = false)
    (hu : env.s3Upload (uploadParams env img.processedBuffer file.originalname
      (storedContentType img.format file)) = .ok ()) :
    (processUpload cfg env file userId w).2 =
      .ok (faceRejectionData
        (uploadParams env img.processedBuffer file.originalname
          (storedContentType img.format file)).Key
        (env.s3GetSignedUrl (uploadParams env img.processedBuffer file.originalname
          (storedContentType img.format file)).Key) img fv
        (w.imageCreate env (provisionalData env file userId)).2) := by
  have hfind := imageCreate_find_fresh w env (provisionalData env file userId)
    (fun r hr => Nat.ne_of_lt (hw.2 r hr))
  rw [processUpload_gate_failed cfg env file userId w img fr fv hp hd hv hvalid,
    rejectByFace_outcome env file img fv w.nextId _ _ hu hfind]

/-- Counterexample for C25: an 800x600 JPEG without a face is decoded, stored
and finalized as REJECTED by the face gate; the returned record, which is the
stored one, has the decoded size but no `similarityHash`: the gate returns
before the hash is computed. -/
theorem processUpload_face_rejected_no_hash_counterexample :
    ∃ r : ImageRecord,
      (processUpload defaultConfig (sampleEnv [] 800 600 50) sampleFile "user-1"
        emptyWorld).2 = .ok r ∧
      (processUpload defaultConfig (sampleEnv [] 800 600 50) sampleFile "user-1"
        emptyWorld).1.imageFindUnique 1 = some r ∧
      r.status = .REJECTED ∧ r.rejectionReason = some "No faces detected in the image" ∧
      r.width = some 800 ∧ r.height = some 600 ∧ r.similarityHash = none := by
  have hret := processUpload_face_rejected_fresh defaultConfig (sampleEnv [] 800 600 50)
    sampleFile "user-1" emptyWorld (sampleImage 800 600) (toFaceResults (· * ·) [])
    (rejected "No faces detected in the image") ⟨by simp [emptyWorld], by simp [emptyWorld]⟩
    (sample_processImage _ _ _ _) rfl rfl rfl rfl
  obtain ⟨r0, r, -, hr, hret2, hfind, -, -⟩ := processUpload_face_rejected defaultConfig
    (sampleEnv [] 800 600 50) sampleFile "user-1" emptyWorld (sampleImage 800 600)
    (toFaceResults (· * ·) []) (rejected "No faces detected in the image")
    (sample_processImage _ _ _ _) rfl rfl rfl rfl
  refine ⟨_, hret, ?_, rfl, rfl, rfl, rfl, rfl⟩
  rw [hret] at hret2
  rw [Except.ok.inj hret2]
  exact hfind

/-- C25 (amended): on a store with unique ids, every record that
`processUpload` returns was normalized and passed the face-detection call. If
it passed the face gate, whether it is then ACCEPTED or REJECTED by one of the
four validators, its `similarityHash` is the perceptual hash of the normalized
bytes; if the face gate rejected it, it is REJECTED with the face validator's
reason and has no `similarityHash`. A record whose normalization failed stays
PROCESSING without a `similarityHash`. -/
theorem processUpload_similarityHash (cfg : ImageValidation) (env : Env) (file : UploadedFile)
    (userId : String) (w : World) (hw : w.uniqueIds) :
    (∀ r, (processUpload cfg env file userId w).2 = .ok r →
      (processUpload cfg env file userId w).1.imageFindUnique w.nextId = some r ∧
      ∃ img fr fv, processImage env file.buffer file.originalname = .ok img ∧
        detectFaces env img.processedBuffer = .ok fr ∧ validateFaces cfg fr = .ok fv ∧
        (fv.valid = true →
          (r.status = .ACCEPTED ∨ r.status = .REJECTED) ∧
          r.similarityHash = some (env.generateSimilarityHash img.processedBuffer)) ∧
        (fv.valid = false →
          r.status = .REJECTED ∧ r.rejectionReason = fv.reason ∧ r.similarityHash = none)) ∧
    (∀ e, processImage env file.buffer file.originalname = .error e →
      ∃ prov : ImageRecord,
        (processUpload cfg env file userId w).1.images = w.images ++ [prov] ∧
        prov.status = .PROCESSING ∧ prov.similarityHash = none) := by
  constructor
  · intro r hr
    obtain ⟨img, fr, fv, hp, hd, hv, hu⟩ := processUpload_ok_inv cfg env file userId w r hr
    cases hvalid : fv.valid with
    | true =>
      obtain ⟨r0, r', -, hr', hret, hfind, -, -⟩ :=
        processUpload_validated cfg env file userId w img fr fv hp hd hv hvalid hu
      rw [hr] at hret
      have hrr := Except.ok.inj hret
      refine ⟨by rw [hfind, hrr], img, fr, fv, hp, hd, hv, ?_, ?_⟩
      · intro _
        rw [hrr, hr']
        refine ⟨?_, rfl⟩
        simp only [finalData, verdict]
        split
        · exact Or.inr rfl
        · exact Or.inl rfl
      · intro h
        exact absurd (h.symm.trans hvalid) (by decide)
    | false =>
      obtain ⟨r0, r', -, -, hret, hfind, -, -⟩ :=
        processUpload_face_rejected cfg env file userId w img fr fv hp hd hv hvalid hu
      have hret2 := processUpload_face_rejected_fresh cfg env file userId w img fr fv hw hp hd hv
        hvalid hu
      rw [hr] at hret
      have hrr := Except.ok.inj hret
      rw [hr] at hret2
      have hrr2 := Except.ok.inj hret2
      refine ⟨by rw [hfind, hrr], img, fr, fv, hp, hd, hv, ?_, ?_⟩
      · intro h
        exact absurd (h.symm.trans hvalid) (by decide)
      · intro _
        rw [hrr2]
        exact ⟨rfl, rfl, rfl⟩
  · intro e he
    obtain ⟨-, himg, -⟩ := processUpload_failure cfg env file userId w e (Or.inl he)
    exact ⟨_, himg, rfl, rfl⟩

/-- Witness for C25 (amended): a sharp 800x600 portrait with one face is
returned with the hash of its bytes. -/
theorem processUpload_similarityHash_witness :
    ∃ r, (processUpload defaultConfig (sampleEnv [fivePercentFace] 800 600 50) sampleFile
        "user-1" emptyWorld).2 = .ok r ∧
      r.similarityHash = some storedHash := by
  obtain ⟨r0, r, -, -, hret, -⟩ := processUpload_validated defaultConfig
    (sampleEnv [fivePercentFace] 800 600 50) sampleFile "user-1" emptyWorld (sampleImage 800 600)
    (toFaceResults (· * ·) [fivePercentFace]) passed (sample_processImage _ _ _ _) rfl
    sample_validateFaces_passed rfl rfl
  obtain ⟨-, img, fr, fv, hp, hd, hv, h1, -⟩ := (processUpload_similarityHash defaultConfig
    (sampleEnv [fivePercentFace] 800 600 50) sampleFile "user-1" emptyWorld
    ⟨by simp [emptyWorld], by simp [emptyWorld]⟩).1 r hret
  rw [sample_processImage] at hp
  have himg := Except.ok.inj hp
  subst himg
  have hfr : toFaceResults (· * ·) [fivePercentFace] = fr := Except.ok.inj hd
  subst hfr
  rw [sample_validateFaces_passed] at hv
  have hfv := Except.ok.inj hv
  subst hfv
  exact ⟨r, hret, (h1 rfl).2⟩

theorem ne_of_head (a b : String) (c d : Char) (ha : a.data.head? = some c)
    (hb : b.data.head? = some d) (hcd : c ≠ d) : a ≠ b := by
  intro e
  rw [e, hb] at ha
  exact hcd (Option.some.inj ha).symm

theorem head_append (a b : String) (c : Char) (ha : a.data.head? = some c) :
    (a ++ b).data.head? = some c := by
  rw [String.data_append]
  cases hd : a.data with
  | nil => rw [hd] at ha; cases ha
  | cons x xs =>
    rw [hd] at ha
    simpa using ha

/-- A reason that starts with a letter other than `U` is not the reason of the
format validator. -/
theorem reason_ne_unsupported (s : String) (c : Char) (hs : s.data.head? = some c)
    (hc : c ≠ 'U') :
    some s ≠ some "Unsupported file format. Allowed types: JPG, PNG, HEIC" := by
  intro e
  exact ne_of_head s "Unsupported file format. Allowed types: JPG, PNG, HEIC" c 'U' hs rfl hc
    (Option.some.inj e)

theorem validateDimensions_reason (cfg : ImageValidation) (width height : Int) :
    (validateDimensions cfg width height).reason ≠
      some "Unsupported file format. Allowed types: JPG, PNG, HEIC" := by
  unfold validateDimensions
  split_ifs
  · apply reason_ne_unsupported _ 'I' _ (by decide)
    unfold tooSmallReason
    repeat apply head_append
    rfl
  · apply reason_ne_unsupported _ 'I' _ (by decide)
    unfold tooLargeReason
    repeat apply head_append
    rfl
  · simp [passed]
  · simp [passed]

theorem similarityLoop_reason (cfg : ImageValidation) (hash : String) :
    ∀ l : List ImageRecord, (similarityLoop cfg hash l).reason ≠
      some "Unsupported file format. Allowed types: JPG, PNG, HEIC" := by
  intro l
  induction l with
  | nil => simp [similarityLoop, passed]
  | cons image rest ih =>
    rw [similarityLoop]
    by_cases h1 : falsyString image.similarityHash = true
    · rw [if_pos h1]
      exact ih
    · rw [if_neg h1]
      simp only
      split_ifs
      · apply reason_ne_unsupported _ 'I' _ (by decide)
        unfold tooSimilarReason
        repeat apply head_append
        rfl
      · exact ih

theorem validateSimilarity_reason (cfg : ImageValidation) (w : World) (hash : String)
    (buffer : Buffer) (userId : String) :
    (validateSimilarity cfg w hash buffer userId).2.reason ≠
      some "Unsupported file format. Allowed types: JPG, PNG, HEIC" := by
  unfold validateSimilarity
  simp only
  split_ifs
  · simp [passed]
  · exact similarityLoop_reason cfg hash _

theorem validateSharpness_reason (cfg : ImageValidation) (blurValue : ℚ) :
    (validateSharpness cfg blurValue).reason ≠
      some "Unsupported file format. Allowed types: JPG, PNG, HEIC" := by
  unfold validateSharpness
  simp only
  split_ifs
  · simp
  · apply reason_ne_unsupported _ 'I' _ (by decide)
    repeat apply head_append
    rfl

theorem validateFaces_reason (cfg : ImageValidation) (fr : FaceResults) (fv : ValidationResult)
    (h : validateFaces cfg fr = .ok fv) :
    fv.reason ≠ some "Unsupported file format. Allowed types: JPG, PNG, HEIC" := by
  unfold validateFaces at h
  split_ifs at h
  · rw [← Except.ok.inj h]
    exact reason_ne_unsupported _ 'N' rfl (by decide)
  · rw [← Except.ok.inj h]
    apply reason_ne_unsupported _ 'M' _ (by decide)
    repeat apply head_append
    rfl
  · cases hf : fr.faces.head? with
    | none => simp [hf] at h
    | some face =>
      simp only [hf] at h
      split_ifs at h
      · rw [← Except.ok.inj h]
        apply reason_ne_unsupported _ 'F' _ (by decide)
        unfold faceTooSmallReason
        repeat apply head_append
        rfl
      · rw [← Except.ok.inj h]
        simp [passed]

theorem fileFilter_cases (cfg : ImageValidation) (file file' : UploadedFile)
    (h : fileFilter cfg file = .ok file') :
    (file.mimetype ∈ cfg.allowedTypes ∧ file' = file) ∨
    (file.mimetype ∉ cfg.allowedTypes ∧
      (toLowerCase (extname file.originalname) = ".heic" ∨
        toLowerCase (extname file.originalname) = ".heif") ∧
      file' = { file with mimetype := "image/heic" }) ∨
    (file.mimetype ∉ cfg.allowedTypes ∧
      (toLowerCase (extname file.originalname) = ".jpg" ∨
        toLowerCase (extname file.originalname) = ".jpeg") ∧
      file' = { file with mimetype := "image/jpeg" }) ∨
    (file.mimetype ∉ cfg.allowedTypes ∧ toLowerCase (extname file.originalname) = ".png" ∧
      file' = { file with mimetype := "image/png" }) := by
  unfold fileFilter at h
  by_cases h1 : cfg.allowedTypes.contains file.mimetype = true
  · rw [if_pos h1] at h
    exact Or.inl ⟨by simpa using h1, (Except.ok.inj h).symm⟩
  · rw [if_neg h1] at h
    have hmem : file.mimetype ∉ cfg.allowedTypes := by simpa using h1
    simp only at h
    split_ifs at h with h2 h3 h4
    · exact Or.inr (Or.inl ⟨hmem, h2, (Except.ok.inj h).symm⟩)
    · exact Or.inr (Or.inr (Or.inl ⟨hmem, h3, (Except.ok.inj h).symm⟩))
    · exact Or.inr (Or.inr (Or.inr ⟨hmem, h4, (Except.ok.inj h).symm⟩))

/-- C26: every file that `fileFilter` admits under the repository's
configuration keeps its name and bytes, and `validateFormat` applied to its
resulting MIME type (rewritten or not) and its name returns valid; hence no
record `processUpload` returns for such a file carries the reason
`Unsupported file format. Allowed types: JPG, PNG, HEIC`. -/
theorem fileFilter_admitted_format_valid (file file' : UploadedFile)
    (h : fileFilter defaultConfig file = .ok file') :
    file'.originalname = file.originalname ∧ file'.buffer = file.buffer ∧
    validateFormat defaultConfig file'.mimetype file'.originalname = passed ∧
    ∀ (env : Env) (userId : String) (w : World) (r : ImageRecord),
      (processUpload defaultConfig env file' userId w).2 = .ok r →
        r.rejectionReason ≠ some "Unsupported file format. Allowed types: JPG, PNG, HEIC" := by
  have hname : file'.originalname = file.originalname ∧ file'.buffer = file.buffer := by
    rcases fileFilter_cases defaultConfig file file' h with
      ⟨-, e⟩ | ⟨-, -, e⟩ | ⟨-, -, e⟩ | ⟨-, -, e⟩ <;> rw [e] <;> exact ⟨rfl, rfl⟩
  have hvalid : (validateFormat defaultConfig file'.mimetype file'.originalname).valid = true := by
    rw [validateFormat_valid_iff_general]
    rcases fileFilter_cases defaultConfig file file' h with
      ⟨hm, e⟩ | ⟨-, hext, e⟩ | ⟨-, -, e⟩ | ⟨-, -, e⟩
    · rw [e]; exact Or.inl hm
    · rw [e]; exact Or.inr hext
    · rw [e]
      left
      show "image/jpeg" ∈ defaultConfig.allowedTypes
      decide
    · rw [e]
      left
      show "image/png" ∈ defaultConfig.allowedTypes
      decide
  have hpassed : validateFormat defaultConfig file'.mimetype file'.originalname = passed := by
    rcases validateFormat_cases defaultConfig file'.mimetype file'.originalname with hp | hp
    · exact hp
    · rw [hp] at hvalid
      cases hvalid
  refine ⟨hname.1, hname.2, hpassed, ?_⟩
  intro env userId w r hr
  obtain ⟨img, fr, fv, hp, hd, hv, hu⟩ := processUpload_ok_inv defaultConfig env file' userId w r hr
  cases hfv : fv.valid with
  | false =>
    obtain ⟨r0, r', -, hr', hret, -⟩ :=
      processUpload_face_rejected defaultConfig env file' userId w img fr fv hp hd hv hfv hu
    rw [hr] at hret
    rw [Except.ok.inj hret, hr']
    exact validateFaces_reason defaultConfig fr fv hv
  | true =>
    obtain ⟨r0, r', -, hr', hret, -⟩ :=
      processUpload_validated defaultConfig env file' userId w img fr fv hp hd hv hfv hu
    rw [hr] at hret
    rw [Except.ok.inj hret, hr']
    simp only [finalData]
    rw [runValidations_snd, hpassed]
    obtain ⟨-, v2, v3, v4, v5⟩ := verdict_four passed
      (validateDimensions defaultConfig img.width img.height)
      (validateSimilarity defaultConfig w (env.generateSimilarityHash img.processedBuffer)
        img.processedBuffer userId).2
      (validateSharpness defaultConfig (env.detectBlurriness img.processedBuffer))
    cases hb : (validateDimensions defaultConfig img.width img.height).valid with
    | false =>
      rw [v2 rfl hb]
      exact validateDimensions_reason _ _ _
    | true =>
      cases hc : (validateSimilarity defaultConfig w
          (env.generateSimilarityHash img.processedBuffer) img.processedBuffer userId).2.valid with
      | false =>
        rw [v3 rfl hb hc]
        exact validateSimilarity_reason _ _ _ _ _
      | true =>
        cases hd' : (validateSharpness defaultConfig
            (env.detectBlurriness img.processedBuffer)).valid with
        | false =>
          rw [v4 rfl hb hc hd']
          exact validateSharpness_reason _ _
        | true =>
          rw [v5 rfl hb hc hd']
          simp

/-- Witness for C26: `scan.PNG`, labelled `application/octet-stream`, is
admitted as `image/png`, and the format validator accepts the result. -/
theorem fileFilter_admitted_format_valid_witness :
    fileFilter defaultConfig mislabelledPng = .ok { mislabelledPng with mimetype := "image/png" } ∧
    validateFormat defaultConfig "image/png" "scan.PNG" = passed :=
  ⟨rfl, (fileFilter_admitted_format_valid mislabelledPng
    { mislabelledPng with mimetype := "image/png" } rfl).2.2.1⟩

/-- C27 (what the code does): for every upload `processUpload` returns a
record for, the object it stored holds the bytes `processImage` returned under
the content type `format === 'heic' ? 'image/jpeg' : file.mimetype`, where
`format` is the one `processImage` returned. For a name ending in `.heic` or
`.heif` the bytes are the transcoded JPEG and `format` is `jpeg`, so the
content type is the file's own MIME type, not `image/jpeg`; for any other name
the bytes are the input and the content type is the file's MIME type unless
the decoder reports the format `heic`. -/
theorem processUpload_stored_object (cfg : ImageValidation) (env : Env) (file : UploadedFile)
    (userId : String) (w : World) (r : ImageRecord)
    (h : (processUpload cfg env file userId w).2 = .ok r) :
    ∃ img, processImage env file.buffer file.originalname = .ok img ∧
      (processUpload cfg env file userId w).1.bucket =
        w.bucket ++ [{ Key := "uploads/" ++ env.uuidv4 ++ "-" ++ file.originalname
                       Body := img.processedBuffer
                       ContentType := storedContentType img.format file }] ∧
      ((toLowerCase (extname file.originalname) = ".heic" ∨
          toLowerCase (extname file.originalname) = ".heif") →
        env.sharpJpeg file.buffer = .ok img.processedBuffer ∧ img.format = "jpeg" ∧
          storedContentType img.format file = file.mimetype) ∧
      (¬ (toLowerCase (extname file.originalname) = ".heic" ∨
          toLowerCase (extname file.originalname) = ".heif") →
        img.processedBuffer = file.buffer ∧
          env.sharpMetadata file.buffer = .ok img.metadata ∧
          storedContentType img.format file =
            if img.metadata.format = "heic" then "image/jpeg" else file.mimetype) := by
  obtain ⟨img, fr, fv, hp, hd, hv, hu⟩ := processUpload_ok_inv cfg env file userId w r h
  obtain ⟨i1, i2⟩ := processImage_ok_inv env file.buffer file.originalname img hp
  have hbucket : (processUpload cfg env file userId w).1.bucket =
      w.bucket ++ [uploadParams env img.processedBuffer file.originalname
        (storedContentType img.format file)] := by
    cases hfv : fv.valid with
    | false =>
      exact (processUpload_face_rejected cfg env file userId w img fr fv hp hd hv hfv
        hu).choose_spec.choose_spec.2.2.2.2.1
    | true =>
      exact (processUpload_validated cfg env file userId w img fr fv hp hd hv hfv
        hu).choose_spec.choose_spec.2.2.2.2.1
  refine ⟨img, hp, hbucket, ?_, ?_⟩
  · intro hext
    obtain ⟨md, hj, -, himg⟩ := i1 hext
    have hf : img.format = "jpeg" := by rw [himg]
    refine ⟨hj, hf, ?_⟩
    unfold storedContentType
    rw [hf, if_neg (by decide)]
  · intro hext
    obtain ⟨hb, hm, -, -, hf⟩ := i2 hext
    refine ⟨hb, hm, ?_⟩
    unfold storedContentType
    rw [hf]

/-- Witness for C27: `IMG_0001.HEIC`, labelled `image/heic`, is transcoded to
the JPEG bytes 255, 216, 255, and these are stored under the content type
`image/heic`. -/
theorem processUpload_stored_object_witness :
    (processUpload defaultConfig transcodingEnv heicNamedFile "user-1" emptyWorld).1.bucket =
      [{ Key := "uploads/8c2f-IMG_0001.HEIC", Body := [255, 216, 255],
         ContentType := "image/heic" }] := by
  have hp : processImage transcodingEnv heicNamedFile.buffer heicNamedFile.originalname =
      .ok { processedBuffer := [255, 216, 255]
            metadata := { width := 800, height := 600, format := "jpeg" }
            width := 800, height := 600, format := "jpeg" } :=
    processImage_transcoded transcodingEnv _ _ [255, 216, 255]
      { width := 800, height := 600, format := "jpeg" } (by decide) rfl rfl
  obtain ⟨r0, r, -, -, hret, -⟩ := processUpload_validated defaultConfig transcodingEnv
    heicNamedFile "user-1" emptyWorld _ (toFaceResults (· * ·) [fivePercentFace]) passed hp rfl
    sample_validateFaces_passed rfl rfl
  obtain ⟨img, hp', hbucket, -, -⟩ := processUpload_stored_object defaultConfig transcodingEnv
    heicNamedFile "user-1" emptyWorld r hret
  rw [hp] at hp'
  have himg := Except.ok.inj hp'
  subst himg
  rw [hbucket]
  decide

/-! ## URL refresh (claim C30) -/

/-- C30 (what the code does): `ImageItem` calls `getImageUrl(image.id)` without
a user, so the request carries the default `demo-user`. For every image of the
user `test-user` that `App` mounts the component for, the server's ownership
check fails: the answer is 404 `Image not found or unauthorized`, the displayed
source stays as it was, and no fresh URL is obtained; the same request made
with the owner is answered with a fresh signed URL. -/
theorem handleImageError_demo_user (env : Env) (w : World) (idOf : String → Nat)
    (image : ClientImage) (st : ImageItemState) (r : ImageRecord)
    (hst : st.isLoading = false) (hid : image.id ≠ "")
    (hfind : w.imageFindUnique (idOf image.id) = some r) (howner : r.userId = appUserId) :
    handleImageError (fun imageId userId => controllerGetImageUrl env w (idOf imageId)
        (some userId)) image st =
      ({ st with isLoading := false }, [Request.getImageUrl image.id "demo-user"]) ∧
    controllerGetImageUrl env w (idOf image.id) (some "demo-user") =
      { status := 404, success := false, message := some "Image not found or unauthorized",
        url := none, expiresIn := none } ∧
    controllerGetImageUrl env w (idOf image.id) (some appUserId) =
      { status := 200, success := true, message := none,
        url := some (getSignedUrl env r.s3Key), expiresIn := some "24 hours" } := by
  have h404 : controllerGetImageUrl env w (idOf image.id) (some "demo-user") =
      { status := 404, success := false, message := some "Image not found or unauthorized",
        url := none, expiresIn := none } := by
    unfold controllerGetImageUrl
    simp only [hfind]
    rw [if_pos]
    rw [howner]
    decide
  refine ⟨?_, h404, ?_⟩
  · unfold handleImageError
    rw [if_neg (by simp [hst, hid])]
    unfold apiGetImageUrl
    simp only [Option.getD_none, h404]
    rfl
  · unfold controllerGetImageUrl
    simp only [hfind]
    rw [if_neg]
    rw [howner]
    decide

/-- Witness for C30: image 1 of `test-user` fails to load; the refresh request
goes out for `demo-user` and is answered with 404. -/
theorem handleImageError_demo_user_witness :
    handleImageError
        (fun imageId userId => controllerGetImageUrl (sampleEnv [] 800 600 50) appUserWorld
          (decimalId imageId) (some userId))
        { id := "1", status := .ACCEPTED, s3Url := "https://bucket.example/expired" }
        { imgSrc := "https://bucket.example/expired", isLoading := false } =
      ({ imgSrc := "https://bucket.example/expired", isLoading := false },
        [Request.getImageUrl "1" "demo-user"]) ∧
    controllerGetImageUrl (sampleEnv [] 800 600 50) appUserWorld 1 (some "demo-user") =
      { status := 404, success := false, message := some "Image not found or unauthorized",
        url := none, expiresIn := none } :=
  ⟨(handleImageError_demo_user (sampleEnv [] 800 600 50) appUserWorld decimalId
      { id := "1", status := .ACCEPTED, s3Url := "https://bucket.example/expired" }
      { imgSrc := "https://bucket.example/expired", isLoading := false }
      (acceptedRecord 1 "test-user" storedHash) rfl (by decide) (by decide) rfl).1,
    by decide⟩

/-! ## The loops of `detectBlurriness` (claims C28 and C29) -/

theorem mem_innerRange (n v : Nat) : v ∈ innerRange n ↔ 2 ≤ v ∧ v + 2 < n := by
  unfold innerRange
  rw [List.mem_range'_1]
  omega

theorem pixelAt_isSome (pixels : List Nat) (i : Int) (h0 : 0 ≤ i)
    (h1 : i < (pixels.length : Int)) : (pixelAt pixels i).isSome = true := by
  obtain ⟨n, rfl⟩ := Int.eq_ofNat_of_zero_le h0
  rw [pixelAt_inside pixels n (by omega)]
  rfl

/-- The value `laplacian` is a number exactly when all five reads are inside
the array. -/
theorem laplacianAt_isSome_iff (pixels : List Nat) (width : Nat) (idx : Int) :
    (laplacianAt pixels width idx).isSome = true ↔
      ∀ i ∈ readIndices width idx, (pixelAt pixels i).isSome = true := by
  unfold laplacianAt readIndices
  cases h0 : pixelAt pixels idx <;> cases h1 : pixelAt pixels (idx - width) <;>
    cases h2 : pixelAt pixels (idx + width) <;> cases h3 : pixelAt pixels (idx - 1) <;>
    cases h4 : pixelAt pixels (idx + 1) <;> simp [h0, h1, h2, h3, h4]

theorem interior_reads_in_bounds (w h x y : Nat) (hx : 2 ≤ x) (hx2 : x + 2 < w) (hy : 2 ≤ y)
    (hy2 : y + 2 < h) :
    ∀ i ∈ readIndices w ((y : Int) * (w : Int) + (x : Int)),
      0 ≤ i ∧ i < ((w * h : Nat) : Int) := by
  have h1 : 2 * w ≤ y * w := Nat.mul_le_mul_right w hy
  have h2 : y * w + 3 * w ≤ w * h := by
    have := Nat.mul_le_mul_right w (show y + 3 ≤ h by omega)
    rw [Nat.add_mul] at this
    rw [Nat.mul_comm w h]
    exact this
  have c1 : ((y * w : Nat) : Int) = (y : Int) * (w : Int) := by push_cast; ring
  have c2 : ((w * h : Nat) : Int) = (w : Int) * (h : Int) := by push_cast; ring
  have h1' : 2 * (w : Int) ≤ (y : Int) * (w : Int) := by rw [← c1]; exact_mod_cast h1
  have h2' : (y : Int) * (w : Int) + 3 * (w : Int) ≤ ((w * h : Nat) : Int) := by
    rw [← c1]; exact_mod_cast h2
  have hx' : (2 : Int) ≤ (x : Int) := by exact_mod_cast hx
  have hx2' : (x : Int) + 2 < (w : Int) := by exact_mod_cast hx2
  intro i hi
  simp only [readIndices, List.mem_cons, List.mem_singleton, List.not_mem_nil, or_false] at hi
  rcases hi with rfl | rfl | rfl | rfl | rfl <;> constructor <;> linarith

theorem blurLoops_small (pixels : List Nat) (w h : Nat) (hs : w < 5 ∨ h < 5) :
    blurLoops pixels w h = { laplacianSum := some 0, validPixels := 0 } := by
  unfold blurLoops
  rcases hs with hw | hh
  · have hin : innerRange w = [] := by
      unfold innerRange
      have : w - 4 = 0 := by omega
      rw [this]
      rfl
    rw [hin]
    generalize innerRange h = ys
    induction ys with
    | nil => rfl
    | cons y rest ih => rw [List.foldl_cons]; exact ih
  · have hin : innerRange h = [] := by
      unfold innerRange
      have : h - 4 = 0 := by omega
      rw [this]
      rfl
    rw [hin]
    rfl

theorem detectBlurriness_no_interior (codec : PixelCodec) (buffer : Buffer) (raw : RawImage)
    (hdec : codec.greyscaleRaw buffer = .ok raw)
    (hacc : blurLoops raw.data raw.width raw.height = { laplacianSum := some 0, validPixels := 0 }) :
    detectBlurriness codec buffer = some 0 := by
  unfold detectBlurriness
  simp only [hdec, hacc]
  simp

theorem getD_uniform (data : List Nat) (c n : Nat) (hall : ∀ p ∈ data, p = c)
    (hn : n < data.length) : data.getD n 0 = c := by
  rw [List.getD_eq_getElem _ _ hn]
  exact hall _ (List.getElem_mem _)

theorem laplacianSpec_uniform (data : List Nat) (w h c x y : Nat)
    (hlen : data.length = w * h) (hall : ∀ p ∈ data, p = c)
    (hx : 2 ≤ x) (hx2 : x + 2 < w) (hy : 2 ≤ y) (hy2 : y + 2 < h) :
    laplacianSpec data w x y = 0 := by
  obtain ⟨k, rfl⟩ : ∃ k, y = k + 2 := ⟨y - 2, by omega⟩
  obtain ⟨j, rfl⟩ : ∃ j, x = j + 2 := ⟨x - 2, by omega⟩
  have hrow : (k + 2 + 2) * w ≤ h * w := Nat.mul_le_mul_right w (by omega)
  have e0 : (k + 2 + 2) * w = (k + 2) * w + w + w := by ring
  have e1 : (k + 2 + 1) * w = (k + 2) * w + w := by ring
  have e2 : (k + 2) * w = (k + 2 - 1) * w + w := by
    have : k + 2 - 1 = k + 1 := by omega
    rw [this]; ring
  have hwh : w * h = h * w := Nat.mul_comm _ _
  unfold laplacianSpec pixelValue
  rw [getD_uniform data c _ hall (by omega), getD_uniform data c _ hall (by omega),
    getD_uniform data c _ hall (by omega), getD_uniform data c _ hall (by omega),
    getD_uniform data c _ hall (by omega)]
  have : (4 : ℚ) * (c : ℚ) - c - c - c - c = 0 := by ring
  rw [this, abs_zero]

theorem meanLaplacianSpec_uniform (data : List Nat) (w h c : Nat)
    (hlen : data.length = w * h) (hall : ∀ p ∈ data, p = c) :
    meanLaplacianSpec data w h = 0 := by
  unfold meanLaplacianSpec
  split_ifs
  · rfl
  · rw [Finset.sum_eq_zero, zero_div]
    intro q hq
    simp only [interiorPixels, Finset.mem_product, Finset.mem_Ico] at hq
    exact laplacianSpec_uniform data w h c q.1 q.2 hlen hall (by omega) (by omega) (by omega)
      (by omega)

/-- C28: for a single-channel buffer of length `w * h`, every index the loops
of `detectBlurriness` read (`idx`, `idx - width`, `idx + width`, `idx - 1`,
`idx + 1`, over all rows and columns the loops visit) lies in `[0, w * h)` and
yields a number; the loops, which run over finitely many rows and columns, end
with a sum that is a number and with `validPixels` equal to
`max(0, w - 4) * max(0, h - 4)`, which is positive exactly when `w > 4` and
`h > 4`; and the score is always a number, 0 when `validPixels` is 0, so that
the division only happens for a positive `validPixels`. -/
theorem detectBlurriness_reads_in_bounds (pixels : List Nat) (w h : Nat)
    (hlen : pixels.length = w * h) :
    (∀ y ∈ innerRange h, ∀ x ∈ innerRange w,
      (∀ i ∈ readIndices w ((y : Int) * (w : Int) + (x : Int)),
        0 ≤ i ∧ i < ((w * h : Nat) : Int) ∧ (pixelAt pixels i).isSome = true) ∧
      (laplacianAt pixels w ((y : Int) * (w : Int) + (x : Int))).isSome = true) ∧
    (blurLoops pixels w h).validPixels = (w - 4) * (h - 4) ∧
    ((blurLoops pixels w h).validPixels : Int) =
      max 0 ((w : Int) - 4) * max 0 ((h : Int) - 4) ∧
    (blurLoops pixels w h).laplacianSum.isSome = true ∧
    ((blurLoops pixels w h).validPixels > 0 ↔ 4 < w ∧ 4 < h) ∧
    ∀ (codec : PixelCodec) (buffer : Buffer),
      codec.greyscaleRaw buffer = .ok { data := pixels, width := w, height := h } →
        ∃ score : ℚ, detectBlurriness codec buffer = some score ∧
          ((blurLoops pixels w h).validPixels = 0 → score = 0) := by
  have hreads : ∀ y ∈ innerRange h, ∀ x ∈ innerRange w,
      ∀ i ∈ readIndices w ((y : Int) * (w : Int) + (x : Int)),
        0 ≤ i ∧ i < ((w * h : Nat) : Int) ∧ (pixelAt pixels i).isSome = true := by
    intro y hy x hx i hi
    rw [mem_innerRange] at hy hx
    obtain ⟨b1, b2⟩ := interior_reads_in_bounds w h x y hx.1 hx.2 hy.1 hy.2 i hi
    exact ⟨b1, b2, pixelAt_isSome pixels i b1 (by rw [hlen]; exact b2)⟩
  have hvalid : (blurLoops pixels w h).validPixels = (w - 4) * (h - 4) := by
    rw [blurLoops_eq pixels w h hlen]
    simp only
    rw [interiorPixels_card, Nat.mul_comm]
  have hpos : (blurLoops pixels w h).validPixels > 0 ↔ 4 < w ∧ 4 < h := by
    rw [hvalid]
    constructor
    · intro hp
      have h1 : w - 4 ≠ 0 := fun e => by rw [e, Nat.zero_mul] at hp; exact absurd hp (by decide)
      have h2 : h - 4 ≠ 0 := fun e => by rw [e, Nat.mul_zero] at hp; exact absurd hp (by decide)
      omega
    · rintro ⟨h1, h2⟩
      exact Nat.mul_pos (by omega) (by omega)
  refine ⟨fun y hy x hx => ⟨hreads y hy x hx, ?_⟩, hvalid, ?_, ?_, hpos, ?_⟩
  · rw [laplacianAt_isSome_iff]
    intro i hi
    exact (hreads y hy x hx i hi).2.2
  · rw [hvalid]
    push_cast
    have e1 : (((w - 4 : Nat) : Int)) = max 0 ((w : Int) - 4) := by omega
    have e2 : (((h - 4 : Nat) : Int)) = max 0 ((h : Int) - 4) := by omega
    rw [e1, e2]
  · rw [blurLoops_eq pixels w h hlen]
    rfl
  · intro codec buffer hdec
    have hd := detectBlurriness_eq codec buffer { data := pixels, width := w, height := h } hdec
      hlen
    refine ⟨_, hd, ?_⟩
    intro hzero
    have hempty : interiorPixels w h = ∅ := by
      rw [blurLoops_eq pixels w h hlen] at hzero
      exact Finset.card_eq_zero.mp hzero
    simp only [meanLaplacianSpec, if_pos hempty, zero_mul]

/-- Witness for C28: in the 5x5 sample the loops visit the centre only, all
five reads are inside the 25-byte buffer, and one pixel is accumulated. -/
theorem detectBlurriness_reads_in_bounds_witness :
    (∀ i ∈ readIndices 5 12, 0 ≤ i ∧ i < 25 ∧ (pixelAt fiveByFive.data i).isSome = true) ∧
    (blurLoops fiveByFive.data 5 5).validPixels = 1 :=
  ⟨fun i hi => ((detectBlurriness_reads_in_bounds fiveByFive.data 5 5 rfl).1 2 (by decide) 2
      (by decide)).1 i hi,
    (detectBlurriness_reads_in_bounds fiveByFive.data 5 5 rfl).2.1⟩

/-- C29: when decoding succeeds, `detectBlurriness` returns the score computed
from the pixels, the mean Laplacian times the normalization factor; this is
exactly 0 for every decoded image whose pixels all have the same intensity and
for every decoded image with width below 5 or height below 5, and
`validateSharpness` rejects the score 0 under every positive threshold, the
default 5 included. The constant 100 of the `catch` block is returned when
decoding throws. -/
theorem detectBlurriness_degenerate_zero (codec : PixelCodec) (buffer : Buffer) :
    (∀ raw c, codec.greyscaleRaw buffer = .ok raw →
      raw.data.length = raw.width * raw.height → (∀ p ∈ raw.data, p = c) →
      detectBlurriness codec buffer = some 0) ∧
    (∀ raw, codec.greyscaleRaw buffer = .ok raw → raw.width < 5 ∨ raw.height < 5 →
      detectBlurriness codec buffer = some 0) ∧
    (∀ cfg : ImageValidation, 0 < cfg.blurThreshold →
      (validateSharpness cfg 0).valid = false ∧ (validateSharpness cfg 0).reason ≠ none) ∧
    (validateSharpness defaultConfig 0).valid = false ∧
    (∀ e, codec.greyscaleRaw buffer = .error e → detectBlurriness codec buffer = some 100) ∧
    (∀ raw, codec.greyscaleRaw buffer = .ok raw →
      raw.data.length = raw.width * raw.height →
      detectBlurriness codec buffer =
        some (meanLaplacianSpec raw.data raw.width raw.height *
          max (1 / 2) (codec.sqrt ((raw.width : ℚ) * (raw.height : ℚ)) / 500))) := by
  have hrej : ∀ cfg : ImageValidation, 0 < cfg.blurThreshold →
      (validateSharpness cfg 0).valid = false ∧ (validateSharpness cfg 0).reason ≠ none := by
    intro cfg hcfg
    have hlt : (0 : ℚ) < (cfg.blurThreshold : ℚ) := by exact_mod_cast hcfg
    rw [validateSharpness_rejected cfg 0 hlt]
    exact ⟨rfl, by simp [rejected]⟩
  refine ⟨?_, ?_, hrej, (hrej defaultConfig (by decide)).1, ?_,
    fun raw hdec hlen => detectBlurriness_eq codec buffer raw hdec hlen⟩
  · intro raw c hdec hlen hall
    rw [detectBlurriness_eq codec buffer raw hdec hlen,
      meanLaplacianSpec_uniform raw.data raw.width raw.height c hlen hall, zero_mul]
  · intro raw hdec hs
    exact detectBlurriness_no_interior codec buffer raw hdec
      (blurLoops_small raw.data raw.width raw.height hs)
  · intro e hdec
    unfold detectBlurriness
    simp only [hdec]

/-- Witness for C29: a uniform 6x6 image and a 4x7 image both score 0, and a
buffer that cannot be decoded scores 100. -/
theorem detectBlurriness_degenerate_zero_witness :
    detectBlurriness (sampleCodec [] uniformSixBySix fun _ => 6) [1, 2, 3] = some 0 ∧
    detectBlurriness (sampleCodec [] fourBySeven fun _ => 5) [1, 2, 3] = some 0 ∧
    detectBlurriness brokenCodec [1, 2, 3] = some 100 :=
  ⟨(detectBlurriness_degenerate_zero (sampleCodec [] uniformSixBySix fun _ => 6) [1, 2, 3]).1
      uniformSixBySix 128 rfl rfl (fun p hp => List.eq_of_mem_replicate hp),
    (detectBlurriness_degenerate_zero (sampleCodec [] fourBySeven fun _ => 5) [1, 2, 3]).2.1
      fourBySeven rfl (Or.inl (by decide)),
    (detectBlurriness_degenerate_zero brokenCodec [1, 2, 3]).2.2.2.2.1 _ rfl⟩

/-! ## The face gate and the bucket (claim C3) -/

/-- Counterexample for C3: an upload without a face whose bytes the bucket
refuses. The face validation is invalid, yet nothing is stored and no record is
finalized as REJECTED: `processUpload` throws the storage error and the
provisional record stays PROCESSING. -/
theorem processUpload_face_gate_upload_fails_counterexample :
    validateFaces defaultConfig (toFaceResults (· * ·) []) =
      .ok (rejected "No faces detected in the image") ∧
    (processUpload defaultConfig storageDownEnv sampleFile "user-1" emptyWorld).2 =
      .error "AccessDenied" ∧
    (processUpload defaultConfig storageDownEnv sampleFile "user-1" emptyWorld).1.bucket = [] ∧
    ((processUpload defaultConfig storageDownEnv sampleFile "user-1" emptyWorld).1.images.map
      fun r => (r.id, r.status, r.rejectionReason)) = [(1, Status.PROCESSING, none)] := by
  have hp : processImage storageDownEnv sampleFile.buffer sampleFile.originalname =
      .ok (sampleImage 200 200) := by
    have hext : toLowerCase (extname sampleFile.originalname) = ".jpg" := by decide
    simp only [processImage, hext]
    simp [storageDownEnv, sampleEnv, sampleImage, sampleFile]
  obtain ⟨herr, himg, hbucket⟩ := processUpload_failure defaultConfig storageDownEnv sampleFile
    "user-1" emptyWorld "AccessDenied" (Or.inr (Or.inr ⟨sampleImage 200 200,
      toFaceResults (· * ·) [], hp, rfl, rfl⟩))
  refine ⟨rfl, herr, hbucket, ?_⟩
  rw [himg]
  rfl

/-- C3 (amended): for an upload whose face validation is invalid, when the
bucket takes the bytes `processUpload` puts the normalized bytes into the
bucket and finalizes and returns the record as REJECTED with the reason of the
face validator; when the bucket refuses them `processUpload` throws that error,
stores nothing and leaves the provisional record PROCESSING. In both cases it
makes no further call: no hash, no blur score, no similarity query. -/
theorem processUpload_face_gate (cfg : ImageValidation) (env : Env) (file : UploadedFile)
    (userId : String) (w : World) (img : ProcessedImage) (fr : FaceResults)
    (fv : ValidationResult)
    (hp : processImage env file.buffer file.originalname = .ok img)
    (hd : detectFaces env img.processedBuffer = .ok fr)
    (hv : validateFaces cfg fr = .ok fv) (hvalid : fv.valid = false) :
    (env.s3Upload (uploadParams env img.processedBuffer file.originalname
        (storedContentType img.format file)) = .ok () →
      ∃ r : ImageRecord,
        (processUpload cfg env file userId w).2 = .ok r ∧
        (processUpload cfg env file userId w).1.imageFindUnique r.id = some r ∧
        r.status = .REJECTED ∧
        r.rejectionReason = fv.reason ∧
        (processUpload cfg env file userId w).1.bucket =
          w.bucket ++ [{ Key := "uploads/" ++ env.uuidv4 ++ "-" ++ file.originalname
                         Body := img.processedBuffer
                         ContentType := storedContentType img.format file }] ∧
        (processUpload cfg env file userId w).1.log =
          w.log ++ [.imageCreate, .processImage, .detectFaces, .uploadFile, .imageUpdate]) ∧
    (∀ e, env.s3Upload (uploadParams env img.processedBuffer file.originalname
        (storedContentType img.format file)) = .error e →
      (processUpload cfg env file userId w).2 = .error e ∧
      (processUpload cfg env file userId w).1.bucket = w.bucket ∧
      (∃ prov : ImageRecord, prov.status = .PROCESSING ∧ prov.rejectionReason = none ∧
        (processUpload cfg env file userId w).1.images = w.images ++ [prov]) ∧
      (processUpload cfg env file userId w).1.log =
        w.log ++ [.imageCreate, .processImage, .detectFaces, .uploadFile]) ∧
    (∀ e ∈ (processUpload cfg env file userId w).1.log.drop w.log.length,
      e ≠ .generateSimilarityHash ∧ e ≠ .detectBlurriness ∧ e ≠ .imageFindMany) := by
  have hok : env.s3Upload (uploadParams env img.processedBuffer file.originalname
        (storedContentType img.format file)) = .ok () →
      (processUpload cfg env file userId w).1.log =
        w.log ++ [.imageCreate, .processImage, .detectFaces, .uploadFile, .imageUpdate] :=
    fun hu => (processUpload_face_rejected cfg env file userId w img fr fv hp hd hv hvalid
      hu).choose_spec.choose_spec.2.2.2.2.2
  have herr : ∀ e, env.s3Upload (uploadParams env img.processedBuffer file.originalname
        (storedContentType img.format file)) = .error e →
      (processUpload cfg env file userId w).1.log =
        w.log ++ [.imageCreate, .processImage, .detectFaces, .uploadFile] := by
    intro e hu
    rw [processUpload_gate_failed cfg env file userId w img fr fv hp hd hv hvalid]
    simp [rejectByFace, uploadFile, hu, World.emit, World.imageCreate]
  refine ⟨?_, ?_, ?_⟩
  · intro hu
    obtain ⟨r0, r, hid, hr, hret, hstored, hbucket, hlog⟩ :=
      processUpload_face_rejected cfg env file userId w img fr fv hp hd hv hvalid hu
    have hrid : r.id = w.nextId := by rw [hr]; exact hid
    exact ⟨r, hret, by rw [hrid]; exact hstored, by rw [hr]; rfl, by rw [hr]; rfl, hbucket, hlog⟩
  · intro e hu
    obtain ⟨h1, h2, h3⟩ := processUpload_failure cfg env file userId w e
      (Or.inr (Or.inr ⟨img, fr, hp, hd, hu⟩))
    exact ⟨h1, h3, ⟨_, rfl, rfl, h2⟩, herr e hu⟩
  · intro e he
    cases hu : env.s3Upload (uploadParams env img.processedBuffer file.originalname
        (storedContentType img.format file)) with
    | ok u =>
      rw [hok hu, List.drop_left] at he
      simp only [List.mem_cons, List.mem_singleton, List.not_mem_nil, or_false] at he
      rcases he with h | h | h | h | h <;> subst h <;> decide
    | error err =>
      rw [herr err hu, List.drop_left] at he
      simp only [List.mem_cons, List.mem_singleton, List.not_mem_nil, or_false] at he
      rcases he with h | h | h | h <;> subst h <;> decide

/-- Witness for C3: a blurry, too small upload without a face is stored and
rejected for the missing face. -/
theorem processUpload_face_gate_witness :
    ∃ r : ImageRecord,
      (processUpload defaultConfig (sampleEnv [] 200 200 1) sampleFile "user-1"
        emptyWorld).2 = .ok r ∧ r.status = .REJECTED ∧
      r.rejectionReason = some "No faces detected in the image" ∧
      (processUpload defaultConfig (sampleEnv [] 200 200 1) sampleFile "user-1"
        emptyWorld).1.bucket =
        [{ Key := "uploads/8c2f-me.jpg", Body := [1, 2, 3], ContentType := "image/jpeg" }] := by
  obtain ⟨r, hret, -, hs, hreason, hbucket, -⟩ :=
    (processUpload_face_gate defaultConfig (sampleEnv [] 200 200 1) sampleFile "user-1"
      emptyWorld (sampleImage 200 200) (toFaceResults (· * ·) [])
      (rejected "No faces detected in the image") (sample_processImage _ _ _ _) rfl rfl
      rfl).1 rfl
  refine ⟨r, hret, hs, hreason, ?_⟩
  rw [hbucket]
  decide

/-! ## Listings of reachable stores (claim C17) -/

theorem map_update_fresh (l : List ImageRecord) (prov : ImageRecord) (id : Nat)
    (g : ImageRecord → ImageRecord) (hid : prov.id = id) (hl : ∀ r ∈ l, r.id ≠ id) :
    (l ++ [prov]).map (fun x => if x.id = id then g x else x) = l ++ [g prov] := by
  rw [List.map_append]
  congr 1
  · conv_rhs => rw [← List.map_id l]
    apply List.map_congr_left
    intro x hx
    simp [hl x hx]
  · simp [hid]

/-- Under fresh ids a run of `processUpload` appends one row: the provisional
one, still PROCESSING, or the finalized one, which carries the key of the
stored object. -/
theorem processUpload_new_row (cfg : ImageValidation) (env : Env) (file : UploadedFile)
    (userId : String) (w : World) (hw : ∀ r ∈ w.images, r.id ≠ w.nextId) :
    ∃ x : ImageRecord, (processUpload cfg env file userId w).1.images = w.images ++ [x] ∧
      (x.status = .PROCESSING ∨ x.s3Key ≠ "") := by
  have hprov : ∀ e, (processImage env file.buffer file.originalname = .error e ∨
      (∃ img, processImage env file.buffer file.originalname = .ok img ∧
        detectFaces env img.processedBuffer = .error e) ∨
      (∃ img fr, processImage env file.buffer file.originalname = .ok img ∧
        detectFaces env img.processedBuffer = .ok fr ∧
        env.s3Upload (uploadParams env img.processedBuffer file.originalname
          (storedContentType img.format file)) = .error e)) →
      ∃ x : ImageRecord, (processUpload cfg env file userId w).1.images = w.images ++ [x] ∧
        (x.status = .PROCESSING ∨ x.s3Key ≠ "") := by
    intro e hfail
    obtain ⟨-, himg, -⟩ := processUpload_failure cfg env file userId w e hfail
    exact ⟨_, himg, Or.inl rfl⟩
  have hfind := imageCreate_find_fresh w env (provisionalData env file userId) hw
  cases hp : processImage env file.buffer file.originalname with
  | error e => exact hprov e (Or.inl hp)
  | ok img =>
    cases hd : detectFaces env img.processedBuffer with
    | error e => exact hprov e (Or.inr (Or.inl ⟨img, hp, hd⟩))
    | ok fr =>
      obtain ⟨fv, hv⟩ := detectFaces_validateFaces_ok cfg env img.processedBuffer fr hd
      cases hu : env.s3Upload (uploadParams env img.processedBuffer file.originalname
          (storedContentType img.format file)) with
      | error e => exact hprov e (Or.inr (Or.inr ⟨img, fr, hp, hd, hu⟩))
      | ok u =>
        cases hvalid : fv.valid with
        | false =>
          have himg : (processUpload cfg env file userId w).1.images =
              w.images ++ [faceRejectionData
                (uploadParams env img.processedBuffer file.originalname
                  (storedContentType img.format file)).Key
                (env.s3GetSignedUrl (uploadParams env img.processedBuffer file.originalname
                  (storedContentType img.format file)).Key) img fv
                (w.imageCreate env (provisionalData env file userId)).2] := by
            rw [processUpload_gate_failed cfg env file userId w img fr fv hp hd hv hvalid,
              rejectByFace_outcome env file img fv w.nextId _ _ hu hfind]
            exact map_update_fresh w.images _ w.nextId _ rfl hw
          exact ⟨_, himg, Or.inr (uploadParams_key_ne_empty env img.processedBuffer
            file.originalname (storedContentType img.format file))⟩
        | true =>
          have himg : (processUpload cfg env file userId w).1.images =
              w.images ++ [finalData
                (uploadParams env img.processedBuffer file.originalname
                  (storedContentType img.format file)).Key
                (env.s3GetSignedUrl (uploadParams env img.processedBuffer file.originalname
                  (storedContentType img.format file)).Key) img
                (verdict (runValidations cfg file userId img
                  (env.generateSimilarityHash img.processedBuffer)
                  (env.detectBlurriness img.processedBuffer)
                  (((w.imageCreate env (provisionalData env file userId)).1.emit
                    .processImage).emit .detectFaces)).2).1
                (verdict (runValidations cfg file userId img
                  (env.generateSimilarityHash img.processedBuffer)
                  (env.detectBlurriness img.processedBuffer)
                  (((w.imageCreate env (provisionalData env file userId)).1.emit
                    .processImage).emit .detectFaces)).2).2
                (env.generateSimilarityHash img.processedBuffer)
                (w.imageCreate env (provisionalData env file userId)).2] := by
            rw [processUpload_gate_passed cfg env file userId w img fr fv hp hd hv hvalid,
              validateAndFinalize_outcome cfg env file userId img w.nextId _ _ hu hfind]
            exact map_update_fresh w.images _ w.nextId _ rfl hw
          exact ⟨_, himg, Or.inr (uploadParams_key_ne_empty env img.processedBuffer
            file.originalname (storedContentType img.format file))⟩

theorem serviceStep_invariant (w w' : World) (hstep : ServiceStep w w')
    (h : w.uniqueIds ∧ w.finalizedHaveKeys) : w'.uniqueIds ∧ w'.finalizedHaveKeys := by
  cases hstep with
  | upload cfg env file userId =>
    refine ⟨processUpload_uniqueIds cfg env file userId w h.1, ?_⟩
    obtain ⟨x, himg, hx⟩ := processUpload_new_row cfg env file userId w
      (fun r hr => Nat.ne_of_lt (h.1.2 r hr))
    intro r hr hfinal
    rw [himg] at hr
    rcases List.mem_append.mp hr with hm | hm
    · exact h.2 r hm hfinal
    · rw [List.mem_singleton.mp hm] at hfinal ⊢
      rcases hx with hproc | hkey
      · rw [hproc] at hfinal
        rcases hfinal with hf | hf <;> cases hf
      · exact hkey
  | delete s3Delete _ imageId userId =>
    refine ⟨deleteImage_uniqueIds s3Delete w imageId userId h.1, ?_⟩
    rcases deleteImage_world s3Delete w imageId userId with hsame | ⟨image, -, -, himg, -⟩
    · rw [hsame]; exact h.2
    · intro r hr hfinal
      rw [himg] at hr
      exact h.2 r (List.mem_filter.mp hr).1 hfinal

theorem reachable_finalizedHaveKeys (w0 w : World) (h0 : w0.images = [])
    (hreach : Relation.ReflTransGen ServiceStep w0 w) : w.finalizedHaveKeys := by
  have hinv : w.uniqueIds ∧ w.finalizedHaveKeys := by
    induction hreach with
    | refl =>
      refine ⟨⟨?_, ?_⟩, ?_⟩
      · rw [h0]; exact List.nodup_nil
      · intro r hr; rw [h0] at hr; cases hr
      · intro r hr; rw [h0] at hr; cases hr
    | tail _ hstep ih => exact serviceStep_invariant _ _ hstep ih
  exact hinv.2

theorem mem_imageFindManyPage (w : World) (userId : String) (status : Option Status)
    (skip take : Nat) (r : ImageRecord) (h : r ∈ w.imageFindManyPage userId status skip take) :
    r ∈ w.images := by
  unfold World.imageFindManyPage at h
  have h1 := List.mem_of_mem_drop (List.mem_of_mem_take h)
  rw [List.mem_insertionSort] at h1
  exact ((mem_imageFindMany w userId status r).mp h1).1

/-- C17: in every store the service can reach from an empty record store by
uploads and deletions, `getUserImages` returns as many records as it fetched,
in the same order; each returned record equals the stored one in every field
but `s3Url`; for every record with status ACCEPTED or REJECTED the returned
`s3Url` is the freshly signed URL of the record's storage key, whatever URL is
stored; a record still PROCESSING is returned as stored. -/
theorem getUserImages_fresh_urls (env : Env) (w0 w : World) (h0 : w0.images = [])
    (hreach : Relation.ReflTransGen ServiceStep w0 w) (userId : String)
    (status : Option Status) (page limit : Nat) :
    (getUserImages env w userId status page limit).images.length =
      (w.imageFindManyPage userId status ((page - 1) * limit) limit).length ∧
    (∀ k stored,
      (w.imageFindManyPage userId status ((page - 1) * limit) limit).get? k = some stored →
      ∃ returned,
        (getUserImages env w userId status page limit).images.get? k = some returned ∧
        { returned with s3Url := stored.s3Url } = stored ∧
        ((stored.status = .ACCEPTED ∨ stored.status = .REJECTED) →
          returned.s3Url = getSignedUrl env stored.s3Key) ∧
        (stored.status = .PROCESSING → returned = stored)) ∧
    (∀ r ∈ (getUserImages env w userId status page limit).images,
      (r.status = .ACCEPTED ∨ r.status = .REJECTED) →
        r.s3Url = getSignedUrl env r.s3Key) := by
  have hkeys := reachable_finalizedHaveKeys w0 w h0 hreach
  obtain ⟨hlen, hget, -⟩ := getUserImages_refresh env w userId status page limit
  refine ⟨hlen, ?_, ?_⟩
  · intro k stored hk
    obtain ⟨returned, h1, h2, h3, h4⟩ := hget k stored hk
    have hmem : stored ∈ w.images :=
      mem_imageFindManyPage w userId status _ _ stored (List.get?_mem hk)
    refine ⟨returned, h1, h2, fun hs => h3 hs (hkeys stored hmem hs), ?_⟩
    intro hproc
    apply h4
    rintro ⟨hs | hs, -⟩ <;> (rw [hproc] at hs; cases hs)
  · intro r hr hfinal
    simp only [getUserImages, List.mem_map] at hr
    obtain ⟨stored, hmem, rfl⟩ := hr
    have hin : stored ∈ w.images := mem_imageFindManyPage w userId status _ _ stored hmem
    by_cases hcond : (stored.status = .ACCEPTED ∨ stored.status = .REJECTED) ∧ stored.s3Key ≠ ""
    · simp only [withFreshUrl, if_pos hcond]
    · exfalso
      apply hcond
      have hst : (withFreshUrl env stored).status = stored.status := by
        unfold withFreshUrl
        split_ifs
        rfl
      rw [hst] at hfinal
      exact ⟨hfinal, hkeys stored hin hfinal⟩

/-- Witness for C17: after the upload of an accepted portrait into an empty
store, a later listing returns the record with the URL of its key signed
afresh. -/
theorem getUserImages_fresh_urls_witness :
    ((getUserImages laterEnv
        (processUpload defaultConfig (sampleEnv [fivePercentFace] 800 600 50) sampleFile
          "user-1" emptyWorld).1 "user-1" none 1 10).images.map
        fun r => (r.status, r.s3Url)) =
      [(Status.ACCEPTED, "https://bucket.example/fresh/uploads/8c2f-me.jpg")] ∧
    ∀ r ∈ (getUserImages laterEnv
        (processUpload defaultConfig (sampleEnv [fivePercentFace] 800 600 50) sampleFile
          "user-1" emptyWorld).1 "user-1" none 1 10).images,
      (r.status = .ACCEPTED ∨ r.status = .REJECTED) →
        r.s3Url = "https://bucket.example/fresh/" ++ r.s3Key :=
  ⟨by decide!,
    (getUserImages_fresh_urls laterEnv emptyWorld _ rfl
      (Relation.ReflTransGen.single (ServiceStep.upload defaultConfig
        (sampleEnv [fivePercentFace] 800 600 50) sampleFile "user-1" emptyWorld))
      "user-1" none 1 10).2.2⟩

/-! ## A decoded image that scores 100 (claim C29) -/

/-- Counterexample for C29: a 5x5 image, black except for a centre of 50, is
decoded without an error and scores exactly 100, the value of the `catch`
block: its single interior pixel has the Laplacian value 200, and the
normalization factor is 1/2. -/
theorem detectBlurriness_decoded_hundred_counterexample :
    (sampleCodec [] centreFifty fun _ => 5).greyscaleRaw [1, 2, 3] = .ok centreFifty ∧
    detectBlurriness (sampleCodec [] centreFifty fun _ => 5) [1, 2, 3] = some 100 := by
  refine ⟨rfl, ?_⟩
  rw [detectBlurriness_eq (sampleCodec [] centreFifty fun _ => 5) [1, 2, 3] centreFifty rfl rfl]
  have hmean : meanLaplacianSpec centreFifty.data centreFifty.width centreFifty.height = 200 := by
    show meanLaplacianSpec centreFifty.data 5 5 = 200
    rw [meanLaplacianSpec_five]
    simp [laplacianSpec, pixelValue, centreFifty]
    norm_num
  rw [hmean]
  simp [sampleCodec, centreFifty]
  norm_num

end AragonImageUpload
